import Mathlib

/-!
# Kinematic chain evaluation of the da Vinci visualizer (`src/src/snippets.cpp`)

A shallow embedding of the transform engine: 4x4 transforms stored as
sixteen-cell OpenGL arrays, the Denavit-Hartenberg and general frame
evaluators, and the three chain builders; then the pose grabbers of
`src/src/pose_grabber.cpp` that feed them and the configuration reader of
`src/include/config_reader.hpp`.

Modelling conventions.
* `GLdouble` values are idealised as elements of an arbitrary field `R`
  (the float parameter `angle` of `extendChain` is idealised in the same way);
  the library functions `sin` and `cos` are parameters `sin cos : R → R`, so
  every definition is executable (for instance over `ℚ`) and can be
  instantiated with `Real.sin` and `Real.cos`.  Where the rounding of a
  double matters, the double is the rational number it holds.
* A `GLdouble*` argument or a local `GLdouble[16]` is a function
  `Fin 16 → R`; an assignment `A[_rc] = v` is `Function.update`.
* A procedure that writes through a pointer returns the new contents.
* Console output is not part of the state and is left out.
-/

namespace Viz

/-- A sixteen-cell array of scalars, the target of a `GLdouble*`. -/
abbrev GLMat (R : Type) := Fin 16 → R

/-! ## OpenGL matrix offsets (lines 6-22) -/

def _00 : Fin 16 := 0
def _10 : Fin 16 := 1
def _20 : Fin 16 := 2
def _30 : Fin 16 := 3
def _01 : Fin 16 := 4
def _11 : Fin 16 := 5
def _21 : Fin 16 := 6
def _31 : Fin 16 := 7
def _02 : Fin 16 := 8
def _12 : Fin 16 := 9
def _22 : Fin 16 := 10
def _32 : Fin 16 := 11
def _03 : Fin 16 := 12
def _13 : Fin 16 := 13
def _23 : Fin 16 := 14
def _33 : Fin 16 := 15

section Engine

variable {R : Type} [Field R]

/-- The constant `SCALE = 41.8` of line 24. -/
def SCALE : R := 41.8

/-- The assignment `A[i] = v`. -/
def setCell (A : GLMat R) (i : Fin 16) (v : R) : GLMat R := Function.update A i v

/-- The contents of a local array before its first assignment; every cell
is written before it is read. -/
def uninit : GLMat R := fun _ => 0

/-- Set identity matrix (lines 27-33). -/
def glhSetIdentity (A : GLMat R) : GLMat R :=
  let A := setCell A _00 1; let A := setCell A _01 0; let A := setCell A _02 0; let A := setCell A _03 0
  let A := setCell A _10 0; let A := setCell A _11 1; let A := setCell A _12 0; let A := setCell A _13 0
  let A := setCell A _20 0; let A := setCell A _21 0; let A := setCell A _22 1; let A := setCell A _23 0
  let A := setCell A _30 0; let A := setCell A _31 0; let A := setCell A _32 0; let A := setCell A _33 1
  A

/-- The loop `for (i = 0; i < 16; i++) B[i] = M[i];` of lines 57-58. -/
def copyLoop (M : GLMat R) (B : GLMat R) : GLMat R :=
  (List.finRange 16).foldl (fun acc i => setCell acc i (M i)) B

/-- Matrix multiplication `B = BA` (lines 38-59).  The first component is
the read-only argument `A` after the call, the second is `B` after the call. -/
def glhMultMatrixRight (A : GLMat R) (B : GLMat R) : GLMat R × GLMat R :=
  let M : GLMat R := uninit
  let M := setCell M _00 (B _00 * A _00 + B _01 * A _10 + B _02 * A _20 + B _03 * A _30)
  let M := setCell M _10 (B _10 * A _00 + B _11 * A _10 + B _12 * A _20 + B _13 * A _30)
  let M := setCell M _20 (B _20 * A _00 + B _21 * A _10 + B _22 * A _20 + B _23 * A _30)
  let M := setCell M _30 (B _30 * A _00 + B _31 * A _10 + B _32 * A _20 + B _33 * A _30)
  let M := setCell M _01 (B _00 * A _01 + B _01 * A _11 + B _02 * A _21 + B _03 * A _31)
  let M := setCell M _11 (B _10 * A _01 + B _11 * A _11 + B _12 * A _21 + B _13 * A _31)
  let M := setCell M _21 (B _20 * A _01 + B _21 * A _11 + B _22 * A _21 + B _23 * A _31)
  let M := setCell M _31 (B _30 * A _01 + B _31 * A _11 + B _32 * A _21 + B _33 * A _31)
  let M := setCell M _02 (B _00 * A _02 + B _01 * A _12 + B _02 * A _22 + B _03 * A _32)
  let M := setCell M _12 (B _10 * A _02 + B _11 * A _12 + B _12 * A _22 + B _13 * A _32)
  let M := setCell M _22 (B _20 * A _02 + B _21 * A _12 + B _22 * A _22 + B _23 * A _32)
  let M := setCell M _32 (B _30 * A _02 + B _31 * A _12 + B _32 * A _22 + B _33 * A _32)
  let M := setCell M _03 (B _00 * A _03 + B _01 * A _13 + B _02 * A _23 + B _03 * A _33)
  let M := setCell M _13 (B _10 * A _03 + B _11 * A _13 + B _12 * A _23 + B _13 * A _33)
  let M := setCell M _23 (B _20 * A _03 + B _21 * A _13 + B _22 * A _23 + B _23 * A _33)
  let M := setCell M _33 (B _30 * A _03 + B _31 * A _13 + B _32 * A _23 + B _33 * A _33)
  (A, copyLoop M B)

/-- Create Denavit-Hartenberg transformation (lines 92-116). -/
def glhDenavitHartenberg (sin cos : R → R) (a alpha d theta : R) (A : GLMat R) : GLMat R :=
  let sa := sin alpha
  let ca := cos alpha
  let st := sin theta
  let ct := cos theta
  let A := setCell A _00 ct
  let A := setCell A _10 (ca * st)
  let A := setCell A _20 (sa * st)
  let A := setCell A _30 0
  let A := setCell A _01 (-st)
  let A := setCell A _11 (ca * ct)
  let A := setCell A _21 (sa * ct)
  let A := setCell A _31 0
  let A := setCell A _02 0
  let A := setCell A _12 (-sa)
  let A := setCell A _22 ca
  let A := setCell A _32 0
  let A := setCell A _03 a
  let A := setCell A _13 (-sa * d)
  let A := setCell A _23 (ca * d)
  let A := setCell A _33 1
  A

end Engine

/-! ## Frames and the chain description -/

/-- Joint types of a Denavit-Hartenberg link, as dispatched by the `switch`
of lines 123-136. -/
inductive JointTypeEnum where
  | FIXED
  | ROTARY
  | PRISMATIC
  deriving DecidableEq, Repr

/-- A general frame: the fields read by `extendChain` (lines 68-82). -/
structure GeneralFrame (R : Type) where
  mR00 : R
  mR01 : R
  mR02 : R
  mR10 : R
  mR11 : R
  mR12 : R
  mR20 : R
  mR21 : R
  mR22 : R
  mX : R
  mY : R
  mZ : R

/-- A Denavit-Hartenberg frame: the fields read by `extendChain`
(lines 123-134). -/
structure DenavitHartenbergFrame (R : Type) where
  mA : R
  mAlpha : R
  mD : R
  mTheta : R
  mJointType : JointTypeEnum

/-- Modelled from the spec: the declaration of `DaVinciKinematicChain` is not
among the sources.  Each table has the cells the builders index; the world
origin link and the origin-transfer link of each manipulator are general
frames (the two fixed origin links not driven by any joint), the setup-joint
and arm tables hold Denavit-Hartenberg frames. -/
structure DaVinciKinematicChain (R : Type) where
  mWorldOriginSUJ1Origin : Fin 1 → GeneralFrame R
  mSUJ1OriginSUJ1Tip : Fin 6 → DenavitHartenbergFrame R
  mSUJ1TipPSM1Origin : Fin 1 → GeneralFrame R
  mPSM1OriginPSM1Tip : Fin 7 → DenavitHartenbergFrame R
  mWorldOriginSUJ2Origin : Fin 1 → GeneralFrame R
  mSUJ2OriginSUJ2Tip : Fin 6 → DenavitHartenbergFrame R
  mSUJ2TipPSM2Origin : Fin 1 → GeneralFrame R
  mPSM2OriginPSM2Tip : Fin 7 → DenavitHartenbergFrame R
  mWorldOriginSUJ3Origin : Fin 1 → GeneralFrame R
  mSUJ3OriginSUJ3Tip : Fin 6 → DenavitHartenbergFrame R
  mSUJ3TipECM1Origin : Fin 1 → GeneralFrame R
  mECM1OriginECM1Tip : Fin 7 → DenavitHartenbergFrame R

/-- Modelled from the spec: the declaration of `API_PSM` is not among the
sources.  Six setup-joint angles and seven arm joint values. -/
structure API_PSM (R : Type) where
  sj_joint_angles : Fin 6 → R
  jnt_pos : Fin 7 → R

/-- Modelled from the spec: the declaration of `API_ECM` is not among the
sources.  Six setup-joint angles and four arm joint values. -/
structure API_ECM (R : Type) where
  sj_joint_angles : Fin 6 → R
  jnt_pos : Fin 4 → R

/-- The container `viz::Pose`: the vector `poses_` of stored transforms. -/
structure Pose (R : Type) where
  poses_ : List (GLMat R)

/-- The call `poses_.push_back(ci::Matrix44d(A))`: a copy of the sixteen
cells of `A` is appended. -/
def Pose.push_back {R : Type} (p : Pose R) (A : GLMat R) : Pose R :=
  ⟨p.poses_ ++ [A]⟩

/-- What a chain builder leaves behind in its three reference arguments. -/
structure BuildResult (R : Type) where
  A : GLMat R
  suj_frames : Pose R
  frames : Pose R

section Chain

variable {R : Type} [Field R]

/-- The local array `G` filled by `extendChain` for a general frame
(lines 66-83). -/
def generalFrameG (frame : GeneralFrame R) : GLMat R :=
  let G : GLMat R := uninit
  let G := setCell G _00 frame.mR00
  let G := setCell G _10 frame.mR10
  let G := setCell G _20 frame.mR20
  let G := setCell G _30 0
  let G := setCell G _01 frame.mR01
  let G := setCell G _11 frame.mR11
  let G := setCell G _21 frame.mR21
  let G := setCell G _31 0
  let G := setCell G _02 frame.mR02
  let G := setCell G _12 frame.mR12
  let G := setCell G _22 frame.mR22
  let G := setCell G _32 0
  let G := setCell G _03 (frame.mX * SCALE)
  let G := setCell G _13 (frame.mY * SCALE)
  let G := setCell G _23 (frame.mZ * SCALE)
  let G := setCell G _33 1
  G

/-- Concatenate kinematic chain transformations, general frame
(lines 64-87). -/
def extendChain (frame : GeneralFrame R) (A : GLMat R) : GLMat R :=
  (glhMultMatrixRight (generalFrameG frame) A).2

/-- The local array `DH` filled by the `switch` of `extendChain` for a
Denavit-Hartenberg frame (lines 121-136). -/
def denavitHartenbergDH (sin cos : R → R) (frame : DenavitHartenbergFrame R) (angle : R) :
    GLMat R :=
  let DH : GLMat R := uninit
  match frame.mJointType with
  | JointTypeEnum.FIXED =>
    glhDenavitHartenberg sin cos (frame.mA * SCALE) frame.mAlpha (frame.mD * SCALE) frame.mTheta DH
  | JointTypeEnum.ROTARY =>
    glhDenavitHartenberg sin cos (frame.mA * SCALE) frame.mAlpha (frame.mD * SCALE)
      (frame.mTheta + angle) DH
  | JointTypeEnum.PRISMATIC =>
    glhDenavitHartenberg sin cos (frame.mA * SCALE) frame.mAlpha ((frame.mD + angle) * SCALE)
      frame.mTheta DH

/-- Concatenate kinematic chain transformations, Denavit-Hartenberg frame
with joint variable `angle` (lines 119-139). -/
def extendChainDH (sin cos : R → R) (frame : DenavitHartenbergFrame R) (A : GLMat R)
    (angle : R) : GLMat R :=
  (glhMultMatrixRight (denavitHartenbergDH sin cos frame angle) A).2

/-- The same overload called without its last argument: `angle = 0.0`. -/
def extendChainDH0 (sin cos : R → R) (frame : DenavitHartenbergFrame R) (A : GLMat R) :
    GLMat R :=
  extendChainDH sin cos frame A 0

/-- Concatenate chain transformations for PSM2 (lines 148-184). -/
def buildKinematicChainPSM2 (sin cos : R → R) (mDaVinciChain : DaVinciKinematicChain R)
    (psm : API_PSM R) (A : GLMat R) (suj_frames frames : Pose R) : BuildResult R :=
  let A := glhSetIdentity A
  let A := extendChain (mDaVinciChain.mWorldOriginSUJ2Origin 0) A
  let A := extendChainDH sin cos (mDaVinciChain.mSUJ2OriginSUJ2Tip 0) A (psm.sj_joint_angles 0)
  let A := extendChainDH sin cos (mDaVinciChain.mSUJ2OriginSUJ2Tip 1) A (psm.sj_joint_angles 1)
  let A := extendChainDH sin cos (mDaVinciChain.mSUJ2OriginSUJ2Tip 2) A (psm.sj_joint_angles 2)
  let A := extendChainDH sin cos (mDaVinciChain.mSUJ2OriginSUJ2Tip 3) A (psm.sj_joint_angles 3)
  let A := extendChainDH sin cos (mDaVinciChain.mSUJ2OriginSUJ2Tip 4) A (psm.sj_joint_angles 4)
  let A := extendChainDH sin cos (mDaVinciChain.mSUJ2OriginSUJ2Tip 5) A (psm.sj_joint_angles 5)
  let A := extendChain (mDaVinciChain.mSUJ2TipPSM2Origin 0) A
  let A := extendChainDH sin cos (mDaVinciChain.mPSM2OriginPSM2Tip 0) A (psm.jnt_pos 0)
  let A := extendChainDH sin cos (mDaVinciChain.mPSM2OriginPSM2Tip 1) A (psm.jnt_pos 1)
  let A := extendChainDH sin cos (mDaVinciChain.mPSM2OriginPSM2Tip 2) A (psm.jnt_pos 2)
  let A := extendChainDH sin cos (mDaVinciChain.mPSM2OriginPSM2Tip 3) A (psm.jnt_pos 3)
  let roll := A
  let frames := frames.push_back roll
  let A := extendChainDH sin cos (mDaVinciChain.mPSM2OriginPSM2Tip 4) A (psm.jnt_pos 4)
  let wrist_pitch := A
  let frames := frames.push_back wrist_pitch
  let A := extendChainDH sin cos (mDaVinciChain.mPSM2OriginPSM2Tip 5) A (psm.jnt_pos 5)
  let wrist_yaw := A
  let frames := frames.push_back wrist_yaw
  let A := extendChainDH sin cos (mDaVinciChain.mPSM2OriginPSM2Tip 6) A (psm.jnt_pos 6)
  let grip := A
  let frames := frames.push_back grip
  ⟨A, suj_frames, frames⟩

/-- Concatenate chain transformations for ECM1 (lines 189-211). -/
def buildKinematicChainECM1 (sin cos : R → R) (mDaVinciChain : DaVinciKinematicChain R)
    (ecm : API_ECM R) (A : GLMat R) (suj_frames frames : Pose R) : BuildResult R :=
  let A := glhSetIdentity A
  let A := extendChain (mDaVinciChain.mWorldOriginSUJ3Origin 0) A
  let A := extendChainDH sin cos (mDaVinciChain.mSUJ3OriginSUJ3Tip 0) A (ecm.sj_joint_angles 0)
  let A := extendChainDH sin cos (mDaVinciChain.mSUJ3OriginSUJ3Tip 1) A (ecm.sj_joint_angles 1)
  let A := extendChainDH sin cos (mDaVinciChain.mSUJ3OriginSUJ3Tip 2) A (ecm.sj_joint_angles 2)
  let A := extendChainDH sin cos (mDaVinciChain.mSUJ3OriginSUJ3Tip 3) A (ecm.sj_joint_angles 3)
  let A := extendChainDH0 sin cos (mDaVinciChain.mSUJ3OriginSUJ3Tip 4) A
  let A := extendChainDH0 sin cos (mDaVinciChain.mSUJ3OriginSUJ3Tip 5) A
  let A := extendChain (mDaVinciChain.mSUJ3TipECM1Origin 0) A
  let A := extendChainDH sin cos (mDaVinciChain.mECM1OriginECM1Tip 0) A (ecm.jnt_pos 0)
  let A := extendChainDH sin cos (mDaVinciChain.mECM1OriginECM1Tip 1) A (ecm.jnt_pos 1)
  let A := extendChainDH sin cos (mDaVinciChain.mECM1OriginECM1Tip 2) A (ecm.jnt_pos 2)
  let A := extendChainDH sin cos (mDaVinciChain.mECM1OriginECM1Tip 3) A (ecm.jnt_pos 3)
  let A := extendChainDH0 sin cos (mDaVinciChain.mECM1OriginECM1Tip 4) A
  let A := extendChainDH0 sin cos (mDaVinciChain.mECM1OriginECM1Tip 5) A
  let A := extendChainDH0 sin cos (mDaVinciChain.mECM1OriginECM1Tip 6) A
  let frames := frames.push_back A
  ⟨A, suj_frames, frames⟩

/-- Concatenate chain transformations for PSM1 (lines 215-254). -/
def buildKinematicChainPSM1 (sin cos : R → R) (mDaVinciChain : DaVinciKinematicChain R)
    (psm : API_PSM R) (A : GLMat R) (suj_frames frames : Pose R) : BuildResult R :=
  let A := glhSetIdentity A
  let A := extendChain (mDaVinciChain.mWorldOriginSUJ1Origin 0) A
  let A := extendChainDH sin cos (mDaVinciChain.mSUJ1OriginSUJ1Tip 0) A (psm.sj_joint_angles 0)
  let A := extendChainDH sin cos (mDaVinciChain.mSUJ1OriginSUJ1Tip 1) A (psm.sj_joint_angles 1)
  let A := extendChainDH sin cos (mDaVinciChain.mSUJ1OriginSUJ1Tip 2) A (psm.sj_joint_angles 2)
  let A := extendChainDH sin cos (mDaVinciChain.mSUJ1OriginSUJ1Tip 3) A (psm.sj_joint_angles 3)
  let A := extendChainDH sin cos (mDaVinciChain.mSUJ1OriginSUJ1Tip 4) A (psm.sj_joint_angles 4)
  let A := extendChainDH sin cos (mDaVinciChain.mSUJ1OriginSUJ1Tip 5) A (psm.sj_joint_angles 5)
  let A := extendChain (mDaVinciChain.mSUJ1TipPSM1Origin 0) A
  let A := extendChainDH sin cos (mDaVinciChain.mPSM1OriginPSM1Tip 0) A (psm.jnt_pos 0)
  let A := extendChainDH sin cos (mDaVinciChain.mPSM1OriginPSM1Tip 1) A (psm.jnt_pos 1)
  let A := extendChainDH sin cos (mDaVinciChain.mPSM1OriginPSM1Tip 2) A (psm.jnt_pos 2)
  let A := extendChainDH sin cos (mDaVinciChain.mPSM1OriginPSM1Tip 3) A (psm.jnt_pos 3)
  let roll := A
  let frames := frames.push_back roll
  let A := extendChainDH sin cos (mDaVinciChain.mPSM1OriginPSM1Tip 4) A (psm.jnt_pos 4)
  let wrist_pitch := A
  let frames := frames.push_back wrist_pitch
  let A := extendChainDH sin cos (mDaVinciChain.mPSM1OriginPSM1Tip 5) A (psm.jnt_pos 5)
  let wrist_yaw := A
  let frames := frames.push_back wrist_yaw
  let A := extendChainDH sin cos (mDaVinciChain.mPSM1OriginPSM1Tip 6) A (psm.jnt_pos 6)
  let grip := A
  let frames := frames.push_back grip
  ⟨A, suj_frames, frames⟩

end Chain

/-! ## Reading an array as a 4x4 matrix -/

section View

variable {R : Type} [Field R]

/-- The column-major offset of entry `(r, c)`: `r + 4 * c`. -/
def offset (r c : Fin 4) : Fin 16 := ⟨r.val + 4 * c.val, by omega⟩

/-- The 4x4 matrix stored in an array, entry `(r, c)` at `offset r c`. -/
def toMatrix (A : GLMat R) : Matrix (Fin 4) (Fin 4) R :=
  Matrix.of fun r c => A (offset r c)

/-- The Denavit-Hartenberg matrix of section 4.2 of the specification. -/
def dhMatrix (sin cos : R → R) (a alpha d theta : R) : Matrix (Fin 4) (Fin 4) R :=
  !![cos theta, -sin theta, 0, a;
     cos alpha * sin theta, cos alpha * cos theta, -sin alpha, -sin alpha * d;
     sin alpha * sin theta, sin alpha * cos theta, cos alpha, cos alpha * d;
     0, 0, 0, 1]

/-- The transform of section 4.3 of the specification for a general frame and
a length scale `s`: rotation copied, translation multiplied by `s`. -/
def generalMatrix (s : R) (frame : GeneralFrame R) : Matrix (Fin 4) (Fin 4) R :=
  !![frame.mR00, frame.mR01, frame.mR02, s * frame.mX;
     frame.mR10, frame.mR11, frame.mR12, s * frame.mY;
     frame.mR20, frame.mR21, frame.mR22, s * frame.mZ;
     0, 0, 0, 1]

/-- The joint-variable dispatch of section 4.2: the angle parameter. -/
def thetaOf (frame : DenavitHartenbergFrame R) (q : R) : R :=
  if frame.mJointType = JointTypeEnum.ROTARY then frame.mTheta + q else frame.mTheta

/-- The joint-variable dispatch of section 4.2: the offset parameter. -/
def dOf (frame : DenavitHartenbergFrame R) (q : R) : R :=
  if frame.mJointType = JointTypeEnum.PRISMATIC then frame.mD + q else frame.mD

/-- The ordered right-product `I * M0 * M1 * ...` of a list of local
transforms, associated to the left as the accumulator builds it. -/
def rightProduct (Ms : List (Matrix (Fin 4) (Fin 4) R)) : Matrix (Fin 4) (Fin 4) R :=
  Ms.foldl (fun acc M => acc * M) 1

/-- The array whose matrix view is `M`: cell `i` holds entry
`(i % 4, i / 4)`. -/
def ofMatrix (M : Matrix (Fin 4) (Fin 4) R) : GLMat R :=
  fun i => M ⟨i.val % 4, by omega⟩ ⟨i.val / 4, by omega⟩

/-- The local transform of a general link: the matrix held by the array `G`
that `extendChain` composes onto the accumulator. -/
def generalLocal (frame : GeneralFrame R) : Matrix (Fin 4) (Fin 4) R :=
  toMatrix (generalFrameG frame)

/-- The local transform of a Denavit-Hartenberg link evaluated with joint
variable `q`: the matrix held by the array `DH` that `extendChain` composes
onto the accumulator. -/
def dhLocal (sin cos : R → R) (frame : DenavitHartenbergFrame R) (q : R) :
    Matrix (Fin 4) (Fin 4) R :=
  toMatrix (denavitHartenbergDH sin cos frame q)

/-- The links of the PSM1 chain in walking order, each setup-joint link with
its setup-joint angle and each arm link with its arm joint value:
W, S0 .. S5, T, P0 .. P6. -/
def psm1Links (sin cos : R → R) (chain : DaVinciKinematicChain R) (psm : API_PSM R) :
    List (Matrix (Fin 4) (Fin 4) R) :=
  [generalLocal (chain.mWorldOriginSUJ1Origin 0),
   dhLocal sin cos (chain.mSUJ1OriginSUJ1Tip 0) (psm.sj_joint_angles 0),
   dhLocal sin cos (chain.mSUJ1OriginSUJ1Tip 1) (psm.sj_joint_angles 1),
   dhLocal sin cos (chain.mSUJ1OriginSUJ1Tip 2) (psm.sj_joint_angles 2),
   dhLocal sin cos (chain.mSUJ1OriginSUJ1Tip 3) (psm.sj_joint_angles 3),
   dhLocal sin cos (chain.mSUJ1OriginSUJ1Tip 4) (psm.sj_joint_angles 4),
   dhLocal sin cos (chain.mSUJ1OriginSUJ1Tip 5) (psm.sj_joint_angles 5),
   generalLocal (chain.mSUJ1TipPSM1Origin 0),
   dhLocal sin cos (chain.mPSM1OriginPSM1Tip 0) (psm.jnt_pos 0),
   dhLocal sin cos (chain.mPSM1OriginPSM1Tip 1) (psm.jnt_pos 1),
   dhLocal sin cos (chain.mPSM1OriginPSM1Tip 2) (psm.jnt_pos 2),
   dhLocal sin cos (chain.mPSM1OriginPSM1Tip 3) (psm.jnt_pos 3),
   dhLocal sin cos (chain.mPSM1OriginPSM1Tip 4) (psm.jnt_pos 4),
   dhLocal sin cos (chain.mPSM1OriginPSM1Tip 5) (psm.jnt_pos 5),
   dhLocal sin cos (chain.mPSM1OriginPSM1Tip 6) (psm.jnt_pos 6)]

/-- The links of the PSM2 chain in walking order, on the PSM2 tables. -/
def psm2Links (sin cos : R → R) (chain : DaVinciKinematicChain R) (psm : API_PSM R) :
    List (Matrix (Fin 4) (Fin 4) R) :=
  [generalLocal (chain.mWorldOriginSUJ2Origin 0),
   dhLocal sin cos (chain.mSUJ2OriginSUJ2Tip 0) (psm.sj_joint_angles 0),
   dhLocal sin cos (chain.mSUJ2OriginSUJ2Tip 1) (psm.sj_joint_angles 1),
   dhLocal sin cos (chain.mSUJ2OriginSUJ2Tip 2) (psm.sj_joint_angles 2),
   dhLocal sin cos (chain.mSUJ2OriginSUJ2Tip 3) (psm.sj_joint_angles 3),
   dhLocal sin cos (chain.mSUJ2OriginSUJ2Tip 4) (psm.sj_joint_angles 4),
   dhLocal sin cos (chain.mSUJ2OriginSUJ2Tip 5) (psm.sj_joint_angles 5),
   generalLocal (chain.mSUJ2TipPSM2Origin 0),
   dhLocal sin cos (chain.mPSM2OriginPSM2Tip 0) (psm.jnt_pos 0),
   dhLocal sin cos (chain.mPSM2OriginPSM2Tip 1) (psm.jnt_pos 1),
   dhLocal sin cos (chain.mPSM2OriginPSM2Tip 2) (psm.jnt_pos 2),
   dhLocal sin cos (chain.mPSM2OriginPSM2Tip 3) (psm.jnt_pos 3),
   dhLocal sin cos (chain.mPSM2OriginPSM2Tip 4) (psm.jnt_pos 4),
   dhLocal sin cos (chain.mPSM2OriginPSM2Tip 5) (psm.jnt_pos 5),
   dhLocal sin cos (chain.mPSM2OriginPSM2Tip 6) (psm.jnt_pos 6)]

/-- The links of the ECM chain as the specification words them: every one of
the six setup-joint links with its setup-joint angle, the four active arm
links with their joint values, the three trailing arm links with no joint
variable. -/
def ecmLinksClaimed (sin cos : R → R) (chain : DaVinciKinematicChain R) (ecm : API_ECM R) :
    List (Matrix (Fin 4) (Fin 4) R) :=
  [generalLocal (chain.mWorldOriginSUJ3Origin 0),
   dhLocal sin cos (chain.mSUJ3OriginSUJ3Tip 0) (ecm.sj_joint_angles 0),
   dhLocal sin cos (chain.mSUJ3OriginSUJ3Tip 1) (ecm.sj_joint_angles 1),
   dhLocal sin cos (chain.mSUJ3OriginSUJ3Tip 2) (ecm.sj_joint_angles 2),
   dhLocal sin cos (chain.mSUJ3OriginSUJ3Tip 3) (ecm.sj_joint_angles 3),
   dhLocal sin cos (chain.mSUJ3OriginSUJ3Tip 4) (ecm.sj_joint_angles 4),
   dhLocal sin cos (chain.mSUJ3OriginSUJ3Tip 5) (ecm.sj_joint_angles 5),
   generalLocal (chain.mSUJ3TipECM1Origin 0),
   dhLocal sin cos (chain.mECM1OriginECM1Tip 0) (ecm.jnt_pos 0),
   dhLocal sin cos (chain.mECM1OriginECM1Tip 1) (ecm.jnt_pos 1),
   dhLocal sin cos (chain.mECM1OriginECM1Tip 2) (ecm.jnt_pos 2),
   dhLocal sin cos (chain.mECM1OriginECM1Tip 3) (ecm.jnt_pos 3),
   dhLocal sin cos (chain.mECM1OriginECM1Tip 4) 0,
   dhLocal sin cos (chain.mECM1OriginECM1Tip 5) 0,
   dhLocal sin cos (chain.mECM1OriginECM1Tip 6) 0]

/-- The links of the ECM chain as `buildKinematicChainECM1` walks them: the
setup-joint links 0 to 3 with their setup-joint angles, the setup-joint links
4 and 5 with no joint variable, the four active arm links with their joint
values, the three trailing arm links with no joint variable. -/
def ecmLinks (sin cos : R → R) (chain : DaVinciKinematicChain R) (ecm : API_ECM R) :
    List (Matrix (Fin 4) (Fin 4) R) :=
  [generalLocal (chain.mWorldOriginSUJ3Origin 0),
   dhLocal sin cos (chain.mSUJ3OriginSUJ3Tip 0) (ecm.sj_joint_angles 0),
   dhLocal sin cos (chain.mSUJ3OriginSUJ3Tip 1) (ecm.sj_joint_angles 1),
   dhLocal sin cos (chain.mSUJ3OriginSUJ3Tip 2) (ecm.sj_joint_angles 2),
   dhLocal sin cos (chain.mSUJ3OriginSUJ3Tip 3) (ecm.sj_joint_angles 3),
   dhLocal sin cos (chain.mSUJ3OriginSUJ3Tip 4) 0,
   dhLocal sin cos (chain.mSUJ3OriginSUJ3Tip 5) 0,
   generalLocal (chain.mSUJ3TipECM1Origin 0),
   dhLocal sin cos (chain.mECM1OriginECM1Tip 0) (ecm.jnt_pos 0),
   dhLocal sin cos (chain.mECM1OriginECM1Tip 1) (ecm.jnt_pos 1),
   dhLocal sin cos (chain.mECM1OriginECM1Tip 2) (ecm.jnt_pos 2),
   dhLocal sin cos (chain.mECM1OriginECM1Tip 3) (ecm.jnt_pos 3),
   dhLocal sin cos (chain.mECM1OriginECM1Tip 4) 0,
   dhLocal sin cos (chain.mECM1OriginECM1Tip 5) 0,
   dhLocal sin cos (chain.mECM1OriginECM1Tip 6) 0]

end View

/-! ## Concrete inputs -/

section Inputs

variable {R : Type} [Field R]

/-- The general frame with identity rotation and zero translation. -/
def identityFrame : GeneralFrame R := ⟨1, 0, 0, 0, 1, 0, 0, 0, 1, 0, 0, 0⟩

/-- The FIXED link with all four parameters zero. -/
def fixedLink : DenavitHartenbergFrame R := ⟨0, 0, 0, 0, JointTypeEnum.FIXED⟩

/-- The PRISMATIC link with all four parameters zero. -/
def prismaticLink : DenavitHartenbergFrame R := ⟨0, 0, 0, 0, JointTypeEnum.PRISMATIC⟩

/-- A chain description whose general frames are `identityFrame` and whose
Denavit-Hartenberg links are all `fixedLink`. -/
def fixedChain : DaVinciKinematicChain R :=
  { mWorldOriginSUJ1Origin := fun _ => identityFrame
    mSUJ1OriginSUJ1Tip := fun _ => fixedLink
    mSUJ1TipPSM1Origin := fun _ => identityFrame
    mPSM1OriginPSM1Tip := fun _ => fixedLink
    mWorldOriginSUJ2Origin := fun _ => identityFrame
    mSUJ2OriginSUJ2Tip := fun _ => fixedLink
    mSUJ2TipPSM2Origin := fun _ => identityFrame
    mPSM2OriginPSM2Tip := fun _ => fixedLink
    mWorldOriginSUJ3Origin := fun _ => identityFrame
    mSUJ3OriginSUJ3Tip := fun _ => fixedLink
    mSUJ3TipECM1Origin := fun _ => identityFrame
    mECM1OriginECM1Tip := fun _ => fixedLink }

/-- The chain `fixedChain` with the setup-joint link 4 of the camera
manipulator made PRISMATIC. -/
def prismaticSUJ3Chain : DaVinciKinematicChain R :=
  { (fixedChain : DaVinciKinematicChain R) with
    mSUJ3OriginSUJ3Tip := fun i => if i = 4 then prismaticLink else fixedLink }

/-- An ECM joint state: setup-joint angle 4 is 1, every other value is 0. -/
def ecmStateSJ4 : API_ECM R := ⟨fun i => if i = 4 then 1 else 0, fun _ => 0⟩

/-- A PSM joint state with every value 0. -/
def psmZero : API_PSM R := ⟨fun _ => 0, fun _ => 0⟩

/-- A PSM joint state that differs from `psmZero` only in arm joint 4
(wrist pitch), which is 1. -/
def psmPitch : API_PSM R := ⟨fun _ => 0, fun j => if j = 4 then 1 else 0⟩

/-- The two-link scenario: identity accumulator, then the FIXED link
(0, 0, 0, 0) with no joint variable, then the ROTARY link (a = 1, 0, 0, 0)
with joint variable `q`. -/
def twoLinkChain (sin cos : R → R) (q : R) : GLMat R :=
  let A := glhSetIdentity uninit
  let A := extendChainDH0 sin cos ⟨0, 0, 0, 0, JointTypeEnum.FIXED⟩ A
  let A := extendChainDH sin cos ⟨1, 0, 0, 0, JointTypeEnum.ROTARY⟩ A q
  A

/-- The ROTARY link with a = alpha = d = 0 and the given theta. -/
def rotaryLink (theta : R) : DenavitHartenbergFrame R := ⟨0, 0, 0, theta, JointTypeEnum.ROTARY⟩

/-- The double nearest to 2 pi, the value of the expression `2 * M_PI`:
7074237752028440 * 2^-50 (bit pattern 0x401921FB54442D18). -/
def twoPiDouble : ℚ := 7074237752028440 / 2 ^ 50

/-- The double `1.0 + 2 * M_PI`, the angle 1 moved by one turn as the code
can be given it: both terms are multiples of 2^-50 and the sum is below 8, so
the double sum is the exact one. -/
def onePlusTwoPiDouble : ℚ := 1 + twoPiDouble

end Inputs

/-! ## Rigid transforms -/

section Rigid

variable {R : Type} [Field R]

/-- The upper-left 3x3 block of a 4x4 matrix. -/
def rotationBlock (M : Matrix (Fin 4) (Fin 4) R) : Matrix (Fin 3) (Fin 3) R :=
  !![M 0 0, M 0 1, M 0 2;
     M 1 0, M 1 1, M 1 2;
     M 2 0, M 2 1, M 2 2]

/-- A 3x3 matrix is a rotation: orthonormal with determinant +1. -/
def IsRotation (Q : Matrix (Fin 3) (Fin 3) R) : Prop :=
  Q.transpose * Q = 1 ∧ Q.det = 1

/-- A 4x4 matrix is a rigid transform: its rotation block is a rotation and
its bottom row is [0, 0, 0, 1]. -/
def IsRigid (M : Matrix (Fin 4) (Fin 4) R) : Prop :=
  IsRotation (rotationBlock M) ∧ M 3 0 = 0 ∧ M 3 1 = 0 ∧ M 3 2 = 0 ∧ M 3 3 = 1

/-- The 3x3 rotation entries of a general frame. -/
def GeneralFrame.rotation (frame : GeneralFrame R) : Matrix (Fin 3) (Fin 3) R :=
  !![frame.mR00, frame.mR01, frame.mR02;
     frame.mR10, frame.mR11, frame.mR12;
     frame.mR20, frame.mR21, frame.mR22]

/-- Every general frame of the chain description has a rotation matrix as
its rotation entries. -/
def RotationFrames (chain : DaVinciKinematicChain R) : Prop :=
  IsRotation (chain.mWorldOriginSUJ1Origin 0).rotation ∧
    IsRotation (chain.mSUJ1TipPSM1Origin 0).rotation ∧
    IsRotation (chain.mWorldOriginSUJ2Origin 0).rotation ∧
    IsRotation (chain.mSUJ2TipPSM2Origin 0).rotation ∧
    IsRotation (chain.mWorldOriginSUJ3Origin 0).rotation ∧
    IsRotation (chain.mSUJ3TipECM1Origin 0).rotation

end Rigid

/-! ## Pose grabbers (`src/src/pose_grabber.cpp`)

The call sites of `pose_grabber.cpp` hand the builders the transforms of the
model parts; the builders of `snippets.cpp` take the accumulator and two
`viz::Pose` containers.  The calls are modelled on the builders of
`snippets.cpp`: the accumulator is the shaft transform `model_.Shaft().transform_`
and the two containers are held in the grabber.  A `std::vector<double>` is a
list; an index outside a vector or a fixed array, which the C++ leaves
undefined, is the fault `outOfRange`, kept apart from a thrown exception;
a failed `assert`, with assertions compiled in, is the fault `assertFailed`.
The user-interface calls on `param_modifier_` and the static counter of
`BasePoseGrabber` are left out. -/

/-- Modelled from the spec: the declaration of `davinci::DaVinciJoint` is not
among the sources.  The three supported manipulator variants. -/
inductive DaVinciJoint where
  | PSM1
  | PSM2
  | ECM
  deriving DecidableEq, Repr

/-- How an evaluation can fail: an exception `std::runtime_error(what)`, an
index out of range, or a failed `assert(expr)`, which aborts the program. -/
inductive Fault where
  | thrown (what : String)
  | outOfRange
  | assertFailed (expr : String)
  deriving DecidableEq, Repr

/-- The map `config_` of a `ConfigReader` (`config_reader.hpp` line 69), as
an association list. -/
structure ConfigReader where
  config_ : List (String × String)

/-- The method `get_element` (`config_reader.hpp` lines 40-49). -/
def ConfigReader.get_element (reader : ConfigReader) (key : String) : Except String String :=
  match reader.config_.lookup key with
  | none => Except.error "Couldn't find key!"
  | some value => Except.ok value

/-- What a constructor does to the outside world, in order. -/
inductive Event where
  | loadModel (path : String)
  | openFile (path : String)
  deriving DecidableEq, Repr

/-- Whether an event opens a joint or pose file. -/
def Event.opensFile : Event → Bool
  | Event.loadModel _ => false
  | Event.openFile _ => true

/-- The parts of the constructors that are not among the sources or that
belong to the file system and the stream library. -/
structure CtorEnv (R : Type) where
  /-- Modelled from the spec: `checkSelfName` is not among the sources; it is
  given `self_name_` and the configured name and may throw. -/
  checkSelfName : String → String → Except String Unit
  /-- Whether `std::ifstream::open` on a path succeeds. -/
  canOpen : String → Bool
  /-- The stream extractions of `SetupOffsets` (lines 279-308): from the two
  configured strings and the current base and arm offsets to the new ones. -/
  extractOffsets : String → String → List R → List R → List R × List R

/-- The selector dispatch of the constructors (lines 217-224 and 487-494). -/
def selectJoint (reader : ConfigReader) : Except String DaVinciJoint := do
  if (← reader.get_element "joint") = "PSM1" then
    pure DaVinciJoint.PSM1
  else if (← reader.get_element "joint") = "PSM2" then
    pure DaVinciJoint.PSM2
  else if (← reader.get_element "joint") = "ECM" then
    pure DaVinciJoint.ECM
  else
    throw "Error, bad joint"

/-- The constructor of `BaseDaVinciPoseGrabber` (lines 185-194): the model
is loaded when the key is present, and a `std::runtime_error` is swallowed. -/
def BaseDaVinciPoseGrabber_ctor (reader : ConfigReader) : List Event :=
  match reader.get_element "model-file" with
  | Except.ok path => [Event.loadModel path]
  | Except.error _ => []

/-- The number of setup joints of a variant: the size of its setup-joint
table (lines 229, 233, 237). -/
def numBaseJoints : DaVinciJoint → Nat
  | DaVinciJoint.PSM1 => 6
  | DaVinciJoint.PSM2 => 6
  | DaVinciJoint.ECM => 6

/-- The number of arm joints of a variant: the size of the arm table for
the PSMs, the constant 4 for the ECM (lines 230, 234, 238). -/
def numArmJoints : DaVinciJoint → Nat
  | DaVinciJoint.PSM1 => 7
  | DaVinciJoint.PSM2 => 7
  | DaVinciJoint.ECM => 4

/-- The state of a `DHDaVinciPoseGrabber`. -/
structure DHDaVinciPoseGrabber (R : Type) where
  chain_ : DaVinciKinematicChain R
  target_joint_ : DaVinciJoint
  arm_offsets_ : List R
  base_offsets_ : List R
  arm_joints_ : List R
  base_joints_ : List R
  num_base_joints_ : Nat
  num_arm_joints_ : Nat
  base_joint_file : String
  arm_joint_file : String
  base_ofs_file_ : String
  arm_ofs_file_ : String
  se3_ofs_file_ : String
  shaft_transform_ : GLMat R
  suj_frames : Pose R
  frames : Pose R

/-- The state of an `SE3DaVinciPoseGrabber`. -/
structure SE3DaVinciPoseGrabber (R : Type) where
  chain_ : DaVinciKinematicChain R
  target_joint_ : DaVinciJoint
  pose_file : Option String
  ofs_file_ : String
  num_wrist_joints_ : Nat
  wrist_dh_params_ : List R
  shaft_pose_ : GLMat R
  shaft_transform_ : GLMat R
  suj_frames : Pose R
  frames : Pose R

section Grabbers

variable {R : Type} [Field R]

/-- The constructor of `DHDaVinciPoseGrabber` (lines 212-277): the events in
order, and the grabber or the message of the exception thrown. -/
def DHDaVinciPoseGrabber_ctor (env : CtorEnv R) (chain_ : DaVinciKinematicChain R)
    (shaft_transform_ : GLMat R) (reader : ConfigReader) (output_dir : String) :
    List Event × Except String (DHDaVinciPoseGrabber R) :=
  let ev := BaseDaVinciPoseGrabber_ctor reader
  match reader.get_element "name" with
  | Except.error e => (ev, Except.error e)
  | Except.ok name =>
  match env.checkSelfName "dh-davinci-grabber" name with
  | Except.error e => (ev, Except.error e)
  | Except.ok _ =>
  match selectJoint reader with
  | Except.error e => (ev, Except.error e)
  | Except.ok target_joint_ =>
  let num_base_joints_ := numBaseJoints target_joint_
  let num_arm_joints_ := numArmJoints target_joint_
  let arm_offsets_ : List R := List.replicate num_arm_joints_ 0
  let base_offsets_ : List R := List.replicate num_base_joints_ 0
  let arm_joints_ : List R := List.replicate num_arm_joints_ 0
  let base_joints_ : List R := List.replicate num_base_joints_ 0
  let offsets : List R × List R :=
    match reader.get_element "base-offset", reader.get_element "arm-offset" with
    | Except.ok b, Except.ok a => env.extractOffsets b a base_offsets_ arm_offsets_
    | _, _ => (base_offsets_, arm_offsets_)
  match reader.get_element "base-joint-file" with
  | Except.error e => (ev, Except.error e)
  | Except.ok base_file =>
  let ev := ev ++ [Event.openFile base_file]
  if env.canOpen base_file = false then
    (ev, Except.error ("Error, could not open file: " ++ base_file))
  else
  match reader.get_element "arm-joint-file" with
  | Except.error e => (ev, Except.error e)
  | Except.ok arm_file =>
  let ev := ev ++ [Event.openFile arm_file]
  if env.canOpen arm_file = false then
    (ev, Except.error ("Error, could not open file: " ++ arm_file))
  else
  match reader.get_element "output-base-joint-file" with
  | Except.error e => (ev, Except.error e)
  | Except.ok out_base =>
  match reader.get_element "output-arm-joint-file" with
  | Except.error e => (ev, Except.error e)
  | Except.ok out_arm =>
  let se3 : Except String String :=
    match reader.get_element "output-se3-file" with
    | Except.ok f => Except.ok f
    | Except.error _ => reader.get_element "output-se3"
  match se3 with
  | Except.error e => (ev, Except.error e)
  | Except.ok out_se3 =>
  (ev, Except.ok
    { chain_ := chain_
      target_joint_ := target_joint_
      arm_offsets_ := offsets.2
      base_offsets_ := offsets.1
      arm_joints_ := arm_joints_
      base_joints_ := base_joints_
      num_base_joints_ := num_base_joints_
      num_arm_joints_ := num_arm_joints_
      base_joint_file := base_file
      arm_joint_file := arm_file
      base_ofs_file_ := output_dir ++ "/" ++ out_base
      arm_ofs_file_ := output_dir ++ "/" ++ out_arm
      se3_ofs_file_ := output_dir ++ "/" ++ out_se3
      shaft_transform_ := shaft_transform_
      suj_frames := ⟨[]⟩
      frames := ⟨[]⟩ })

/-- The constructor of `SE3DaVinciPoseGrabber` (lines 482-503). -/
def SE3DaVinciPoseGrabber_ctor (env : CtorEnv R) (chain_ : DaVinciKinematicChain R)
    (shaft_pose_ shaft_transform_ : GLMat R) (reader : ConfigReader) (output_dir : String) :
    List Event × Except String (SE3DaVinciPoseGrabber R) :=
  let ev := BaseDaVinciPoseGrabber_ctor reader
  match reader.get_element "name" with
  | Except.error e => (ev, Except.error e)
  | Except.ok name =>
  match env.checkSelfName "se3-davinci-grabber" name with
  | Except.error e => (ev, Except.error e)
  | Except.ok _ =>
  match selectJoint reader with
  | Except.error e => (ev, Except.error e)
  | Except.ok target_joint_ =>
  match reader.get_element "pose-file" with
  | Except.error e => (ev, Except.error e)
  | Except.ok pose_file =>
  let ev := ev ++ [Event.openFile pose_file]
  match reader.get_element "output-pose-file" with
  | Except.error e => (ev, Except.error e)
  | Except.ok out_pose =>
  let num_wrist_joints_ := 3
  (ev, Except.ok
    { chain_ := chain_
      target_joint_ := target_joint_
      pose_file := if env.canOpen pose_file then some pose_file else none
      ofs_file_ := output_dir ++ "/" ++ out_pose
      num_wrist_joints_ := num_wrist_joints_
      wrist_dh_params_ := List.replicate num_wrist_joints_ 0
      shaft_pose_ := shaft_pose_
      shaft_transform_ := shaft_transform_
      suj_frames := ⟨[]⟩
      frames := ⟨[]⟩ })

/-- One round of the loops of lines 316-321 and 334-339:
`dst[i] = joints[i] + offsets[i]`. -/
def storeJoint {n : Nat} (dst : Fin n → R) (joints offsets : List R) (i : Nat) :
    Except Fault (Fin n → R) :=
  match joints[i]?, offsets[i]? with
  | some x, some o =>
    if h : i < n then Except.ok (Function.update dst ⟨i, h⟩ (x + o))
    else Except.error Fault.outOfRange
  | _, _ => Except.error Fault.outOfRange

/-- The loop `for (i = 0; i < joints.size(); ++i) dst[i] = joints[i] + offsets[i];`. -/
def storeJoints {n : Nat} (dst : Fin n → R) (joints offsets : List R) :
    Except Fault (Fin n → R) :=
  (List.range joints.length).foldlM (fun d i => storeJoint d joints offsets i) dst

/-- The joint state that `GetPose` hands to a PSM builder (lines 332-340);
`psm` is the local `PSMData` as declared. -/
def loadPSMData (g : DHDaVinciPoseGrabber R) (psm : API_PSM R) : Except Fault (API_PSM R) := do
  let sj ← storeJoints psm.sj_joint_angles g.base_joints_ g.base_offsets_
  let jp ← storeJoints psm.jnt_pos g.arm_joints_ g.arm_offsets_
  pure ⟨sj, jp⟩

/-- The joint state that `GetPose` hands to the ECM builder (lines 314-322);
`ecm` is the local `ECMData` as declared. -/
def loadECMData (g : DHDaVinciPoseGrabber R) (ecm : API_ECM R) : Except Fault (API_ECM R) := do
  let sj ← storeJoints ecm.sj_joint_angles g.base_joints_ g.base_offsets_
  let jp ← storeJoints ecm.jnt_pos g.arm_joints_ g.arm_offsets_
  pure ⟨sj, jp⟩

/-- The method `DHDaVinciPoseGrabber::GetPose` (lines 310-367): what the
builder leaves in its reference arguments; the value returned is the
accumulator `A`. -/
def DHDaVinciPoseGrabber.GetPose (sin cos : R → R) (g : DHDaVinciPoseGrabber R)
    (ecm0 : API_ECM R) (psm0 : API_PSM R) : Except Fault (BuildResult R) :=
  if g.target_joint_ = DaVinciJoint.ECM then do
    let ecm ← loadECMData g ecm0
    pure (buildKinematicChainECM1 sin cos g.chain_ ecm g.shaft_transform_ g.suj_frames g.frames)
  else if g.target_joint_ = DaVinciJoint.PSM1 ∨ g.target_joint_ = DaVinciJoint.PSM2 then do
    let psm ← loadPSMData g psm0
    if g.target_joint_ = DaVinciJoint.PSM1 then
      pure (buildKinematicChainPSM1 sin cos g.chain_ psm g.shaft_transform_ g.suj_frames g.frames)
    else if g.target_joint_ = DaVinciJoint.PSM2 then
      pure (buildKinematicChainPSM2 sin cos g.chain_ psm g.shaft_transform_ g.suj_frames g.frames)
    else
      pure ⟨g.shaft_transform_, g.suj_frames, g.frames⟩
  else
    throw (Fault.thrown "Error, bad joint type")

/-- One round of the loop of lines 650-652: `jnt_pos[i] = wrist_dh_params_[i]`. -/
def storeWrist (dst : Fin 7 → R) (wrist : List R) (i : Nat) : Except Fault (Fin 7 → R) :=
  match wrist[i]? with
  | some x =>
    if h : i < 7 then Except.ok (Function.update dst ⟨i, h⟩ x)
    else Except.error Fault.outOfRange
  | none => Except.error Fault.outOfRange

/-- The method `SE3DaVinciPoseGrabber::GetModelPose` (lines 643-671): what
the builder leaves in its reference arguments; `psm0` is the local `PSMData`
as declared. -/
def SE3DaVinciPoseGrabber.GetModelPose (sin cos : R → R) (g : SE3DaVinciPoseGrabber R)
    (psm0 : API_PSM R) : Except Fault (BuildResult R) :=
  if g.target_joint_ = DaVinciJoint.PSM1 ∨ g.target_joint_ = DaVinciJoint.PSM2 then do
    let shaft_transform_ := g.shaft_pose_
    let jp ← (List.range g.num_wrist_joints_).foldlM
      (fun d i => storeWrist d g.wrist_dh_params_ i) psm0.jnt_pos
    let psm : API_PSM R := ⟨psm0.sj_joint_angles, jp⟩
    if g.target_joint_ = DaVinciJoint.PSM1 then
      pure (buildKinematicChainPSM1 sin cos g.chain_ psm shaft_transform_ g.suj_frames g.frames)
    else if g.target_joint_ = DaVinciJoint.PSM2 then
      pure (buildKinematicChainPSM2 sin cos g.chain_ psm shaft_transform_ g.suj_frames g.frames)
    else
      pure ⟨shaft_transform_, g.suj_frames, g.frames⟩
  else
    throw (Fault.thrown "Error, bad joint type")

end Grabbers

/-! ## Concrete grabbers and configurations -/

section GrabberInputs

variable {R : Type} [Field R]

/-- A PSM1 grabber on `fixedChain` with the given setup-joint readings and
offsets; the seven arm readings and offsets are 0, the joint counts are the
ones the constructor sets for PSM1. -/
def psm1Grabber (base_joints_ base_offsets_ : List R) : DHDaVinciPoseGrabber R :=
  { chain_ := fixedChain
    target_joint_ := DaVinciJoint.PSM1
    arm_offsets_ := [0, 0, 0, 0, 0, 0, 0]
    base_offsets_ := base_offsets_
    arm_joints_ := [0, 0, 0, 0, 0, 0, 0]
    base_joints_ := base_joints_
    num_base_joints_ := 6
    num_arm_joints_ := 7
    base_joint_file := "base.txt"
    arm_joint_file := "arm.txt"
    base_ofs_file_ := "out/base.txt"
    arm_ofs_file_ := "out/arm.txt"
    se3_ofs_file_ := "out/se3.txt"
    shaft_transform_ := uninit
    suj_frames := ⟨[]⟩
    frames := ⟨[]⟩ }

/-- A PSM1 grabber with six setup-joint readings 1 to 6 and offsets 10 to 60. -/
def sizedGrabber : DHDaVinciPoseGrabber R :=
  psm1Grabber [1, 2, 3, 4, 5, 6] [10, 20, 30, 40, 50, 60]

/-- Contents of a local `PSMData` before `GetPose` fills it: every cell 9. -/
def psmStale : API_PSM R := ⟨fun _ => 9, fun _ => 9⟩

/-- A constructor environment that accepts every name, opens every file and
leaves the offsets as they are. -/
def permissiveEnv : CtorEnv R :=
  { checkSelfName := fun _ _ => Except.ok ()
    canOpen := fun _ => true
    extractOffsets := fun _ _ b a => (b, a) }

/-- A configuration whose selector is the unsupported string "PSM3". -/
def badJointConfig : ConfigReader :=
  ⟨[("name", "dh-davinci-grabber"), ("joint", "PSM3"), ("base-joint-file", "base.txt"),
    ("arm-joint-file", "arm.txt"), ("pose-file", "pose.txt")]⟩

/-- The identity transform with translation 5 along x. -/
def shiftedPose : GLMat R := setCell (glhSetIdentity uninit) _03 5

/-- A PSM1 grabber of the SE3-tracked kind on `fixedChain`, with base
transform `shiftedPose` and wrist values 0. -/
def se3Grabber : SE3DaVinciPoseGrabber R :=
  { chain_ := fixedChain
    target_joint_ := DaVinciJoint.PSM1
    pose_file := some "pose.txt"
    ofs_file_ := "out/pose.txt"
    num_wrist_joints_ := 3
    wrist_dh_params_ := [0, 0, 0]
    shaft_pose_ := shiftedPose
    shaft_transform_ := uninit
    suj_frames := ⟨[]⟩
    frames := ⟨[]⟩ }

end GrabberInputs

/-! ## The length scale as a parameter

The frame evaluators and the builders of `snippets.cpp` once more, with the
constant `SCALE` replaced by a parameter `s`; at `s = SCALE` they are the
definitions above. -/

section Scaled

variable {R : Type} [Field R]

/-- The array `G` of `extendChain` for a general frame (lines 66-83), with
length scale `s`. -/
def generalFrameGS (s : R) (frame : GeneralFrame R) : GLMat R :=
  let G : GLMat R := uninit
  let G := setCell G _00 frame.mR00
  let G := setCell G _10 frame.mR10
  let G := setCell G _20 frame.mR20
  let G := setCell G _30 0
  let G := setCell G _01 frame.mR01
  let G := setCell G _11 frame.mR11
  let G := setCell G _21 frame.mR21
  let G := setCell G _31 0
  let G := setCell G _02 frame.mR02
  let G := setCell G _12 frame.mR12
  let G := setCell G _22 frame.mR22
  let G := setCell G _32 0
  let G := setCell G _03 (frame.mX * s)
  let G := setCell G _13 (frame.mY * s)
  let G := setCell G _23 (frame.mZ * s)
  let G := setCell G _33 1
  G

/-- The general-frame `extendChain` (lines 64-87) with length scale `s`. -/
def extendChainS (s : R) (frame : GeneralFrame R) (A : GLMat R) : GLMat R :=
  (glhMultMatrixRight (generalFrameGS s frame) A).2

/-- The array `DH` of `extendChain` for a Denavit-Hartenberg frame
(lines 121-136), with length scale `s`. -/
def denavitHartenbergDHS (s : R) (sin cos : R → R) (frame : DenavitHartenbergFrame R)
    (angle : R) : GLMat R :=
  let DH : GLMat R := uninit
  match frame.mJointType with
  | JointTypeEnum.FIXED =>
    glhDenavitHartenberg sin cos (frame.mA * s) frame.mAlpha (frame.mD * s) frame.mTheta DH
  | JointTypeEnum.ROTARY =>
    glhDenavitHartenberg sin cos (frame.mA * s) frame.mAlpha (frame.mD * s)
      (frame.mTheta + angle) DH
  | JointTypeEnum.PRISMATIC =>
    glhDenavitHartenberg sin cos (frame.mA * s) frame.mAlpha ((frame.mD + angle) * s)
      frame.mTheta DH

/-- The Denavit-Hartenberg `extendChain` (lines 119-139) with length scale `s`. -/
def extendChainDHS (s : R) (sin cos : R → R) (frame : DenavitHartenbergFrame R) (A : GLMat R)
    (angle : R) : GLMat R :=
  (glhMultMatrixRight (denavitHartenbergDHS s sin cos frame angle) A).2

/-- The builder of lines 148-184 with length scale `s`. -/
def buildKinematicChainPSM2S (s : R) (sin cos : R → R) (mDaVinciChain : DaVinciKinematicChain R)
    (psm : API_PSM R) (A : GLMat R) (suj_frames frames : Pose R) : BuildResult R :=
  let A := glhSetIdentity A
  let A := extendChainS s (mDaVinciChain.mWorldOriginSUJ2Origin 0) A
  let A := extendChainDHS s sin cos (mDaVinciChain.mSUJ2OriginSUJ2Tip 0) A (psm.sj_joint_angles 0)
  let A := extendChainDHS s sin cos (mDaVinciChain.mSUJ2OriginSUJ2Tip 1) A (psm.sj_joint_angles 1)
  let A := extendChainDHS s sin cos (mDaVinciChain.mSUJ2OriginSUJ2Tip 2) A (psm.sj_joint_angles 2)
  let A := extendChainDHS s sin cos (mDaVinciChain.mSUJ2OriginSUJ2Tip 3) A (psm.sj_joint_angles 3)
  let A := extendChainDHS s sin cos (mDaVinciChain.mSUJ2OriginSUJ2Tip 4) A (psm.sj_joint_angles 4)
  let A := extendChainDHS s sin cos (mDaVinciChain.mSUJ2OriginSUJ2Tip 5) A (psm.sj_joint_angles 5)
  let A := extendChainS s (mDaVinciChain.mSUJ2TipPSM2Origin 0) A
  let A := extendChainDHS s sin cos (mDaVinciChain.mPSM2OriginPSM2Tip 0) A (psm.jnt_pos 0)
  let A := extendChainDHS s sin cos (mDaVinciChain.mPSM2OriginPSM2Tip 1) A (psm.jnt_pos 1)
  let A := extendChainDHS s sin cos (mDaVinciChain.mPSM2OriginPSM2Tip 2) A (psm.jnt_pos 2)
  let A := extendChainDHS s sin cos (mDaVinciChain.mPSM2OriginPSM2Tip 3) A (psm.jnt_pos 3)
  let roll := A
  let frames := frames.push_back roll
  let A := extendChainDHS s sin cos (mDaVinciChain.mPSM2OriginPSM2Tip 4) A (psm.jnt_pos 4)
  let wrist_pitch := A
  let frames := frames.push_back wrist_pitch
  let A := extendChainDHS s sin cos (mDaVinciChain.mPSM2OriginPSM2Tip 5) A (psm.jnt_pos 5)
  let wrist_yaw := A
  let frames := frames.push_back wrist_yaw
  let A := extendChainDHS s sin cos (mDaVinciChain.mPSM2OriginPSM2Tip 6) A (psm.jnt_pos 6)
  let grip := A
  let frames := frames.push_back grip
  ⟨A, suj_frames, frames⟩

/-- The builder of lines 189-211 with length scale `s`. -/
def buildKinematicChainECM1S (s : R) (sin cos : R → R) (mDaVinciChain : DaVinciKinematicChain R)
    (ecm : API_ECM R) (A : GLMat R) (suj_frames frames : Pose R) : BuildResult R :=
  let A := glhSetIdentity A
  let A := extendChainS s (mDaVinciChain.mWorldOriginSUJ3Origin 0) A
  let A := extendChainDHS s sin cos (mDaVinciChain.mSUJ3OriginSUJ3Tip 0) A (ecm.sj_joint_angles 0)
  let A := extendChainDHS s sin cos (mDaVinciChain.mSUJ3OriginSUJ3Tip 1) A (ecm.sj_joint_angles 1)
  let A := extendChainDHS s sin cos (mDaVinciChain.mSUJ3OriginSUJ3Tip 2) A (ecm.sj_joint_angles 2)
  let A := extendChainDHS s sin cos (mDaVinciChain.mSUJ3OriginSUJ3Tip 3) A (ecm.sj_joint_angles 3)
  let A := extendChainDHS s sin cos (mDaVinciChain.mSUJ3OriginSUJ3Tip 4) A 0
  let A := extendChainDHS s sin cos (mDaVinciChain.mSUJ3OriginSUJ3Tip 5) A 0
  let A := extendChainS s (mDaVinciChain.mSUJ3TipECM1Origin 0) A
  let A := extendChainDHS s sin cos (mDaVinciChain.mECM1OriginECM1Tip 0) A (ecm.jnt_pos 0)
  let A := extendChainDHS s sin cos (mDaVinciChain.mECM1OriginECM1Tip 1) A (ecm.jnt_pos 1)
  let A := extendChainDHS s sin cos (mDaVinciChain.mECM1OriginECM1Tip 2) A (ecm.jnt_pos 2)
  let A := extendChainDHS s sin cos (mDaVinciChain.mECM1OriginECM1Tip 3) A (ecm.jnt_pos 3)
  let A := extendChainDHS s sin cos (mDaVinciChain.mECM1OriginECM1Tip 4) A 0
  let A := extendChainDHS s sin cos (mDaVinciChain.mECM1OriginECM1Tip 5) A 0
  let A := extendChainDHS s sin cos (mDaVinciChain.mECM1OriginECM1Tip 6) A 0
  let frames := frames.push_back A
  ⟨A, suj_frames, frames⟩

/-- The builder of lines 215-254 with length scale `s`. -/
def buildKinematicChainPSM1S (s : R) (sin cos : R → R) (mDaVinciChain : DaVinciKinematicChain R)
    (psm : API_PSM R) (A : GLMat R) (suj_frames frames : Pose R) : BuildResult R :=
  let A := glhSetIdentity A
  let A := extendChainS s (mDaVinciChain.mWorldOriginSUJ1Origin 0) A
  let A := extendChainDHS s sin cos (mDaVinciChain.mSUJ1OriginSUJ1Tip 0) A (psm.sj_joint_angles 0)
  let A := extendChainDHS s sin cos (mDaVinciChain.mSUJ1OriginSUJ1Tip 1) A (psm.sj_joint_angles 1)
  let A := extendChainDHS s sin cos (mDaVinciChain.mSUJ1OriginSUJ1Tip 2) A (psm.sj_joint_angles 2)
  let A := extendChainDHS s sin cos (mDaVinciChain.mSUJ1OriginSUJ1Tip 3) A (psm.sj_joint_angles 3)
  let A := extendChainDHS s sin cos (mDaVinciChain.mSUJ1OriginSUJ1Tip 4) A (psm.sj_joint_angles 4)
  let A := extendChainDHS s sin cos (mDaVinciChain.mSUJ1OriginSUJ1Tip 5) A (psm.sj_joint_angles 5)
  let A := extendChainS s (mDaVinciChain.mSUJ1TipPSM1Origin 0) A
  let A := extendChainDHS s sin cos (mDaVinciChain.mPSM1OriginPSM1Tip 0) A (psm.jnt_pos 0)
  let A := extendChainDHS s sin cos (mDaVinciChain.mPSM1OriginPSM1Tip 1) A (psm.jnt_pos 1)
  let A := extendChainDHS s sin cos (mDaVinciChain.mPSM1OriginPSM1Tip 2) A (psm.jnt_pos 2)
  let A := extendChainDHS s sin cos (mDaVinciChain.mPSM1OriginPSM1Tip 3) A (psm.jnt_pos 3)
  let roll := A
  let frames := frames.push_back roll
  let A := extendChainDHS s sin cos (mDaVinciChain.mPSM1OriginPSM1Tip 4) A (psm.jnt_pos 4)
  let wrist_pitch := A
  let frames := frames.push_back wrist_pitch
  let A := extendChainDHS s sin cos (mDaVinciChain.mPSM1OriginPSM1Tip 5) A (psm.jnt_pos 5)
  let wrist_yaw := A
  let frames := frames.push_back wrist_yaw
  let A := extendChainDHS s sin cos (mDaVinciChain.mPSM1OriginPSM1Tip 6) A (psm.jnt_pos 6)
  let grip := A
  let frames := frames.push_back grip
  ⟨A, suj_frames, frames⟩

/-- What the claim on the length scale says of a transform `M` obtained with
scale `s` and the transform `M1` obtained with scale 1: same rotation block,
translation column multiplied by `s`. -/
def ScalesWith (s : R) (M M1 : Matrix (Fin 4) (Fin 4) R) : Prop :=
  rotationBlock M = rotationBlock M1 ∧ M 0 3 = s * M1 0 3 ∧ M 1 3 = s * M1 1 3 ∧
    M 2 3 = s * M1 2 3

/-- The invariant carried along a chain: every entry of `M` is the entry of
`M1`, times `s` in the translation column, and the bottom row of `M1` is
[0, 0, 0, 1]. -/
def ScaledInv (s : R) (M M1 : Matrix (Fin 4) (Fin 4) R) : Prop :=
  (∀ i j : Fin 4, M i j = (if j = 3 ∧ i ≠ 3 then s else 1) * M1 i j) ∧
    M1 3 0 = 0 ∧ M1 3 1 = 0 ∧ M1 3 2 = 0 ∧ M1 3 3 = 1

end Scaled

/-! ## The pose conversion (`pose_grabber.cpp` lines 196-210)

A `ci::Matrix44f` of the cinder library is a 4x4 matrix: `at(r, c)` is the
entry in row `r` and column `c`, `operator*` the matrix product and
`invert` the matrix inverse. -/

section Convert

variable {R : Type} [Field R]

/-- The assignment `M.at(r, c) = v`. -/
def setAt (M : Matrix (Fin 4) (Fin 4) R) (r c : Fin 4) (v : R) : Matrix (Fin 4) (Fin 4) R :=
  fun i j => if i = r ∧ j = c then v else M i j

/-- The method `setToIdentity` of `ci::Matrix44f`. -/
def setToIdentity (_M : Matrix (Fin 4) (Fin 4) R) : Matrix (Fin 4) (Fin 4) R := 1

/-- The method `invert` of `ci::Matrix44f`: the inverse, by determinant and
adjugate. -/
def invert (M : Matrix (Fin 4) (Fin 4) R) : Matrix (Fin 4) (Fin 4) R :=
  (M.det)⁻¹ • M.adjugate

/-- The method `BaseDaVinciPoseGrabber::convertFromDaVinciPose`
(lines 196-210): the new value of `out_pose`. -/
def convertFromDaVinciPose (in_pose out_pose : Matrix (Fin 4) (Fin 4) R) :
    Matrix (Fin 4) (Fin 4) R :=
  let _out_pose := setToIdentity out_pose
  let flip : Matrix (Fin 4) (Fin 4) R := setToIdentity 1
  let flip := setAt flip 1 1 (flip 1 1 * -1)
  let flip := setAt flip 2 2 (flip 2 2 * -1)
  let flip := invert flip
  in_pose * flip

end Convert

/-! ## The configuration reader (`include/config_reader.hpp`)

A `std::string` is a list of characters; the keys and values stored in the
map are the strings made of the token characters. -/

section Config

/-- Repeated `std::getline(stream, item, delim)` until it fails, on a stream
holding `s`; `item` holds the characters extracted so far by the current
read.  A read that meets the end with no character extracted fails. -/
def getlineAll (delim : Char) : List Char → List Char → List (List Char)
  | [], item => if item = [] then [] else [item]
  | c :: s, item =>
    if c = delim then item :: getlineAll delim s [] else getlineAll delim s (item ++ [c])

/-- The method `split` (lines 53-66). -/
def split (s : List Char) (delim : Char) : List (List Char) :=
  getlineAll delim s []

/-- The method `remove_carriage_return` (lines 32-38). -/
def remove_carriage_return (line : List Char) : List Char :=
  if line.getLast? = some '\r' then line.dropLast else line

/-- The assignment `config_[key] = value` on a `std::map`. -/
def mapAssign (config_ : List (String × String)) (key value : String) :
    List (String × String) :=
  (key, value) :: config_.filter (fun kv => kv.1 != key)

/-- The body of the line loop of the constructor (lines 24-28); `line[0]`
of an empty line is the null character. -/
def ConfigReader_line (cfg : ConfigReader) (line : List Char) : Except String ConfigReader :=
  if line.headD (Char.ofNat 0) = '#' ∨ line.length < 1 then
    Except.ok cfg
  else
    let line := remove_carriage_return line
    let tokens := split line '='
    if tokens.length ≠ 2 then
      Except.error "Error, bad parse!"
    else
      Except.ok ⟨mapAssign cfg.config_ (String.mk (tokens.getD 0 [])) (String.mk (tokens.getD 1 []))⟩

/-- The constructor of `ConfigReader` (lines 14-30); `file` is the content
of the file, `none` when it cannot be opened. -/
def ConfigReader_ctor (file : Option (List Char)) : Except String ConfigReader :=
  match file with
  | none => Except.error "Error, cannot open file!"
  | some text => (getlineAll '\n' text []).foldlM ConfigReader_line ⟨[]⟩

/-- A line of the form key=value as the claim words it: a non-empty key and
a non-empty value without '=', optionally followed by one carriage
return. -/
def ClaimedEntry (line key value : List Char) : Prop :=
  key ≠ [] ∧ '=' ∉ key ∧ value ≠ [] ∧ '=' ∉ value ∧
    (line = key ++ '=' :: value ∨ line = key ++ '=' :: (value ++ ['\r']))

/-- A line as the claim allows it: empty, starting with '#', or of the form
key=value. -/
def ClaimedLine (line : List Char) : Prop :=
  line = [] ∨ line.head? = some '#' ∨ ∃ key value, ClaimedEntry line key value

/-- A line of the form key=value whose value does not end in a carriage
return. -/
def EntryForm (line key value : List Char) : Prop :=
  ClaimedEntry line key value ∧ value.getLast? ≠ some '\r'

/-- A line that is empty, starts with '#', or has the form key=value with a
value that does not end in a carriage return. -/
def AllowedLine (line : List Char) : Prop :=
  line = [] ∨ line.head? = some '#' ∨ ∃ key value, EntryForm line key value

/-- A line that contributes the entry `key`, `value`: it does not start with
'#' and has the form key=value. -/
def IsEntry (line key value : List Char) : Prop :=
  line.head? ≠ some '#' ∧ EntryForm line key value

/-- The last line with key `key` has value `value`. -/
def LastEntry (lines : List (List Char)) (key value : List Char) : Prop :=
  ∃ pre line post, lines = pre ++ line :: post ∧ IsEntry line key value ∧
    ∀ l ∈ post, ∀ v, ¬ IsEntry l key v

/-- Some line has key `key`. -/
def HasKey (lines : List (List Char)) (key : List Char) : Prop :=
  ∃ line ∈ lines, ∃ v, IsEntry line key v

/-- A line that the constructor rejects: non-empty, not starting with '#',
and not splitting into exactly two tokens on '=' after the removal of one
trailing carriage return. -/
def BadLine (line : List Char) : Prop :=
  line ≠ [] ∧ line.head? ≠ some '#' ∧ (split (remove_carriage_return line) '=').length ≠ 2

/-- A configuration text of five lines: a comment, an empty line, a name
with a carriage return, and two selectors. -/
def sampleConfig : List Char :=
  "# viz\n\nname=viz\r\njoint=PSM1\njoint=ECM".toList

end Config

/-! ## Basic facts about the array operations -/

section Lemmas

variable {R : Type}

theorem toMatrix_apply (A : GLMat R) (r c : Fin 4) : toMatrix A r c = A (offset r c) := rfl

theorem toMatrix_injective {A B : GLMat R} (h : toMatrix A = toMatrix B) : A = B := by
  funext i
  have key : ∀ r c : Fin 4, A (offset r c) = B (offset r c) := fun r c => by
    simpa [toMatrix_apply] using congrFun (congrFun h r) c
  have hi : i = offset ⟨i.val % 4, by omega⟩ ⟨i.val / 4, by omega⟩ := by
    apply Fin.ext
    simp only [offset]
    omega
  rw [hi]
  exact key _ _

theorem foldl_setCell_apply (M : GLMat R) (l : List (Fin 16)) (B : GLMat R) (i : Fin 16) :
    (l.foldl (fun acc j => setCell acc j (M j)) B) i = if i ∈ l then M i else B i := by
  induction l generalizing B with
  | nil => simp
  | cons j l ih =>
    rw [List.foldl_cons, ih]
    by_cases hl : i ∈ l
    · simp [hl]
    · by_cases hj : i = j
      · subst hj
        simp [hl, setCell]
      · simp [hl, hj, setCell, Function.update]

theorem copyLoop_eq (M B : GLMat R) : copyLoop M B = M := by
  funext i
  simp [copyLoop, foldl_setCell_apply, List.mem_finRange]

theorem offset_00 : offset 0 0 = _00 := rfl
theorem offset_01 : offset 0 1 = _01 := rfl
theorem offset_02 : offset 0 2 = _02 := rfl
theorem offset_03 : offset 0 3 = _03 := rfl
theorem offset_10 : offset 1 0 = _10 := rfl
theorem offset_11 : offset 1 1 = _11 := rfl
theorem offset_12 : offset 1 2 = _12 := rfl
theorem offset_13 : offset 1 3 = _13 := rfl
theorem offset_20 : offset 2 0 = _20 := rfl
theorem offset_21 : offset 2 1 = _21 := rfl
theorem offset_22 : offset 2 2 = _22 := rfl
theorem offset_23 : offset 2 3 = _23 := rfl
theorem offset_30 : offset 3 0 = _30 := rfl
theorem offset_31 : offset 3 1 = _31 := rfl
theorem offset_32 : offset 3 2 = _32 := rfl
theorem offset_33 : offset 3 3 = _33 := rfl

variable [Field R]

theorem toMatrix_glhSetIdentity (A : GLMat R) : toMatrix (glhSetIdentity A) = 1 := by
  ext r c
  fin_cases r <;> fin_cases c <;>
    simp [toMatrix, offset_00, offset_01, offset_02, offset_03, offset_10, offset_11, offset_12,
      offset_13, offset_20, offset_21, offset_22, offset_23, offset_30, offset_31, offset_32,
      offset_33, glhSetIdentity, setCell, Function.update, _00, _01, _02, _03, _10,
      _11, _12, _13, _20, _21, _22, _23, _30, _31, _32, _33]

theorem toMatrix_glhMultMatrixRight (A B : GLMat R) :
    toMatrix (glhMultMatrixRight A B).2 = toMatrix B * toMatrix A := by
  ext r c
  simp only [glhMultMatrixRight, copyLoop_eq, Matrix.mul_apply, Fin.sum_univ_four, toMatrix_apply]
  fin_cases r <;> fin_cases c <;> rfl

theorem toMatrix_glhDenavitHartenberg (sin cos : R → R) (a alpha d theta : R) (A : GLMat R) :
    toMatrix (glhDenavitHartenberg sin cos a alpha d theta A) = dhMatrix sin cos a alpha d theta := by
  ext r c
  fin_cases r <;> fin_cases c <;>
    simp [glhDenavitHartenberg, dhMatrix, toMatrix, offset_00, offset_01, offset_02, offset_03, offset_10, offset_11, offset_12,
      offset_13, offset_20, offset_21, offset_22, offset_23, offset_30, offset_31, offset_32,
      offset_33, setCell, Function.update, _00, _01, _02, _03, _10,
      _11, _12, _13, _20, _21, _22, _23, _30, _31, _32, _33]

theorem toMatrix_generalFrameG (frame : GeneralFrame R) :
    toMatrix (generalFrameG frame) = generalMatrix SCALE frame := by
  ext r c
  fin_cases r <;> fin_cases c <;>
    simp [generalFrameG, generalMatrix, mul_comm, toMatrix, offset_00, offset_01, offset_02, offset_03, offset_10, offset_11, offset_12,
      offset_13, offset_20, offset_21, offset_22, offset_23, offset_30, offset_31, offset_32,
      offset_33, setCell, Function.update, _00, _01, _02, _03, _10,
      _11, _12, _13, _20, _21, _22, _23, _30, _31, _32, _33]

theorem toMatrix_extendChain (frame : GeneralFrame R) (A : GLMat R) :
    toMatrix (extendChain frame A) = toMatrix A * toMatrix (generalFrameG frame) := by
  simp only [extendChain, toMatrix_glhMultMatrixRight]

theorem toMatrix_extendChainDH (sin cos : R → R) (frame : DenavitHartenbergFrame R)
    (A : GLMat R) (angle : R) :
    toMatrix (extendChainDH sin cos frame A angle) =
      toMatrix A * toMatrix (denavitHartenbergDH sin cos frame angle) := by
  simp only [extendChainDH, toMatrix_glhMultMatrixRight]

theorem toMatrix_denavitHartenbergDH (sin cos : R → R) (frame : DenavitHartenbergFrame R)
    (angle : R) :
    toMatrix (denavitHartenbergDH sin cos frame angle) =
      dhMatrix sin cos (SCALE * frame.mA) frame.mAlpha (SCALE * dOf frame angle)
        (thetaOf frame angle) := by
  unfold denavitHartenbergDH
  cases h : frame.mJointType <;>
    simp [toMatrix_glhDenavitHartenberg, dOf, thetaOf, h, mul_comm]

omit [Field R] in
theorem toMatrix_ofMatrix (M : Matrix (Fin 4) (Fin 4) R) : toMatrix (ofMatrix M) = M := by
  ext r c
  fin_cases r <;> fin_cases c <;> rfl

omit [Field R] in
theorem eq_ofMatrix {A : GLMat R} {M : Matrix (Fin 4) (Fin 4) R} (h : toMatrix A = M) :
    A = ofMatrix M :=
  toMatrix_injective (by rw [toMatrix_ofMatrix, h])

theorem buildKinematicChainPSM1_eq (sin cos : R → R) (chain : DaVinciKinematicChain R)
    (psm : API_PSM R) (A : GLMat R) (suj frames : Pose R) :
    buildKinematicChainPSM1 sin cos chain psm A suj frames =
      ⟨ofMatrix (rightProduct (psm1Links sin cos chain psm)), suj,
        ⟨frames.poses_ ++
          [ofMatrix (rightProduct ((psm1Links sin cos chain psm).take 12)),
           ofMatrix (rightProduct ((psm1Links sin cos chain psm).take 13)),
           ofMatrix (rightProduct ((psm1Links sin cos chain psm).take 14)),
           ofMatrix (rightProduct (psm1Links sin cos chain psm))]⟩⟩ := by
  simp only [buildKinematicChainPSM1, Pose.push_back, BuildResult.mk.injEq, Pose.mk.injEq,
    List.append_assoc, List.cons_append, List.nil_append, List.append_cancel_left_eq,
    List.cons.injEq, and_true, true_and]
  refine ⟨?_, ?_, ?_, ?_, ?_⟩ <;> apply eq_ofMatrix <;>
    simp only [toMatrix_extendChain, toMatrix_extendChainDH, toMatrix_glhSetIdentity, psm1Links,
      rightProduct, List.take, List.foldl, generalLocal, dhLocal]

theorem buildKinematicChainPSM2_eq (sin cos : R → R) (chain : DaVinciKinematicChain R)
    (psm : API_PSM R) (A : GLMat R) (suj frames : Pose R) :
    buildKinematicChainPSM2 sin cos chain psm A suj frames =
      ⟨ofMatrix (rightProduct (psm2Links sin cos chain psm)), suj,
        ⟨frames.poses_ ++
          [ofMatrix (rightProduct ((psm2Links sin cos chain psm).take 12)),
           ofMatrix (rightProduct ((psm2Links sin cos chain psm).take 13)),
           ofMatrix (rightProduct ((psm2Links sin cos chain psm).take 14)),
           ofMatrix (rightProduct (psm2Links sin cos chain psm))]⟩⟩ := by
  simp only [buildKinematicChainPSM2, Pose.push_back, BuildResult.mk.injEq, Pose.mk.injEq,
    List.append_assoc, List.cons_append, List.nil_append, List.append_cancel_left_eq,
    List.cons.injEq, and_true, true_and]
  refine ⟨?_, ?_, ?_, ?_, ?_⟩ <;> apply eq_ofMatrix <;>
    simp only [toMatrix_extendChain, toMatrix_extendChainDH, toMatrix_glhSetIdentity, psm2Links,
      rightProduct, List.take, List.foldl, generalLocal, dhLocal]

theorem buildKinematicChainECM1_eq (sin cos : R → R) (chain : DaVinciKinematicChain R)
    (ecm : API_ECM R) (A : GLMat R) (suj frames : Pose R) :
    buildKinematicChainECM1 sin cos chain ecm A suj frames =
      ⟨ofMatrix (rightProduct (ecmLinks sin cos chain ecm)), suj,
        ⟨frames.poses_ ++ [ofMatrix (rightProduct (ecmLinks sin cos chain ecm))]⟩⟩ := by
  simp only [buildKinematicChainECM1, Pose.push_back, BuildResult.mk.injEq, Pose.mk.injEq,
    List.append_cancel_left_eq, List.cons.injEq, and_true, true_and, extendChainDH0]
  refine ⟨?_, ?_⟩ <;> apply eq_ofMatrix <;>
    simp only [toMatrix_extendChain, toMatrix_extendChainDH, toMatrix_glhSetIdentity, ecmLinks,
      rightProduct, List.foldl, generalLocal, dhLocal]

theorem dhLocal_fixed (sin cos : R → R) (frame : DenavitHartenbergFrame R)
    (h : frame.mJointType = JointTypeEnum.FIXED) (q q' : R) :
    dhLocal sin cos frame q = dhLocal sin cos frame q' := by
  simp only [dhLocal, denavitHartenbergDH, h]

theorem generalLocal_identityFrame : generalLocal (identityFrame : GeneralFrame R) = 1 := by
  rw [generalLocal, toMatrix_generalFrameG]
  ext r c
  fin_cases r <;> fin_cases c <;>
    simp [generalMatrix, identityFrame, Matrix.vecHead, Matrix.vecTail]

theorem dhLocal_fixedLink (sin cos : R → R) (h0 : sin 0 = 0) (h1 : cos 0 = 1) (q : R) :
    dhLocal sin cos fixedLink q = 1 := by
  rw [dhLocal, toMatrix_denavitHartenbergDH]
  ext r c
  fin_cases r <;> fin_cases c <;>
    simp [dhMatrix, fixedLink, dOf, thetaOf, h0, h1, Matrix.vecHead, Matrix.vecTail]

theorem dhLocal_prismaticLink (sin cos : R → R) (h0 : sin 0 = 0) (h1 : cos 0 = 1) (q : R) :
    dhLocal sin cos prismaticLink q =
      !![1, 0, 0, 0; 0, 1, 0, 0; 0, 0, 1, SCALE * q; 0, 0, 0, 1] := by
  rw [dhLocal, toMatrix_denavitHartenbergDH]
  ext r c
  fin_cases r <;> fin_cases c <;> simp [dhMatrix, prismaticLink, dOf, thetaOf, h0, h1]

theorem toMatrix_twoLinkChain (sin cos : R → R) (q : R) :
    toMatrix (twoLinkChain sin cos q) =
      1 * dhMatrix sin cos (SCALE * 0) 0 (SCALE * 0) 0 *
        dhMatrix sin cos (SCALE * 1) 0 (SCALE * 0) (0 + q) := by
  simp [twoLinkChain, extendChainDH0, toMatrix_extendChainDH, toMatrix_denavitHartenbergDH,
    toMatrix_glhSetIdentity, dOf, thetaOf]

theorem twoLinkChain_translation (q : ℝ) :
    twoLinkChain Real.sin Real.cos q _03 = 41.8 ∧ twoLinkChain Real.sin Real.cos q _13 = 0 ∧
      twoLinkChain Real.sin Real.cos q _23 = 0 := by
  have h := toMatrix_twoLinkChain Real.sin Real.cos q
  have e03 : twoLinkChain Real.sin Real.cos q _03 = toMatrix (twoLinkChain Real.sin Real.cos q) 0 3 :=
    rfl
  have e13 : twoLinkChain Real.sin Real.cos q _13 = toMatrix (twoLinkChain Real.sin Real.cos q) 1 3 :=
    rfl
  have e23 : twoLinkChain Real.sin Real.cos q _23 = toMatrix (twoLinkChain Real.sin Real.cos q) 2 3 :=
    rfl
  rw [e03, e13, e23, h]
  refine ⟨?_, ?_, ?_⟩ <;>
    simp [dhMatrix, Matrix.mul_apply, Fin.sum_univ_four, SCALE]

theorem psm1Links_take12_congr (sin cos : R → R) (chain : DaVinciKinematicChain R)
    (psm psm' : API_PSM R) (hsj : ∀ i : Fin 6, psm.sj_joint_angles i = psm'.sj_joint_angles i)
    (hq : ∀ j : Fin 7, j.val < 4 → psm.jnt_pos j = psm'.jnt_pos j) :
    (psm1Links sin cos chain psm).take 12 = (psm1Links sin cos chain psm').take 12 := by
  simp only [psm1Links, List.take, hsj, hq 0 (by decide), hq 1 (by decide), hq 2 (by decide),
    hq 3 (by decide)]

theorem psm2Links_take12_congr (sin cos : R → R) (chain : DaVinciKinematicChain R)
    (psm psm' : API_PSM R) (hsj : ∀ i : Fin 6, psm.sj_joint_angles i = psm'.sj_joint_angles i)
    (hq : ∀ j : Fin 7, j.val < 4 → psm.jnt_pos j = psm'.jnt_pos j) :
    (psm2Links sin cos chain psm).take 12 = (psm2Links sin cos chain psm').take 12 := by
  simp only [psm2Links, List.take, hsj, hq 0 (by decide), hq 1 (by decide), hq 2 (by decide),
    hq 3 (by decide)]

theorem psm1Links_tail (sin cos : R → R) (chain : DaVinciKinematicChain R) (psm : API_PSM R) :
    rightProduct ((psm1Links sin cos chain psm).take 13) =
        rightProduct ((psm1Links sin cos chain psm).take 12) *
          dhLocal sin cos (chain.mPSM1OriginPSM1Tip 4) (psm.jnt_pos 4) ∧
      rightProduct ((psm1Links sin cos chain psm).take 14) =
        rightProduct ((psm1Links sin cos chain psm).take 12) *
          dhLocal sin cos (chain.mPSM1OriginPSM1Tip 4) (psm.jnt_pos 4) *
          dhLocal sin cos (chain.mPSM1OriginPSM1Tip 5) (psm.jnt_pos 5) ∧
      rightProduct (psm1Links sin cos chain psm) =
        rightProduct ((psm1Links sin cos chain psm).take 12) *
          dhLocal sin cos (chain.mPSM1OriginPSM1Tip 4) (psm.jnt_pos 4) *
          dhLocal sin cos (chain.mPSM1OriginPSM1Tip 5) (psm.jnt_pos 5) *
          dhLocal sin cos (chain.mPSM1OriginPSM1Tip 6) (psm.jnt_pos 6) := by
  simp only [psm1Links, List.take, rightProduct, List.foldl, and_self]

theorem psm2Links_tail (sin cos : R → R) (chain : DaVinciKinematicChain R) (psm : API_PSM R) :
    rightProduct ((psm2Links sin cos chain psm).take 13) =
        rightProduct ((psm2Links sin cos chain psm).take 12) *
          dhLocal sin cos (chain.mPSM2OriginPSM2Tip 4) (psm.jnt_pos 4) ∧
      rightProduct ((psm2Links sin cos chain psm).take 14) =
        rightProduct ((psm2Links sin cos chain psm).take 12) *
          dhLocal sin cos (chain.mPSM2OriginPSM2Tip 4) (psm.jnt_pos 4) *
          dhLocal sin cos (chain.mPSM2OriginPSM2Tip 5) (psm.jnt_pos 5) ∧
      rightProduct (psm2Links sin cos chain psm) =
        rightProduct ((psm2Links sin cos chain psm).take 12) *
          dhLocal sin cos (chain.mPSM2OriginPSM2Tip 4) (psm.jnt_pos 4) *
          dhLocal sin cos (chain.mPSM2OriginPSM2Tip 5) (psm.jnt_pos 5) *
          dhLocal sin cos (chain.mPSM2OriginPSM2Tip 6) (psm.jnt_pos 6) := by
  simp only [psm2Links, List.take, rightProduct, List.foldl, and_self]

theorem psm1Links_fixedChain (sin cos : R → R) (psm psm' : API_PSM R) :
    psm1Links sin cos (fixedChain : DaVinciKinematicChain R) psm =
      psm1Links sin cos (fixedChain : DaVinciKinematicChain R) psm' := by
  simp only [psm1Links, fixedChain]
  simp only [dhLocal_fixed sin cos fixedLink rfl _ 0]

omit [Field R] in
theorem rotationBlock_00 (M : Matrix (Fin 4) (Fin 4) R) : rotationBlock M 0 0 = M 0 0 := rfl
omit [Field R] in
theorem rotationBlock_01 (M : Matrix (Fin 4) (Fin 4) R) : rotationBlock M 0 1 = M 0 1 := rfl
omit [Field R] in
theorem rotationBlock_02 (M : Matrix (Fin 4) (Fin 4) R) : rotationBlock M 0 2 = M 0 2 := rfl
omit [Field R] in
theorem rotationBlock_10 (M : Matrix (Fin 4) (Fin 4) R) : rotationBlock M 1 0 = M 1 0 := rfl
omit [Field R] in
theorem rotationBlock_11 (M : Matrix (Fin 4) (Fin 4) R) : rotationBlock M 1 1 = M 1 1 := rfl
omit [Field R] in
theorem rotationBlock_12 (M : Matrix (Fin 4) (Fin 4) R) : rotationBlock M 1 2 = M 1 2 := rfl
omit [Field R] in
theorem rotationBlock_20 (M : Matrix (Fin 4) (Fin 4) R) : rotationBlock M 2 0 = M 2 0 := rfl
omit [Field R] in
theorem rotationBlock_21 (M : Matrix (Fin 4) (Fin 4) R) : rotationBlock M 2 1 = M 2 1 := rfl
omit [Field R] in
theorem rotationBlock_22 (M : Matrix (Fin 4) (Fin 4) R) : rotationBlock M 2 2 = M 2 2 := rfl

theorem rotationBlock_mul (A B : Matrix (Fin 4) (Fin 4) R) (h0 : B 3 0 = 0) (h1 : B 3 1 = 0)
    (h2 : B 3 2 = 0) : rotationBlock (A * B) = rotationBlock A * rotationBlock B := by
  ext i j
  fin_cases i <;> fin_cases j <;>
    simp [rotationBlock_00, rotationBlock_01, rotationBlock_02, rotationBlock_10, rotationBlock_11, rotationBlock_12,
      rotationBlock_20, rotationBlock_21, rotationBlock_22,
      Matrix.mul_apply, Fin.sum_univ_four, Fin.sum_univ_three, h0, h1, h2]

theorem rotationBlock_one : rotationBlock (1 : Matrix (Fin 4) (Fin 4) R) = 1 := by
  ext i j
  fin_cases i <;> fin_cases j <;>
    simp [rotationBlock_00, rotationBlock_01, rotationBlock_02, rotationBlock_10, rotationBlock_11, rotationBlock_12,
      rotationBlock_20, rotationBlock_21, rotationBlock_22]

theorem isRigid_one : IsRigid (1 : Matrix (Fin 4) (Fin 4) R) := by
  refine ⟨⟨?_, ?_⟩, by simp, by simp, by simp, by simp⟩
  · rw [rotationBlock_one]
    simp
  · rw [rotationBlock_one]
    simp

theorem isRigid_mul {A B : Matrix (Fin 4) (Fin 4) R} (hA : IsRigid A) (hB : IsRigid B) :
    IsRigid (A * B) := by
  obtain ⟨⟨hAo, hAd⟩, a0, a1, a2, a3⟩ := hA
  obtain ⟨⟨hBo, hBd⟩, b0, b1, b2, b3⟩ := hB
  refine ⟨⟨?_, ?_⟩, ?_, ?_, ?_, ?_⟩
  · rw [rotationBlock_mul A B b0 b1 b2, Matrix.transpose_mul, Matrix.mul_assoc,
      ← Matrix.mul_assoc (rotationBlock A).transpose, hAo, Matrix.one_mul, hBo]
  · rw [rotationBlock_mul A B b0 b1 b2, Matrix.det_mul, hAd, hBd, one_mul]
  · simp [Matrix.mul_apply, Fin.sum_univ_four, a0, a1, a2, a3, b0]
  · simp [Matrix.mul_apply, Fin.sum_univ_four, a0, a1, a2, a3, b1]
  · simp [Matrix.mul_apply, Fin.sum_univ_four, a0, a1, a2, a3, b2]
  · simp [Matrix.mul_apply, Fin.sum_univ_four, a0, a1, a2, a3, b3]

theorem isRigid_rightProduct_from (Ms : List (Matrix (Fin 4) (Fin 4) R))
    (h : ∀ M ∈ Ms, IsRigid M) (acc : Matrix (Fin 4) (Fin 4) R) (hacc : IsRigid acc) :
    IsRigid (Ms.foldl (fun acc M => acc * M) acc) := by
  induction Ms generalizing acc with
  | nil => exact hacc
  | cons M Ms ih =>
    rw [List.foldl_cons]
    exact ih (fun N hN => h N (List.mem_cons_of_mem M hN)) _
      (isRigid_mul hacc (h M (List.mem_cons_self M Ms)))

theorem isRigid_rightProduct (Ms : List (Matrix (Fin 4) (Fin 4) R))
    (h : ∀ M ∈ Ms, IsRigid M) : IsRigid (rightProduct Ms) :=
  isRigid_rightProduct_from Ms h 1 isRigid_one

theorem isRigid_dhMatrix (sin cos : R → R) (hsc : ∀ x, sin x ^ 2 + cos x ^ 2 = 1)
    (a alpha d theta : R) : IsRigid (dhMatrix sin cos a alpha d theta) := by
  have ha := hsc alpha
  have ht := hsc theta
  refine ⟨⟨?_, ?_⟩, rfl, rfl, rfl, rfl⟩
  · ext i j
    fin_cases i <;> fin_cases j <;>
      simp [rotationBlock_00, rotationBlock_01, rotationBlock_02, rotationBlock_10, rotationBlock_11, rotationBlock_12,
        rotationBlock_20, rotationBlock_21, rotationBlock_22,
        Matrix.mul_apply, Fin.sum_univ_three, Matrix.transpose_apply, dhMatrix] <;>
      first
        | ring1
        | linear_combination ha
        | linear_combination sin theta ^ 2 * ha + ht
        | linear_combination cos theta ^ 2 * ha + ht
        | linear_combination sin theta * cos theta * ha
  · simp [Matrix.det_fin_three, rotationBlock_00, rotationBlock_01, rotationBlock_02, rotationBlock_10, rotationBlock_11, rotationBlock_12,
        rotationBlock_20, rotationBlock_21, rotationBlock_22,
      dhMatrix]
    linear_combination (cos theta ^ 2 + sin theta ^ 2) * ha + ht

theorem isRigid_generalLocal (frame : GeneralFrame R) (h : IsRotation frame.rotation) :
    IsRigid (generalLocal frame) := by
  have hb : rotationBlock (generalLocal frame) = frame.rotation := by
    rw [generalLocal, toMatrix_generalFrameG]
    rfl
  refine ⟨by rw [hb]; exact h, ?_, ?_, ?_, ?_⟩ <;>
    rw [generalLocal, toMatrix_generalFrameG] <;> rfl

theorem isRigid_dhLocal (sin cos : R → R) (hsc : ∀ x, sin x ^ 2 + cos x ^ 2 = 1)
    (frame : DenavitHartenbergFrame R) (q : R) : IsRigid (dhLocal sin cos frame q) := by
  rw [dhLocal, toMatrix_denavitHartenbergDH]
  exact isRigid_dhMatrix sin cos hsc _ _ _ _

theorem isRigid_psm1Links (sin cos : R → R) (hsc : ∀ x, sin x ^ 2 + cos x ^ 2 = 1)
    (chain : DaVinciKinematicChain R) (h : RotationFrames chain) (psm : API_PSM R) :
    ∀ M ∈ psm1Links sin cos chain psm, IsRigid M := by
  simp only [psm1Links, List.forall_mem_cons, List.not_mem_nil, false_implies, implies_true,
    and_true]
  exact ⟨isRigid_generalLocal _ h.1, isRigid_dhLocal sin cos hsc _ _, isRigid_dhLocal sin cos hsc _ _,
    isRigid_dhLocal sin cos hsc _ _, isRigid_dhLocal sin cos hsc _ _,
    isRigid_dhLocal sin cos hsc _ _, isRigid_dhLocal sin cos hsc _ _,
    isRigid_generalLocal _ h.2.1, isRigid_dhLocal sin cos hsc _ _, isRigid_dhLocal sin cos hsc _ _,
    isRigid_dhLocal sin cos hsc _ _, isRigid_dhLocal sin cos hsc _ _,
    isRigid_dhLocal sin cos hsc _ _, isRigid_dhLocal sin cos hsc _ _,
    isRigid_dhLocal sin cos hsc _ _⟩

theorem isRigid_psm2Links (sin cos : R → R) (hsc : ∀ x, sin x ^ 2 + cos x ^ 2 = 1)
    (chain : DaVinciKinematicChain R) (h : RotationFrames chain) (psm : API_PSM R) :
    ∀ M ∈ psm2Links sin cos chain psm, IsRigid M := by
  simp only [psm2Links, List.forall_mem_cons, List.not_mem_nil, false_implies, implies_true,
    and_true]
  exact ⟨isRigid_generalLocal _ h.2.2.1, isRigid_dhLocal sin cos hsc _ _, isRigid_dhLocal sin cos hsc _ _,
    isRigid_dhLocal sin cos hsc _ _, isRigid_dhLocal sin cos hsc _ _,
    isRigid_dhLocal sin cos hsc _ _, isRigid_dhLocal sin cos hsc _ _,
    isRigid_generalLocal _ h.2.2.2.1, isRigid_dhLocal sin cos hsc _ _, isRigid_dhLocal sin cos hsc _ _,
    isRigid_dhLocal sin cos hsc _ _, isRigid_dhLocal sin cos hsc _ _,
    isRigid_dhLocal sin cos hsc _ _, isRigid_dhLocal sin cos hsc _ _,
    isRigid_dhLocal sin cos hsc _ _⟩

theorem isRigid_ecmLinks (sin cos : R → R) (hsc : ∀ x, sin x ^ 2 + cos x ^ 2 = 1)
    (chain : DaVinciKinematicChain R) (h : RotationFrames chain) (ecm : API_ECM R) :
    ∀ M ∈ ecmLinks sin cos chain ecm, IsRigid M := by
  simp only [ecmLinks, List.forall_mem_cons, List.not_mem_nil, false_implies, implies_true,
    and_true]
  exact ⟨isRigid_generalLocal _ h.2.2.2.2.1, isRigid_dhLocal sin cos hsc _ _, isRigid_dhLocal sin cos hsc _ _,
    isRigid_dhLocal sin cos hsc _ _, isRigid_dhLocal sin cos hsc _ _,
    isRigid_dhLocal sin cos hsc _ _, isRigid_dhLocal sin cos hsc _ _,
    isRigid_generalLocal _ h.2.2.2.2.2, isRigid_dhLocal sin cos hsc _ _, isRigid_dhLocal sin cos hsc _ _,
    isRigid_dhLocal sin cos hsc _ _, isRigid_dhLocal sin cos hsc _ _,
    isRigid_dhLocal sin cos hsc _ _, isRigid_dhLocal sin cos hsc _ _,
    isRigid_dhLocal sin cos hsc _ _⟩

theorem isRigid_rightProduct_take (Ms : List (Matrix (Fin 4) (Fin 4) R))
    (h : ∀ M ∈ Ms, IsRigid M) (n : Nat) : IsRigid (rightProduct (Ms.take n)) :=
  isRigid_rightProduct _ fun M hM => h M (List.mem_of_mem_take hM)

theorem glhDenavitHartenberg_congr (sin cos : R → R) (a alpha d t t' : R) (A : GLMat R)
    (hs : sin t = sin t') (hc : cos t = cos t') :
    glhDenavitHartenberg sin cos a alpha d t A = glhDenavitHartenberg sin cos a alpha d t' A := by
  simp only [glhDenavitHartenberg, hs, hc]

theorem isRotation_one : IsRotation (1 : Matrix (Fin 3) (Fin 3) R) := by
  constructor <;> simp

theorem identityFrame_rotation : (identityFrame : GeneralFrame R).rotation = 1 := by
  ext i j
  fin_cases i <;> fin_cases j <;>
    simp [GeneralFrame.rotation, identityFrame, Matrix.vecHead, Matrix.vecTail]

theorem rotationFrames_fixedChain : RotationFrames (fixedChain : DaVinciKinematicChain R) := by
  simp only [RotationFrames, fixedChain, identityFrame_rotation, and_self]
  exact isRotation_one

theorem storeJoint_ok {n : Nat} (dst : Fin n → R) (joints offsets : List R) (i : Nat)
    (hn : i < n) (hj : i < joints.length) (ho : i < offsets.length) :
    storeJoint dst joints offsets i =
      Except.ok (Function.update dst ⟨i, hn⟩ (joints.getD i 0 + offsets.getD i 0)) := by
  simp [storeJoint, List.getElem?_eq_getElem hj, List.getElem?_eq_getElem ho, hn,
    List.getD_eq_getElem _ 0 hj, List.getD_eq_getElem _ 0 ho]

theorem foldlM_storeJoint {n : Nat} (joints offsets : List R) (k : Nat) (hk : k ≤ n)
    (hj : k ≤ joints.length) (ho : k ≤ offsets.length) (dst : Fin n → R) :
    (List.range k).foldlM (fun d i => storeJoint d joints offsets i) dst =
      Except.ok (fun i : Fin n =>
        if i.val < k then joints.getD i.val 0 + offsets.getD i.val 0 else dst i) := by
  induction k with
  | zero => simp [pure, Except.pure]
  | succ k ih =>
    rw [List.range_succ, List.foldlM_append, ih (by omega) (by omega) (by omega)]
    simp only [List.foldlM_cons, List.foldlM_nil, bind, Except.bind]
    rw [storeJoint_ok _ joints offsets k (by omega) (by omega) (by omega)]
    simp only [pure, Except.pure]
    congr 1
    funext i
    by_cases hik : i.val = k
    · have hi : i = ⟨k, by omega⟩ := Fin.ext hik
      rw [hi, Function.update_same]
      simp
    · have hne : i ≠ ⟨k, by omega⟩ := fun e => hik (congrArg Fin.val e)
      rw [Function.update_noteq hne]
      by_cases hlt : i.val < k
      · simp [hlt, Nat.lt_succ_of_lt hlt]
      · have : ¬ i.val < k + 1 := by omega
        simp [hlt, this]

theorem storeJoints_ok {n : Nat} (dst : Fin n → R) (joints offsets : List R)
    (hj : joints.length = n) (ho : offsets.length = n) :
    storeJoints dst joints offsets =
      Except.ok (fun i : Fin n => joints.getD i.val 0 + offsets.getD i.val 0) := by
  rw [storeJoints, foldlM_storeJoint joints offsets joints.length (by omega) (by omega)
    (by omega)]
  congr 1
  funext i
  have : i.val < joints.length := by omega
  simp [this]

theorem rightProduct_psm1Links_fixedChain (sin cos : R → R) (h0 : sin 0 = 0) (h1 : cos 0 = 1)
    (psm : API_PSM R) :
    rightProduct (psm1Links sin cos (fixedChain : DaVinciKinematicChain R) psm) = 1 := by
  simp [psm1Links, fixedChain, rightProduct, generalLocal_identityFrame,
    dhLocal_fixedLink sin cos h0 h1]

theorem selectJoint_of_joint (reader : ConfigReader) (s : String)
    (hj : reader.get_element "joint" = Except.ok s) :
    selectJoint reader =
      if s = "PSM1" then Except.ok DaVinciJoint.PSM1
      else if s = "PSM2" then Except.ok DaVinciJoint.PSM2
      else if s = "ECM" then Except.ok DaVinciJoint.ECM
      else Except.error "Error, bad joint" := by
  simp only [selectJoint, hj, bind, Except.bind, pure, Except.pure, throw, throwThe,
    MonadExceptOf.throw]

theorem baseCtor_opens_no_file (reader : ConfigReader) :
    ∀ e ∈ BaseDaVinciPoseGrabber_ctor reader, e.opensFile = false := by
  intro e he
  unfold BaseDaVinciPoseGrabber_ctor at he
  split at he
  · simp only [List.mem_singleton] at he
    subst he
    rfl
  · simp at he

theorem numBaseJoints_eq (t : DaVinciJoint) : numBaseJoints t = 6 := by
  cases t <;> rfl

theorem ctor_vectors (env : CtorEnv R) (chain_ : DaVinciKinematicChain R)
    (shaft_transform_ : GLMat R) (reader : ConfigReader) (output_dir : String)
    (ev : List Event) (g : DHDaVinciPoseGrabber R)
    (h : DHDaVinciPoseGrabber_ctor env chain_ shaft_transform_ reader output_dir =
      (ev, Except.ok g)) :
    g.base_joints_ = List.replicate 6 0 ∧
      g.arm_joints_ = List.replicate (numArmJoints g.target_joint_) 0 ∧
      (((∀ v, reader.get_element "base-offset" ≠ Except.ok v) ∨
          (∀ v, reader.get_element "arm-offset" ≠ Except.ok v)) →
        g.base_offsets_ = List.replicate 6 0 ∧
          g.arm_offsets_ = List.replicate (numArmJoints g.target_joint_) 0) := by
  simp only [DHDaVinciPoseGrabber_ctor] at h
  repeat' split at h
  all_goals first
    | (simp only [Prod.mk.injEq, reduceCtorEq, and_false] at h; done)
    | skip
  all_goals
    simp only [Prod.mk.injEq, Except.ok.injEq] at h
    obtain ⟨-, rfl⟩ := h
    simp only [numBaseJoints_eq, true_and]
  all_goals first
    | exact fun _ => trivial
    | (rename_i hb ha
       rintro (hno | hno)
       · exact absurd hb (hno _)
       · exact absurd ha (hno _))

theorem invert_eq_inv (M : Matrix (Fin 4) (Fin 4) R) : invert M = M⁻¹ := by
  rw [invert, Matrix.inv_def, Ring.inverse_eq_inv']

theorem flip_eq_diagonal :
    setAt (setAt (1 : Matrix (Fin 4) (Fin 4) R) 1 1 ((1 : Matrix (Fin 4) (Fin 4) R) 1 1 * -1)) 2 2
        (setAt (1 : Matrix (Fin 4) (Fin 4) R) 1 1 ((1 : Matrix (Fin 4) (Fin 4) R) 1 1 * -1) 2 2 * -1) =
      Matrix.diagonal ![1, -1, -1, 1] := by
  ext i j
  fin_cases i <;> fin_cases j <;> simp [setAt, Matrix.diagonal]

theorem diagonal_flip_mul_self :
    (Matrix.diagonal ![1, -1, -1, 1] : Matrix (Fin 4) (Fin 4) R) *
      Matrix.diagonal ![1, -1, -1, 1] = 1 := by
  ext i j
  fin_cases i <;> fin_cases j <;>
    simp [Matrix.mul_apply, Fin.sum_univ_four, Matrix.diagonal, Matrix.one_apply]

theorem convertFromDaVinciPose_eq (in_pose out_pose : Matrix (Fin 4) (Fin 4) R) :
    convertFromDaVinciPose in_pose out_pose = in_pose * Matrix.diagonal ![1, -1, -1, 1] := by
  simp only [convertFromDaVinciPose, setToIdentity]
  rw [flip_eq_diagonal, invert_eq_inv, Matrix.inv_eq_left_inv diagonal_flip_mul_self]

theorem toMatrix_generalFrameGS (s : R) (frame : GeneralFrame R) :
    toMatrix (generalFrameGS s frame) = generalMatrix s frame := by
  ext r c
  fin_cases r <;> fin_cases c <;>
    simp [generalFrameGS, generalMatrix, mul_comm, toMatrix, offset_00, offset_01, offset_02,
      offset_03, offset_10, offset_11, offset_12, offset_13, offset_20, offset_21, offset_22,
      offset_23, offset_30, offset_31, offset_32, offset_33, setCell, Function.update, _00, _01,
      _02, _03, _10, _11, _12, _13, _20, _21, _22, _23, _30, _31, _32, _33]

theorem toMatrix_denavitHartenbergDHS (s : R) (sin cos : R → R)
    (frame : DenavitHartenbergFrame R) (angle : R) :
    toMatrix (denavitHartenbergDHS s sin cos frame angle) =
      dhMatrix sin cos (s * frame.mA) frame.mAlpha (s * dOf frame angle)
        (thetaOf frame angle) := by
  unfold denavitHartenbergDHS
  cases h : frame.mJointType <;>
    simp [toMatrix_glhDenavitHartenberg, dOf, thetaOf, h, mul_comm]

theorem scaledInv_one (s : R) : ScaledInv s (1 : Matrix (Fin 4) (Fin 4) R) 1 := by
  refine ⟨?_, by simp, by simp, by simp, by simp⟩
  intro i j
  fin_cases i <;> fin_cases j <;> simp

theorem scaledInv_mul (s : R) {A A1 B B1 : Matrix (Fin 4) (Fin 4) R}
    (hA : ScaledInv s A A1) (hB : ScaledInv s B B1) : ScaledInv s (A * B) (A1 * B1) := by
  obtain ⟨hA, a0, a1, a2, a3⟩ := hA
  obtain ⟨hB, b0, b1, b2, b3⟩ := hB
  refine ⟨?_, ?_, ?_, ?_, ?_⟩
  · intro i j
    fin_cases i <;> fin_cases j <;>
      simp [Matrix.mul_apply, Fin.sum_univ_four, hA, hB, a0, a1, a2, a3, b0, b1, b2, b3] <;>
      ring
  · simp [Matrix.mul_apply, Fin.sum_univ_four, a0, a1, a2, a3, b0]
  · simp [Matrix.mul_apply, Fin.sum_univ_four, a0, a1, a2, a3, b1]
  · simp [Matrix.mul_apply, Fin.sum_univ_four, a0, a1, a2, a3, b2]
  · simp [Matrix.mul_apply, Fin.sum_univ_four, a0, a1, a2, a3, b3]

theorem scaledInv_generalMatrix (s : R) (frame : GeneralFrame R) :
    ScaledInv s (generalMatrix s frame) (generalMatrix 1 frame) := by
  refine ⟨?_, rfl, rfl, rfl, rfl⟩
  intro i j
  fin_cases i <;> fin_cases j <;> simp [generalMatrix]

theorem scaledInv_dhMatrix (s : R) (sin cos : R → R) (a alpha d theta : R) :
    ScaledInv s (dhMatrix sin cos (s * a) alpha (s * d) theta)
      (dhMatrix sin cos (1 * a) alpha (1 * d) theta) := by
  refine ⟨?_, rfl, rfl, rfl, rfl⟩
  intro i j
  fin_cases i <;> fin_cases j <;> simp [dhMatrix] <;> ring

theorem scaledInv_glhSetIdentity (s : R) (A A' : GLMat R) :
    ScaledInv s (toMatrix (glhSetIdentity A)) (toMatrix (glhSetIdentity A')) := by
  rw [toMatrix_glhSetIdentity, toMatrix_glhSetIdentity]
  exact scaledInv_one s

theorem scaledInv_extendChainS (s : R) (frame : GeneralFrame R) {X X1 : GLMat R}
    (h : ScaledInv s (toMatrix X) (toMatrix X1)) :
    ScaledInv s (toMatrix (extendChainS s frame X)) (toMatrix (extendChainS 1 frame X1)) := by
  rw [extendChainS, extendChainS, toMatrix_glhMultMatrixRight, toMatrix_glhMultMatrixRight,
    toMatrix_generalFrameGS, toMatrix_generalFrameGS]
  exact scaledInv_mul s h (scaledInv_generalMatrix s frame)

theorem scaledInv_extendChainDHS (s : R) (sin cos : R → R) (frame : DenavitHartenbergFrame R)
    (q : R) {X X1 : GLMat R} (h : ScaledInv s (toMatrix X) (toMatrix X1)) :
    ScaledInv s (toMatrix (extendChainDHS s sin cos frame X q))
      (toMatrix (extendChainDHS 1 sin cos frame X1 q)) := by
  rw [extendChainDHS, extendChainDHS, toMatrix_glhMultMatrixRight, toMatrix_glhMultMatrixRight,
    toMatrix_denavitHartenbergDHS, toMatrix_denavitHartenbergDHS]
  exact scaledInv_mul s h (scaledInv_dhMatrix s sin cos _ _ _ _)

theorem scalesWith_of_scaledInv (s : R) {M M1 : Matrix (Fin 4) (Fin 4) R}
    (h : ScaledInv s M M1) : ScalesWith s M M1 := by
  obtain ⟨h, -⟩ := h
  refine ⟨?_, ?_, ?_, ?_⟩
  · ext i j
    fin_cases i <;> fin_cases j <;>
      simp [rotationBlock_00, rotationBlock_01, rotationBlock_02, rotationBlock_10,
        rotationBlock_11, rotationBlock_12, rotationBlock_20, rotationBlock_21,
        rotationBlock_22, h]
  · simp [h]
  · simp [h]
  · simp [h]

theorem generalFrameGS_SCALE (frame : GeneralFrame R) :
    generalFrameGS SCALE frame = generalFrameG frame := rfl

theorem denavitHartenbergDHS_SCALE (sin cos : R → R) (frame : DenavitHartenbergFrame R)
    (angle : R) : denavitHartenbergDHS SCALE sin cos frame angle =
      denavitHartenbergDH sin cos frame angle := rfl

theorem buildKinematicChainPSM1S_SCALE (sin cos : R → R) (chain : DaVinciKinematicChain R)
    (psm : API_PSM R) (A : GLMat R) (suj frames : Pose R) :
    buildKinematicChainPSM1S SCALE sin cos chain psm A suj frames =
      buildKinematicChainPSM1 sin cos chain psm A suj frames := rfl

theorem buildKinematicChainPSM2S_SCALE (sin cos : R → R) (chain : DaVinciKinematicChain R)
    (psm : API_PSM R) (A : GLMat R) (suj frames : Pose R) :
    buildKinematicChainPSM2S SCALE sin cos chain psm A suj frames =
      buildKinematicChainPSM2 sin cos chain psm A suj frames := rfl

theorem buildKinematicChainECM1S_SCALE (sin cos : R → R) (chain : DaVinciKinematicChain R)
    (ecm : API_ECM R) (A : GLMat R) (suj frames : Pose R) :
    buildKinematicChainECM1S SCALE sin cos chain ecm A suj frames =
      buildKinematicChainECM1 sin cos chain ecm A suj frames := rfl

theorem getlineAll_not_mem (delim : Char) (s item : List Char) (h : delim ∉ s) :
    getlineAll delim s item = if item ++ s = [] then [] else [item ++ s] := by
  induction s generalizing item with
  | nil => simp [getlineAll]
  | cons c s ih =>
    have hc : c ≠ delim := fun e => h (by simp [e])
    have hs : delim ∉ s := fun e => h (List.mem_cons_of_mem c e)
    rw [getlineAll, if_neg hc, ih _ hs]
    simp

theorem getlineAll_append_delim (delim : Char) (k rest item : List Char) (h : delim ∉ k) :
    getlineAll delim (k ++ delim :: rest) item = (item ++ k) :: getlineAll delim rest [] := by
  induction k generalizing item with
  | nil => simp [getlineAll]
  | cons c k ih =>
    have hc : c ≠ delim := fun e => h (by simp [e])
    have hk : delim ∉ k := fun e => h (List.mem_cons_of_mem c e)
    rw [List.cons_append, getlineAll, if_neg hc, ih _ hk]
    simp

theorem split_key_value (key value : List Char) (hk : '=' ∉ key) (hv : '=' ∉ value)
    (hne : value ≠ []) : split (key ++ '=' :: value) '=' = [key, value] := by
  rw [split, getlineAll_append_delim _ _ _ _ hk, getlineAll_not_mem _ _ _ hv]
  simp [hne]

theorem remove_carriage_return_concat (body : List Char) :
    remove_carriage_return (body ++ ['\r']) = body := by
  simp [remove_carriage_return]

theorem remove_carriage_return_of_ne (line : List Char) (h : line.getLast? ≠ some '\r') :
    remove_carriage_return line = line := by
  simp [remove_carriage_return, h]

theorem remove_carriage_return_entry (line key value : List Char)
    (h : EntryForm line key value) :
    remove_carriage_return line = key ++ '=' :: value := by
  obtain ⟨⟨-, -, hvne, -, hline⟩, hcr⟩ := h
  rcases hline with rfl | rfl
  · apply remove_carriage_return_of_ne
    rw [List.getLast?_append_of_ne_nil _ (List.cons_ne_nil _ _)]
    obtain ⟨v, vs, rfl⟩ := List.exists_cons_of_ne_nil hvne
    rw [List.getLast?_cons_cons]
    exact hcr
  · have : key ++ '=' :: (value ++ ['\r']) = (key ++ '=' :: value) ++ ['\r'] := by simp
    rw [this, remove_carriage_return_concat]

theorem ConfigReader_line_skip (cfg : ConfigReader) (line : List Char)
    (h : line = [] ∨ line.head? = some '#') : ConfigReader_line cfg line = Except.ok cfg := by
  rcases h with rfl | h
  · simp [ConfigReader_line]
  · cases line with
    | nil => simp at h
    | cons c rest =>
      simp only [List.head?_cons, Option.some.injEq] at h
      simp [ConfigReader_line, h]

theorem ConfigReader_line_entry (cfg : ConfigReader) (line key value : List Char)
    (h : IsEntry line key value) :
    ConfigReader_line cfg line =
      Except.ok ⟨mapAssign cfg.config_ (String.mk key) (String.mk value)⟩ := by
  obtain ⟨hhead, hform⟩ := h
  have hrc := remove_carriage_return_entry line key value hform
  obtain ⟨⟨hkne, hk, hvne, hv, hline⟩, -⟩ := hform
  have hcond : ¬ (line.headD (Char.ofNat 0) = '#' ∨ line.length < 1) := by
    cases line with
    | nil => rcases hline with h | h <;> simp at h
    | cons c rest =>
      simp only [List.head?_cons, ne_eq, Option.some.injEq] at hhead
      simp [hhead]
  rw [ConfigReader_line, if_neg hcond]
  simp only [hrc, split_key_value key value hk hv hvne]
  simp

theorem ConfigReader_line_bad (cfg : ConfigReader) (line : List Char) (h : BadLine line) :
    ConfigReader_line cfg line = Except.error "Error, bad parse!" := by
  obtain ⟨hne, hhead, hlen⟩ := h
  have hcond : ¬ (line.headD (Char.ofNat 0) = '#' ∨ line.length < 1) := by
    cases line with
    | nil => exact absurd rfl hne
    | cons c rest =>
      simp only [List.head?_cons, ne_eq, Option.some.injEq] at hhead
      simp [hhead]
  rw [ConfigReader_line, if_neg hcond]
  simp only [if_pos hlen]

theorem ConfigReader_line_good (cfg : ConfigReader) (line : List Char) (h : ¬ BadLine line) :
    ∃ cfg', ConfigReader_line cfg line = Except.ok cfg' := by
  by_cases hskip : line = [] ∨ line.head? = some '#'
  · exact ⟨cfg, ConfigReader_line_skip cfg line hskip⟩
  · push_neg at hskip
    have hlen : (split (remove_carriage_return line) '=').length = 2 := by
      by_contra hl
      exact h ⟨hskip.1, hskip.2, hl⟩
    have hcond : ¬ (line.headD (Char.ofNat 0) = '#' ∨ line.length < 1) := by
      cases line with
      | nil => exact absurd rfl hskip.1
      | cons c rest =>
        have := hskip.2
        simp only [List.head?_cons, ne_eq, Option.some.injEq] at this
        simp [this]
    have hok : ConfigReader_line cfg line = Except.ok
        ⟨mapAssign cfg.config_
          (String.mk ((split (remove_carriage_return line) '=').getD 0 []))
          (String.mk ((split (remove_carriage_return line) '=').getD 1 []))⟩ := by
      rw [ConfigReader_line, if_neg hcond]
      simp only [hlen, ne_eq, not_true_eq_false, if_false]
    exact ⟨_, hok⟩

theorem foldlM_bad_parse_iff (lines : List (List Char)) (cfg : ConfigReader) :
    lines.foldlM ConfigReader_line cfg = Except.error "Error, bad parse!" ↔
      ∃ line ∈ lines, BadLine line := by
  induction lines generalizing cfg with
  | nil => simp [pure, Except.pure]
  | cons line rest ih =>
    rw [List.foldlM_cons]
    by_cases hb : BadLine line
    · rw [ConfigReader_line_bad cfg line hb]
      simp only [bind, Except.bind, true_iff]
      exact ⟨line, List.mem_cons_self _ _, hb⟩
    · obtain ⟨cfg', hc⟩ := ConfigReader_line_good cfg line hb
      rw [hc]
      simp only [bind, Except.bind]
      rw [ih cfg']
      constructor
      · rintro ⟨l, hl, hbl⟩
        exact ⟨l, List.mem_cons_of_mem _ hl, hbl⟩
      · rintro ⟨l, hl, hbl⟩
        rcases List.mem_cons.mp hl with rfl | hl'
        · exact absurd hbl hb
        · exact ⟨l, hl', hbl⟩

theorem badLine_of_no_delim (line : List Char) (hne : line ≠ []) (hhead : line.head? ≠ some '#')
    (h : '=' ∉ line) : BadLine line := by
  refine ⟨hne, hhead, ?_⟩
  have hr : '=' ∉ remove_carriage_return line := by
    unfold remove_carriage_return
    split_ifs
    · exact fun e => h (List.mem_of_mem_dropLast e)
    · exact h
  rw [split, getlineAll_not_mem _ _ _ hr]
  split_ifs <;> simp

theorem badLine_of_empty_value (key : List Char) (hk : '=' ∉ key) (hhead : key.head? ≠ some '#') :
    BadLine (key ++ ['=']) := by
  refine ⟨by simp, ?_, ?_⟩
  · cases key with
    | nil => simp
    | cons c rest => simpa using hhead
  · rw [remove_carriage_return_of_ne _ (by simp), split, getlineAll_append_delim _ _ _ _ hk]
    simp [getlineAll]

theorem lookup_filter_ne (l : List (String × String)) (k k' : String) (h : k' ≠ k) :
    List.lookup k' (l.filter (fun kv => kv.1 != k)) = List.lookup k' l := by
  induction l with
  | nil => rfl
  | cons kv l ih =>
    obtain ⟨a, b⟩ := kv
    by_cases ha : a = k
    · subst ha
      have hk : (k' == a) = false := by simpa using h
      simp [List.filter, List.lookup, hk, ih]
    · have hne : (a != k) = true := by simpa using ha
      simp only [List.filter, hne, List.lookup]
      cases hka : k' == a
      · simpa using ih
      · rfl

theorem lookup_mapAssign (l : List (String × String)) (k v k' : String) :
    List.lookup k' (mapAssign l k v) = if k' = k then some v else List.lookup k' l := by
  by_cases h : k' = k
  · subst h
    simp [mapAssign, List.lookup]
  · have hk : (k' == k) = false := by simpa using h
    simp [mapAssign, List.lookup, hk, h, lookup_filter_ne l k k' h]

theorem not_isEntry_of_skip (line : List Char) (h : line = [] ∨ line.head? = some '#')
    (k v : List Char) : ¬ IsEntry line k v := by
  rintro ⟨hhead, ⟨-, -, -, -, hline⟩, -⟩
  rcases h with rfl | h
  · rcases hline with e | e <;> simp at e
  · exact hhead h

theorem parse_lines_spec (lines : List (List Char)) (cfg : ConfigReader)
    (h : ∀ line ∈ lines, AllowedLine line) :
    ∃ cfg', lines.foldlM ConfigReader_line cfg = Except.ok cfg' ∧
      (∀ k v, LastEntry lines k v →
        cfg'.config_.lookup (String.mk k) = some (String.mk v)) ∧
      (∀ k, ¬ HasKey lines k →
        cfg'.config_.lookup (String.mk k) = cfg.config_.lookup (String.mk k)) := by
  induction lines generalizing cfg with
  | nil =>
    refine ⟨cfg, rfl, ?_, fun _ _ => rfl⟩
    rintro k v ⟨pre, line, post, hl, -⟩
    simp at hl
  | cons line rest ih =>
    have hrest : ∀ l ∈ rest, AllowedLine l := fun l hl => h l (List.mem_cons_of_mem _ hl)
    -- the configuration after this line
    have hstep : ∃ cfg1, ConfigReader_line cfg line = Except.ok cfg1 ∧
        (∀ k v, IsEntry line k v →
          cfg1 = ⟨mapAssign cfg.config_ (String.mk k) (String.mk v)⟩) ∧
        (∀ k, (∀ v, ¬ IsEntry line k v) →
          cfg1.config_.lookup (String.mk k) = cfg.config_.lookup (String.mk k)) := by
      by_cases hskip : line = [] ∨ line.head? = some '#'
      · refine ⟨cfg, ConfigReader_line_skip cfg line hskip, ?_, fun _ _ => rfl⟩
        intro k v hkv
        exact absurd hkv (not_isEntry_of_skip line hskip k v)
      · rcases h line (List.mem_cons_self _ _) with he | hh | ⟨key, value, hform⟩
        · exact absurd (Or.inl he) hskip
        · exact absurd (Or.inr hh) hskip
        · have hentry : IsEntry line key value := ⟨fun e => hskip (Or.inr e), hform⟩
          refine ⟨_, ConfigReader_line_entry cfg line key value hentry, ?_, ?_⟩
          · intro k v hkv
            have e := ConfigReader_line_entry cfg line k v hkv
            rw [ConfigReader_line_entry cfg line key value hentry] at e
            exact Except.ok.inj e
          · intro k hk
            have hne : String.mk k ≠ String.mk key := by
              intro e
              have : k = key := congrArg String.data e
              subst this
              exact hk value hentry
            rw [lookup_mapAssign, if_neg hne]
    obtain ⟨cfg1, hline, hent, hnot⟩ := hstep
    obtain ⟨cfg', hfold, hA, hB⟩ := ih cfg1 hrest
    refine ⟨cfg', ?_, ?_, ?_⟩
    · rw [List.foldlM_cons, hline]
      exact hfold
    · rintro k v ⟨pre, l, post, hl, hlk, hpost⟩
      cases pre with
      | nil =>
        simp only [List.nil_append, List.cons.injEq] at hl
        obtain ⟨rfl, rfl⟩ := hl
        have hno : ¬ HasKey rest k := by
          rintro ⟨l', hl', v', hv'⟩
          exact hpost l' hl' v' hv'
        rw [hB k hno, hent k v hlk, lookup_mapAssign, if_pos rfl]
      | cons p pre' =>
        simp only [List.cons_append, List.cons.injEq] at hl
        obtain ⟨rfl, rfl⟩ := hl
        exact hA k v ⟨pre', l, post, rfl, hlk, hpost⟩
    · intro k hk
      have hk1 : ∀ v, ¬ IsEntry line k v := fun v hv =>
        hk ⟨line, List.mem_cons_self _ _, v, hv⟩
      have hk2 : ¬ HasKey rest k := by
        rintro ⟨l', hl', v', hv'⟩
        exact hk ⟨l', List.mem_cons_of_mem _ hl', v', hv'⟩
      rw [hB k hk2, hnot k hk1]

theorem lastEntry_of_hasKey (lines : List (List Char)) (k : List Char) (h : HasKey lines k) :
    ∃ v, LastEntry lines k v := by
  induction lines with
  | nil =>
    obtain ⟨l, hl, -⟩ := h
    simp at hl
  | cons line rest ih =>
    by_cases hr : HasKey rest k
    · obtain ⟨v, pre, l, post, hl, hlk, hpost⟩ := ih hr
      exact ⟨v, line :: pre, l, post, by rw [hl]; rfl, hlk, hpost⟩
    · obtain ⟨l, hl, v, hv⟩ := h
      rcases List.mem_cons.mp hl with rfl | hl'
      · refine ⟨v, [], l, rest, rfl, hv, ?_⟩
        intro l' hl' v' hv'
        exact hr ⟨l', hl', v', hv'⟩
      · exact absurd ⟨l, hl', v, hv⟩ hr

theorem twoPiDouble_gap :
    (24492 / 10 ^ 20 : ℝ) < 2 * Real.pi - ((twoPiDouble : ℚ) : ℝ) ∧
      2 * Real.pi - ((twoPiDouble : ℚ) : ℝ) < 24495 / 10 ^ 20 := by
  have h1 := Real.pi_gt_d20
  have h2 := Real.pi_lt_d20
  have hc : ((twoPiDouble : ℚ) : ℝ) = 7074237752028440 / 2 ^ 50 := by
    simp [twoPiDouble]
  rw [hc]
  constructor <;> norm_num at h1 h2 ⊢ <;> linarith

theorem sin_half_gap (x : ℝ) (h1 : (24492 / 10 ^ 20 : ℝ) < x) (h2 : x < 24495 / 10 ^ 20) :
    (12245 / 10 ^ 20 : ℝ) < Real.sin (x / 2) := by
  have hx0 : 0 < x / 2 := by linarith
  have hx1 : x / 2 ≤ 1 / 10 ^ 15 := by norm_num at h2 ⊢; linarith
  have hs := Real.sin_gt_sub_cube hx0 (le_trans hx1 (by norm_num))
  have hsq : (x / 2) ^ 2 ≤ (1 / 10 ^ 15) ^ 2 := pow_le_pow_left₀ hx0.le hx1 2
  have hcube : (x / 2) ^ 3 ≤ (x / 2) * (1 / 10 ^ 15) ^ 2 := by
    have : (x / 2) ^ 3 = (x / 2) * (x / 2) ^ 2 := by ring
    rw [this]
    exact mul_le_mul_of_nonneg_left hsq hx0.le
  norm_num at h1 hcube hs ⊢
  nlinarith

theorem sin_one_gap (x : ℝ) (h1 : (24492 / 10 ^ 20 : ℝ) < x) (h2 : x < 24495 / 10 ^ 20) :
    1 / 2 ^ 53 < Real.sin 1 - Real.sin (1 - x) := by
  have hx1 : x / 2 ≤ 1 / 10 ^ 15 := by norm_num at h2 ⊢; linarith
  have hx0 : 0 < x / 2 := by linarith
  have hc1 : (1 / 2 : ℝ) ≤ Real.cos 1 := by
    have := @Real.one_sub_sq_div_two_le_cos 1
    norm_num at this
    linarith
  have hpi := Real.pi_gt_three
  have hc : Real.cos 1 ≤ Real.cos (1 - x / 2) :=
    Real.cos_le_cos_of_nonneg_of_le_pi (by norm_num at hx1 ⊢; linarith) (by linarith) (by linarith)
  have hid : Real.sin 1 - Real.sin (1 - x) = 2 * Real.sin (x / 2) * Real.cos (1 - x / 2) := by
    rw [Real.sin_sub_sin]
    congr 2 <;> ring_nf
  rw [hid]
  have hsin := sin_half_gap x h1 h2
  have hcos : (1 / 2 : ℝ) ≤ Real.cos (1 - x / 2) := le_trans hc1 hc
  have : (12245 / 10 ^ 20 : ℝ) * (1 / 2) ≤ Real.sin (x / 2) * Real.cos (1 - x / 2) :=
    mul_le_mul hsin.le hcos (by norm_num) (le_trans (by norm_num) hsin.le)
  norm_num at this ⊢
  linarith

theorem cos_one_gap (x : ℝ) (h1 : (24492 / 10 ^ 20 : ℝ) < x) (h2 : x < 24495 / 10 ^ 20) :
    1 / 2 ^ 53 < Real.cos (1 - x) - Real.cos 1 := by
  have hx0 : 0 < x / 2 := by linarith
  have hx1 : x / 2 ≤ 1 / 10 ^ 15 := by norm_num at h2 ⊢; linarith
  have hy0 : 0 < 1 - x / 2 := by norm_num at hx1 ⊢; linarith
  have hy1 : 1 - x / 2 ≤ 1 := by linarith
  have hs1 := Real.sin_gt_sub_cube hy0 hy1
  have hy3 : (1 - x / 2) ^ 3 ≤ 1 := pow_le_one₀ hy0.le hy1
  have hid : Real.cos (1 - x) - Real.cos 1 = 2 * Real.sin (1 - x / 2) * Real.sin (x / 2) := by
    rw [Real.cos_sub_cos]
    have e1 : (1 - x + 1) / 2 = 1 - x / 2 := by ring
    have e2 : (1 - x - 1) / 2 = -(x / 2) := by ring
    rw [e1, e2, Real.sin_neg]
    ring
  rw [hid]
  have hsin := sin_half_gap x h1 h2
  have hsin1 : (7 / 10 : ℝ) ≤ Real.sin (1 - x / 2) := by
    norm_num at hx1 hy3 hs1 ⊢
    linarith
  have : (7 / 10 : ℝ) * (12245 / 10 ^ 20) ≤ Real.sin (1 - x / 2) * Real.sin (x / 2) :=
    mul_le_mul hsin1 hsin.le (by norm_num) (le_trans (by norm_num) hsin1)
  norm_num at this ⊢
  linarith

theorem onePlusTwoPiDouble_eq :
    ((onePlusTwoPiDouble : ℚ) : ℝ) = 1 - (2 * Real.pi - ((twoPiDouble : ℚ) : ℝ)) + 2 * Real.pi := by
  simp only [onePlusTwoPiDouble, Rat.cast_add, Rat.cast_one]
  ring

theorem dhLocal_rotaryLink_00 (t : ℝ) :
    dhLocal Real.sin Real.cos (rotaryLink t) 0 0 0 = Real.cos t := by
  simp [dhLocal, toMatrix_denavitHartenbergDH, dhMatrix, thetaOf, rotaryLink]

theorem dhLocal_rotaryLink_10 (t : ℝ) :
    dhLocal Real.sin Real.cos (rotaryLink t) 0 1 0 = Real.sin t := by
  simp [dhLocal, toMatrix_denavitHartenbergDH, dhMatrix, thetaOf, rotaryLink]

end Lemmas

/-! ## The evaluators -/

section Evaluators

variable {R : Type} [Field R]

/-- C2: for all a, alpha, d, theta, `glhDenavitHartenberg` fills `A`, read
through the column-major offsets, with the matrix of rows
[cos theta, -sin theta, 0, a], [cos alpha sin theta, cos alpha cos theta,
-sin alpha, -sin alpha d], [sin alpha sin theta, sin alpha cos theta,
cos alpha, cos alpha d], [0, 0, 0, 1], whatever `A` held before. -/
theorem glhDenavitHartenberg_matrix (sin cos : R → R) (a alpha d theta : R) (A A' : GLMat R) :
    toMatrix (glhDenavitHartenberg sin cos a alpha d theta A) =
        !![cos theta, -sin theta, 0, a;
           cos alpha * sin theta, cos alpha * cos theta, -sin alpha, -sin alpha * d;
           sin alpha * sin theta, sin alpha * cos theta, cos alpha, cos alpha * d;
           0, 0, 0, 1] ∧
      glhDenavitHartenberg sin cos a alpha d theta A =
        glhDenavitHartenberg sin cos a alpha d theta A' := by
  refine ⟨toMatrix_glhDenavitHartenberg sin cos a alpha d theta A, toMatrix_injective ?_⟩
  rw [toMatrix_glhDenavitHartenberg, toMatrix_glhDenavitHartenberg]

/-- C4: for arrays `A` and `B` stored column-major (entry (r, c) at offset
r + 4 c), `glhMultMatrixRight A B` leaves `B` equal to (old B) * A, that is
new B[r][c] = sum over k of old B[r][k] * A[k][c], and leaves `A` as it was. -/
theorem glhMultMatrixRight_product (A B : GLMat R) :
    (∀ r c : Fin 4, (offset r c).val = r.val + 4 * c.val) ∧
      (∀ r c : Fin 4, (glhMultMatrixRight A B).2 (offset r c) =
        ∑ k : Fin 4, B (offset r k) * A (offset k c)) ∧
      toMatrix (glhMultMatrixRight A B).2 = toMatrix B * toMatrix A ∧
      (glhMultMatrixRight A B).1 = A := by
  refine ⟨fun _ _ => rfl, fun r c => ?_, toMatrix_glhMultMatrixRight A B, rfl⟩
  have h := congrFun (congrFun (toMatrix_glhMultMatrixRight A B) r) c
  simpa [toMatrix_apply, Matrix.mul_apply] using h

/-- C5: for every general frame and every accumulator `A`, `extendChain`
replaces `A` by `A * G`, where `G` has the rotation entries of the frame
copied into its rotation block, translation column
(SCALE mX, SCALE mY, SCALE mZ) and bottom row [0, 0, 0, 1]. -/
theorem extendChain_general (frame : GeneralFrame R) (A : GLMat R) :
    toMatrix (extendChain frame A) =
      toMatrix A *
        !![frame.mR00, frame.mR01, frame.mR02, SCALE * frame.mX;
           frame.mR10, frame.mR11, frame.mR12, SCALE * frame.mY;
           frame.mR20, frame.mR21, frame.mR22, SCALE * frame.mZ;
           0, 0, 0, 1] := by
  rw [toMatrix_extendChain, toMatrix_generalFrameG]
  rfl

/-- C3, as amended: for every Denavit-Hartenberg link, joint variable `q`
and accumulator `A`, `extendChain` replaces `A` by `A * M`, where `M` is the
section 4.2 matrix of (SCALE a, alpha, SCALE d', theta'), with theta' =
theta + q for a ROTARY link and theta otherwise, d' = d + q for a PRISMATIC
link and d otherwise: both lengths are multiplied by SCALE. -/
theorem extendChainDH_scaled (sin cos : R → R) (frame : DenavitHartenbergFrame R)
    (A : GLMat R) (q : R) :
    toMatrix (extendChainDH sin cos frame A q) =
      toMatrix A *
        dhMatrix sin cos (SCALE * frame.mA) frame.mAlpha
          (SCALE * (if frame.mJointType = JointTypeEnum.PRISMATIC then frame.mD + q
            else frame.mD))
          (if frame.mJointType = JointTypeEnum.ROTARY then frame.mTheta + q
            else frame.mTheta) := by
  rw [toMatrix_extendChainDH, toMatrix_denavitHartenbergDH]
  rfl

/-- C3, counterexample: for the FIXED link with a = 1 and alpha = d = theta
= 0, joint variable 0 and the identity accumulator, the result is not
`A * M` with `M` the section 4.2 matrix of the unscaled (a, alpha, d', theta'):
the code puts SCALE * a = 41.8 where that matrix has a = 1. -/
theorem extendChainDH_unscaled_fails :
    ¬ (toMatrix (extendChainDH Real.sin Real.cos
          (⟨1, 0, 0, 0, JointTypeEnum.FIXED⟩ : DenavitHartenbergFrame ℝ)
          (glhSetIdentity uninit) 0) =
        toMatrix (glhSetIdentity (uninit : GLMat ℝ)) *
          dhMatrix Real.sin Real.cos 1 0
            (dOf (⟨1, 0, 0, 0, JointTypeEnum.FIXED⟩ : DenavitHartenbergFrame ℝ) 0)
            (thetaOf (⟨1, 0, 0, 0, JointTypeEnum.FIXED⟩ : DenavitHartenbergFrame ℝ) 0)) := by
  intro h
  rw [toMatrix_extendChainDH, toMatrix_denavitHartenbergDH, toMatrix_glhSetIdentity] at h
  have h03 := congrFun (congrFun h 0) 3
  simp [dhMatrix, dOf, thetaOf, SCALE] at h03
  norm_num at h03

end Evaluators

/-! ## The chain builders -/

section Builders

variable {R : Type} [Field R]

/-- C1: for every chain description and PSM joint state,
`buildKinematicChainPSM1` (and `buildKinematicChainPSM2` on its own tables)
appends exactly four transforms, in the order roll, wrist pitch, wrist yaw,
gripper; the k-th of them is the ordered right-product
I * W * S0(sj 0) * ... * S5(sj 5) * T * P0(q 0) * ... * P(3+k)(q (3+k)), and
the accumulator on return is the gripper transform. -/
theorem buildKinematicChainPSM_snapshots (sin cos : R → R) (chain : DaVinciKinematicChain R)
    (psm : API_PSM R) (A : GLMat R) (suj frames : Pose R) :
    (∃ roll wrist_pitch wrist_yaw grip : GLMat R,
      (buildKinematicChainPSM1 sin cos chain psm A suj frames).frames.poses_ =
          frames.poses_ ++ [roll, wrist_pitch, wrist_yaw, grip] ∧
        toMatrix roll = rightProduct ((psm1Links sin cos chain psm).take 12) ∧
        toMatrix wrist_pitch = rightProduct ((psm1Links sin cos chain psm).take 13) ∧
        toMatrix wrist_yaw = rightProduct ((psm1Links sin cos chain psm).take 14) ∧
        toMatrix grip = rightProduct ((psm1Links sin cos chain psm).take 15) ∧
        (buildKinematicChainPSM1 sin cos chain psm A suj frames).A = grip) ∧
    (∃ roll wrist_pitch wrist_yaw grip : GLMat R,
      (buildKinematicChainPSM2 sin cos chain psm A suj frames).frames.poses_ =
          frames.poses_ ++ [roll, wrist_pitch, wrist_yaw, grip] ∧
        toMatrix roll = rightProduct ((psm2Links sin cos chain psm).take 12) ∧
        toMatrix wrist_pitch = rightProduct ((psm2Links sin cos chain psm).take 13) ∧
        toMatrix wrist_yaw = rightProduct ((psm2Links sin cos chain psm).take 14) ∧
        toMatrix grip = rightProduct ((psm2Links sin cos chain psm).take 15) ∧
        (buildKinematicChainPSM2 sin cos chain psm A suj frames).A = grip) := by
  constructor
  · rw [buildKinematicChainPSM1_eq]
    exact ⟨_, _, _, _, rfl, toMatrix_ofMatrix _, toMatrix_ofMatrix _, toMatrix_ofMatrix _,
      toMatrix_ofMatrix _, rfl⟩
  · rw [buildKinematicChainPSM2_eq]
    exact ⟨_, _, _, _, rfl, toMatrix_ofMatrix _, toMatrix_ofMatrix _, toMatrix_ofMatrix _,
      toMatrix_ofMatrix _, rfl⟩

/-- C6, as amended: from the identity accumulator, the FIXED link
(0, 0, 0, 0) followed by the ROTARY link (a = 1, 0, 0, 0) with joint variable
pi / 2 gives a final transform whose translation column is exactly
(41.8, 0, 0), that is (SCALE * a, 0, 0). -/
theorem twoLinkChain_translation_scaled :
    twoLinkChain Real.sin Real.cos (Real.pi / 2) _03 = 41.8 ∧
      twoLinkChain Real.sin Real.cos (Real.pi / 2) _13 = 0 ∧
      twoLinkChain Real.sin Real.cos (Real.pi / 2) _23 = 0 :=
  twoLinkChain_translation (Real.pi / 2)

/-- C6, counterexample: the translation column of that final transform is
not within 1e-6 of (0, 1, 0). -/
theorem twoLinkChain_translation_not_unit_y :
    ¬ (|twoLinkChain Real.sin Real.cos (Real.pi / 2) _03 - 0| ≤ 1e-6 ∧
        |twoLinkChain Real.sin Real.cos (Real.pi / 2) _13 - 1| ≤ 1e-6 ∧
        |twoLinkChain Real.sin Real.cos (Real.pi / 2) _23 - 0| ≤ 1e-6) := by
  obtain ⟨h03, h13, -⟩ := twoLinkChain_translation (Real.pi / 2)
  rw [h03, h13]
  rintro ⟨-, h, -⟩
  norm_num [abs_le] at h

/-- C7, as amended: the final transform of `buildKinematicChainECM1` is
I * W * S0(sj 0) * S1(sj 1) * S2(sj 2) * S3(sj 3) * S4 * S5 * T * E0(q 0) *
E1(q 1) * E2(q 2) * E3(q 3) * E4 * E5 * E6: the setup-joint links 0 to 3
consume their setup-joint angles, the four active arm links consume q 0 to
q 3, and the setup-joint links 4 and 5 and the three trailing arm links are
evaluated with no joint variable. -/
theorem buildKinematicChainECM1_final (sin cos : R → R) (chain : DaVinciKinematicChain R)
    (ecm : API_ECM R) (A : GLMat R) (suj frames : Pose R) :
    toMatrix (buildKinematicChainECM1 sin cos chain ecm A suj frames).A =
      rightProduct (ecmLinks sin cos chain ecm) := by
  rw [buildKinematicChainECM1_eq]
  exact toMatrix_ofMatrix (rightProduct (ecmLinks sin cos chain ecm))

/-- C7, counterexample: with setup-joint link 4 PRISMATIC and setup-joint
angle 4 equal to 1, the final transform is not the product in which that
link consumes its setup-joint angle. -/
theorem buildKinematicChainECM1_ignores_sj4 :
    ¬ (toMatrix (buildKinematicChainECM1 Real.sin Real.cos
          (prismaticSUJ3Chain : DaVinciKinematicChain ℝ) ecmStateSJ4 uninit ⟨[]⟩ ⟨[]⟩).A =
        rightProduct (ecmLinksClaimed Real.sin Real.cos
          (prismaticSUJ3Chain : DaVinciKinematicChain ℝ) ecmStateSJ4)) := by
  rw [buildKinematicChainECM1_eq]
  intro h
  have h23 := congrFun (congrFun h 2) 3
  simp [toMatrix_ofMatrix, ecmLinks, ecmLinksClaimed, rightProduct, prismaticSUJ3Chain,
    fixedChain, ecmStateSJ4, generalLocal_identityFrame,
    dhLocal_fixedLink Real.sin Real.cos Real.sin_zero Real.cos_zero,
    dhLocal_prismaticLink Real.sin Real.cos Real.sin_zero Real.cos_zero, SCALE] at h23
  norm_num at h23

/-- C8: for every chain description and ECM joint state,
`buildKinematicChainECM1` appends exactly one transform, equal to the final
accumulator; into an empty container the result is that single transform,
never a list of four. -/
theorem buildKinematicChainECM1_single (sin cos : R → R) (chain : DaVinciKinematicChain R)
    (ecm : API_ECM R) (A : GLMat R) (suj frames : Pose R) :
    (buildKinematicChainECM1 sin cos chain ecm A suj frames).frames.poses_ =
        frames.poses_ ++ [(buildKinematicChainECM1 sin cos chain ecm A suj frames).A] ∧
      (buildKinematicChainECM1 sin cos chain ecm A suj ⟨[]⟩).frames.poses_ =
        [(buildKinematicChainECM1 sin cos chain ecm A suj frames).A] ∧
      (buildKinematicChainECM1 sin cos chain ecm A suj ⟨[]⟩).frames.poses_.length = 1 ∧
      (buildKinematicChainECM1 sin cos chain ecm A suj ⟨[]⟩).frames.poses_.length ≠ 4 := by
  simp only [buildKinematicChainECM1_eq, List.nil_append, List.length_singleton]
  exact ⟨trivial, trivial, trivial, by decide⟩

/-- C9, as amended: for the PSM chain builders, every chain description and
every two joint states that agree on the setup-joint angles and on arm
joints 0 to 3 (so in particular two states that differ only in arm joint 4),
the roll snapshot is the same in both evaluations; the wrist-pitch,
wrist-yaw and gripper snapshots of each evaluation are that roll snapshot
right-multiplied by the local transforms of links 4, 4 to 5 and 4 to 6 at the
joint values of that evaluation. -/
theorem roll_independent_of_wrist (sin cos : R → R) (chain : DaVinciKinematicChain R)
    (psm psm' : API_PSM R) (A A' : GLMat R) (suj suj' frames frames' : Pose R)
    (hsj : ∀ i : Fin 6, psm.sj_joint_angles i = psm'.sj_joint_angles i)
    (hq : ∀ j : Fin 7, j.val < 4 → psm.jnt_pos j = psm'.jnt_pos j) :
    (∃ roll p y g p' y' g' : GLMat R,
      (buildKinematicChainPSM1 sin cos chain psm A suj frames).frames.poses_ =
          frames.poses_ ++ [roll, p, y, g] ∧
        (buildKinematicChainPSM1 sin cos chain psm' A' suj' frames').frames.poses_ =
          frames'.poses_ ++ [roll, p', y', g'] ∧
        toMatrix p = toMatrix roll * dhLocal sin cos (chain.mPSM1OriginPSM1Tip 4) (psm.jnt_pos 4) ∧
        toMatrix y = toMatrix p * dhLocal sin cos (chain.mPSM1OriginPSM1Tip 5) (psm.jnt_pos 5) ∧
        toMatrix g = toMatrix y * dhLocal sin cos (chain.mPSM1OriginPSM1Tip 6) (psm.jnt_pos 6) ∧
        toMatrix p' =
          toMatrix roll * dhLocal sin cos (chain.mPSM1OriginPSM1Tip 4) (psm'.jnt_pos 4) ∧
        toMatrix y' = toMatrix p' * dhLocal sin cos (chain.mPSM1OriginPSM1Tip 5) (psm'.jnt_pos 5) ∧
        toMatrix g' =
          toMatrix y' * dhLocal sin cos (chain.mPSM1OriginPSM1Tip 6) (psm'.jnt_pos 6)) ∧
    (∃ roll p y g p' y' g' : GLMat R,
      (buildKinematicChainPSM2 sin cos chain psm A suj frames).frames.poses_ =
          frames.poses_ ++ [roll, p, y, g] ∧
        (buildKinematicChainPSM2 sin cos chain psm' A' suj' frames').frames.poses_ =
          frames'.poses_ ++ [roll, p', y', g'] ∧
        toMatrix p = toMatrix roll * dhLocal sin cos (chain.mPSM2OriginPSM2Tip 4) (psm.jnt_pos 4) ∧
        toMatrix y = toMatrix p * dhLocal sin cos (chain.mPSM2OriginPSM2Tip 5) (psm.jnt_pos 5) ∧
        toMatrix g = toMatrix y * dhLocal sin cos (chain.mPSM2OriginPSM2Tip 6) (psm.jnt_pos 6) ∧
        toMatrix p' =
          toMatrix roll * dhLocal sin cos (chain.mPSM2OriginPSM2Tip 4) (psm'.jnt_pos 4) ∧
        toMatrix y' = toMatrix p' * dhLocal sin cos (chain.mPSM2OriginPSM2Tip 5) (psm'.jnt_pos 5) ∧
        toMatrix g' =
          toMatrix y' * dhLocal sin cos (chain.mPSM2OriginPSM2Tip 6) (psm'.jnt_pos 6)) := by
  constructor
  · obtain ⟨t13, t14, t15⟩ := psm1Links_tail sin cos chain psm
    obtain ⟨t13', t14', t15'⟩ := psm1Links_tail sin cos chain psm'
    have h12 := psm1Links_take12_congr sin cos chain psm psm' hsj hq
    refine ⟨ofMatrix (rightProduct ((psm1Links sin cos chain psm).take 12)),
      ofMatrix (rightProduct ((psm1Links sin cos chain psm).take 13)),
      ofMatrix (rightProduct ((psm1Links sin cos chain psm).take 14)),
      ofMatrix (rightProduct (psm1Links sin cos chain psm)),
      ofMatrix (rightProduct ((psm1Links sin cos chain psm').take 13)),
      ofMatrix (rightProduct ((psm1Links sin cos chain psm').take 14)),
      ofMatrix (rightProduct (psm1Links sin cos chain psm')), ?_, ?_, ?_⟩
    · rw [buildKinematicChainPSM1_eq]
    · rw [buildKinematicChainPSM1_eq, h12]
    · simp only [toMatrix_ofMatrix]
      rw [t13, t14, t15, t13', t14', t15', h12]
      exact ⟨rfl, rfl, rfl, rfl, rfl, rfl⟩
  · obtain ⟨t13, t14, t15⟩ := psm2Links_tail sin cos chain psm
    obtain ⟨t13', t14', t15'⟩ := psm2Links_tail sin cos chain psm'
    have h12 := psm2Links_take12_congr sin cos chain psm psm' hsj hq
    refine ⟨ofMatrix (rightProduct ((psm2Links sin cos chain psm).take 12)),
      ofMatrix (rightProduct ((psm2Links sin cos chain psm).take 13)),
      ofMatrix (rightProduct ((psm2Links sin cos chain psm).take 14)),
      ofMatrix (rightProduct (psm2Links sin cos chain psm)),
      ofMatrix (rightProduct ((psm2Links sin cos chain psm').take 13)),
      ofMatrix (rightProduct ((psm2Links sin cos chain psm').take 14)),
      ofMatrix (rightProduct (psm2Links sin cos chain psm')), ?_, ?_, ?_⟩
    · rw [buildKinematicChainPSM2_eq]
    · rw [buildKinematicChainPSM2_eq, h12]
    · simp only [toMatrix_ofMatrix]
      rw [t13, t14, t15, t13', t14', t15', h12]
      exact ⟨rfl, rfl, rfl, rfl, rfl, rfl⟩

/-- C9, witness: the joint states `psmZero` and `psmPitch` agree on the
setup-joint angles and on arm joints 0 to 3 and differ in arm joint 4, and
both evaluations start their output with the same roll snapshot. -/
theorem roll_independent_of_wrist_witness :
    (psmZero : API_PSM ℝ).jnt_pos 4 ≠ (psmPitch : API_PSM ℝ).jnt_pos 4 ∧
      ∃ roll : GLMat ℝ,
        (buildKinematicChainPSM1 Real.sin Real.cos fixedChain psmZero uninit ⟨[]⟩
            ⟨[]⟩).frames.poses_.head? = some roll ∧
          (buildKinematicChainPSM1 Real.sin Real.cos fixedChain psmPitch uninit ⟨[]⟩
            ⟨[]⟩).frames.poses_.head? = some roll := by
  refine ⟨by simp [psmZero, psmPitch], ?_⟩
  obtain ⟨⟨roll, p, y, g, p', y', g', h, h', -⟩, -⟩ :=
    roll_independent_of_wrist Real.sin Real.cos (fixedChain : DaVinciKinematicChain ℝ)
      psmZero psmPitch uninit uninit ⟨[]⟩ ⟨[]⟩ ⟨[]⟩ ⟨[]⟩ (fun _ => rfl)
      (fun j hj => by
        have h4 : j ≠ 4 := fun e => by rw [e] at hj; exact absurd hj (by decide)
        simp [psmZero, psmPitch, h4])
  exact ⟨roll, by rw [h]; rfl, by rw [h']; rfl⟩

/-- C9, counterexample: on a chain whose arm link 4 is FIXED, the joint
states `psmZero` and `psmPitch` differ only in arm joint 4, yet the
wrist-pitch, wrist-yaw and gripper snapshots do not change. -/
theorem wrist_snapshots_unchanged_on_fixed_link :
    (psmZero : API_PSM ℝ).jnt_pos 4 ≠ (psmPitch : API_PSM ℝ).jnt_pos 4 ∧
      ¬ ((buildKinematicChainPSM1 Real.sin Real.cos fixedChain psmZero uninit ⟨[]⟩
              ⟨[]⟩).frames.poses_[1]? ≠
            (buildKinematicChainPSM1 Real.sin Real.cos fixedChain psmPitch uninit ⟨[]⟩
              ⟨[]⟩).frames.poses_[1]? ∧
          (buildKinematicChainPSM1 Real.sin Real.cos fixedChain psmZero uninit ⟨[]⟩
              ⟨[]⟩).frames.poses_[2]? ≠
            (buildKinematicChainPSM1 Real.sin Real.cos fixedChain psmPitch uninit ⟨[]⟩
              ⟨[]⟩).frames.poses_[2]? ∧
          (buildKinematicChainPSM1 Real.sin Real.cos fixedChain psmZero uninit ⟨[]⟩
              ⟨[]⟩).frames.poses_[3]? ≠
            (buildKinematicChainPSM1 Real.sin Real.cos fixedChain psmPitch uninit ⟨[]⟩
              ⟨[]⟩).frames.poses_[3]?) := by
  refine ⟨by simp [psmZero, psmPitch], ?_⟩
  rw [buildKinematicChainPSM1_eq, buildKinematicChainPSM1_eq,
    psm1Links_fixedChain Real.sin Real.cos psmZero psmPitch]
  rintro ⟨h, -, -⟩
  exact h rfl

/-- C10, as amended: for any two prior contents of the accumulator and of
the containers, `buildKinematicChainPSM1` (and `buildKinematicChainPSM2`)
with the same chain description and joint state leave the same accumulator
and append the same four transforms to whatever `frames` held before; into
an empty container the result is exactly those four. -/
theorem buildKinematicChainPSM_appends_fresh (sin cos : R → R)
    (chain : DaVinciKinematicChain R) (psm : API_PSM R) (A A' : GLMat R)
    (suj suj' frames frames' : Pose R) :
    ((buildKinematicChainPSM1 sin cos chain psm A suj frames).A =
        (buildKinematicChainPSM1 sin cos chain psm A' suj' frames').A ∧
      ∃ four : List (GLMat R), four.length = 4 ∧
        (buildKinematicChainPSM1 sin cos chain psm A suj frames).frames.poses_ =
          frames.poses_ ++ four ∧
        (buildKinematicChainPSM1 sin cos chain psm A' suj' frames').frames.poses_ =
          frames'.poses_ ++ four ∧
        (buildKinematicChainPSM1 sin cos chain psm A suj ⟨[]⟩).frames.poses_ = four) ∧
    ((buildKinematicChainPSM2 sin cos chain psm A suj frames).A =
        (buildKinematicChainPSM2 sin cos chain psm A' suj' frames').A ∧
      ∃ four : List (GLMat R), four.length = 4 ∧
        (buildKinematicChainPSM2 sin cos chain psm A suj frames).frames.poses_ =
          frames.poses_ ++ four ∧
        (buildKinematicChainPSM2 sin cos chain psm A' suj' frames').frames.poses_ =
          frames'.poses_ ++ four ∧
        (buildKinematicChainPSM2 sin cos chain psm A suj ⟨[]⟩).frames.poses_ = four) := by
  rw [buildKinematicChainPSM1_eq, buildKinematicChainPSM1_eq, buildKinematicChainPSM1_eq,
    buildKinematicChainPSM2_eq, buildKinematicChainPSM2_eq, buildKinematicChainPSM2_eq]
  exact ⟨⟨rfl, [_, _, _, _], rfl, rfl, rfl, rfl⟩, ⟨rfl, [_, _, _, _], rfl, rfl, rfl, rfl⟩⟩

/-- C10, counterexample: called with a container that already holds one
transform, `buildKinematicChainPSM1` does not leave exactly four transforms
in it: the earlier entry is carried over. -/
theorem buildKinematicChainPSM1_keeps_prior_frames :
    ¬ ∃ roll wrist_pitch wrist_yaw grip : GLMat ℝ,
      (buildKinematicChainPSM1 Real.sin Real.cos fixedChain psmZero uninit ⟨[]⟩
        ⟨[uninit]⟩).frames.poses_ = [roll, wrist_pitch, wrist_yaw, grip] := by
  rw [buildKinematicChainPSM1_eq]
  rintro ⟨r, p, y, g, h⟩
  have hl := congrArg List.length h
  simp at hl

end Builders

/-! ## Algebraic properties and rigidity -/

section Algebra

variable {R : Type} [Field R]

/-- C15: for every 4x4 array `T`, composing `T` onto the identity
(`glhSetIdentity` on `B`, then `glhMultMatrixRight T B`) leaves `B` equal to
`T`, and composing the identity onto `T` (`B = T`, then `glhMultMatrixRight`
with the result of `glhSetIdentity`) leaves `B` equal to `T`. -/
theorem glhMultMatrixRight_identity (T B I0 : GLMat R) :
    (glhMultMatrixRight T (glhSetIdentity B)).2 = T ∧
      (glhMultMatrixRight (glhSetIdentity I0) T).2 = T := by
  constructor <;> apply toMatrix_injective <;>
    rw [toMatrix_glhMultMatrixRight, toMatrix_glhSetIdentity]
  · exact Matrix.one_mul _
  · exact Matrix.mul_one _

/-- C16: for every Denavit-Hartenberg link with joint type FIXED, every
accumulator and every two joint variables, `extendChain` produces the same
accumulator: the output does not depend on the joint variable. -/
theorem extendChainDH_fixed_independent (sin cos : R → R) (frame : DenavitHartenbergFrame R)
    (hfixed : frame.mJointType = JointTypeEnum.FIXED) (A : GLMat R) (q1 q2 : R) :
    extendChainDH sin cos frame A q1 = extendChainDH sin cos frame A q2 := by
  simp only [extendChainDH, denavitHartenbergDH, hfixed]

/-- C16, witness: the link `fixedLink` is FIXED, and joint variables 1 and 2
give the same accumulator. -/
theorem extendChainDH_fixed_independent_witness :
    (fixedLink : DenavitHartenbergFrame ℝ).mJointType = JointTypeEnum.FIXED ∧
      extendChainDH Real.sin Real.cos fixedLink (glhSetIdentity uninit) 1 =
        extendChainDH Real.sin Real.cos fixedLink (glhSetIdentity uninit) 2 :=
  ⟨rfl, extendChainDH_fixed_independent Real.sin Real.cos fixedLink rfl _ 1 2⟩

/-- C17, counterexample: theta = 1 with joint variable 0.  The angle
theta + 2 pi reaches the code as the double `1.0 + 2 * M_PI`: a 53-bit
multiple of 2^-50 within 2^-51, half the spacing of the doubles between 4 and
8, of 1 + 2 pi, hence the double nearest to it.  The rotation block of the
ROTARY link at that angle is not the block at theta = 1: the entries
cos theta at (0, 0) and sin theta at (1, 0), which at theta = 1 lie between
1/2 and 1 where doubles are 2^-53 apart, each differ by more than 2^-53, so
a cosine and a sine rounded to the nearest double are different doubles. -/
theorem rotary_two_pi_not_bit_identical :
    (∃ m : ℕ, 2 ^ 52 ≤ m ∧ m < 2 ^ 53 ∧ onePlusTwoPiDouble = m / 2 ^ 50) ∧
      |((onePlusTwoPiDouble : ℚ) : ℝ) - (1 + 2 * Real.pi)| < 1 / 2 ^ 51 ∧
      rotationBlock (dhLocal Real.sin Real.cos (rotaryLink ((onePlusTwoPiDouble : ℚ) : ℝ)) 0) ≠
        rotationBlock (dhLocal Real.sin Real.cos (rotaryLink 1) 0) ∧
      1 / 2 ^ 53 <
        dhLocal Real.sin Real.cos (rotaryLink ((onePlusTwoPiDouble : ℚ) : ℝ)) 0 0 0 -
          dhLocal Real.sin Real.cos (rotaryLink 1) 0 0 0 ∧
      1 / 2 ^ 53 <
        dhLocal Real.sin Real.cos (rotaryLink 1) 0 1 0 -
          dhLocal Real.sin Real.cos (rotaryLink ((onePlusTwoPiDouble : ℚ) : ℝ)) 0 1 0 ∧
      (1 / 2 ≤ dhLocal Real.sin Real.cos (rotaryLink 1) 0 0 0 ∧
        dhLocal Real.sin Real.cos (rotaryLink 1) 0 0 0 < 1) ∧
      (1 / 2 ≤ dhLocal Real.sin Real.cos (rotaryLink 1) 0 1 0 ∧
        dhLocal Real.sin Real.cos (rotaryLink 1) 0 1 0 < 1) := by
  obtain ⟨hx1, hx2⟩ := twoPiDouble_gap
  have hsin := sin_one_gap _ hx1 hx2
  have hcos := cos_one_gap _ hx1 hx2
  have hs : Real.sin ((onePlusTwoPiDouble : ℚ) : ℝ) =
      Real.sin (1 - (2 * Real.pi - ((twoPiDouble : ℚ) : ℝ))) := by
    rw [onePlusTwoPiDouble_eq, Real.sin_add_two_pi]
  have hc : Real.cos ((onePlusTwoPiDouble : ℚ) : ℝ) =
      Real.cos (1 - (2 * Real.pi - ((twoPiDouble : ℚ) : ℝ))) := by
    rw [onePlusTwoPiDouble_eq, Real.cos_add_two_pi]
  have hc1 : (1 / 2 : ℝ) ≤ Real.cos 1 := by
    have := @Real.one_sub_sq_div_two_le_cos 1
    norm_num at this
    linarith
  have hc2 : Real.cos 1 < 1 := lt_of_le_of_lt Real.cos_one_le (by norm_num)
  have hs1 : (1 / 2 : ℝ) ≤ Real.sin 1 := by
    have := @Real.sin_gt_sub_cube 1 one_pos le_rfl
    norm_num at this
    linarith
  have hs2 : Real.sin 1 < 1 := Real.sin_lt one_pos
  simp only [dhLocal_rotaryLink_00, dhLocal_rotaryLink_10]
  refine ⟨⟨8200137658871064, by norm_num, by norm_num, ?_⟩, ?_, ?_, ?_, ?_, ⟨hc1, hc2⟩,
    ⟨hs1, hs2⟩⟩
  · norm_num [onePlusTwoPiDouble, twoPiDouble]
  · rw [onePlusTwoPiDouble_eq, abs_lt]
    constructor <;> norm_num at hx1 hx2 ⊢ <;> linarith
  · intro h
    have h00 := congrFun (congrFun h 0) 0
    rw [rotationBlock_00, rotationBlock_00, dhLocal_rotaryLink_00, dhLocal_rotaryLink_00, hc]
      at h00
    rw [h00] at hcos
    norm_num at hcos
  · rw [hc]
    exact hcos
  · rw [hs]
    exact hsin

/-- C17, amended: in exact real arithmetic, with `sin` and `cos` the real
functions and theta + 2 pi the real number, for every ROTARY link (a, alpha,
d fixed) and every joint variable q, replacing theta by theta + 2 pi gives
the same local transform, hence the same 3x3 rotation block and the same
accumulator after `extendChain`. -/
theorem rotary_two_pi_periodic (a alpha d theta q : ℝ) (A : GLMat ℝ) :
    denavitHartenbergDH Real.sin Real.cos ⟨a, alpha, d, theta + 2 * Real.pi,
          JointTypeEnum.ROTARY⟩ q =
        denavitHartenbergDH Real.sin Real.cos ⟨a, alpha, d, theta, JointTypeEnum.ROTARY⟩ q ∧
      rotationBlock (dhLocal Real.sin Real.cos ⟨a, alpha, d, theta + 2 * Real.pi,
          JointTypeEnum.ROTARY⟩ q) =
        rotationBlock (dhLocal Real.sin Real.cos ⟨a, alpha, d, theta, JointTypeEnum.ROTARY⟩ q) ∧
      extendChainDH Real.sin Real.cos ⟨a, alpha, d, theta + 2 * Real.pi,
          JointTypeEnum.ROTARY⟩ A q =
        extendChainDH Real.sin Real.cos ⟨a, alpha, d, theta, JointTypeEnum.ROTARY⟩ A q := by
  have key : denavitHartenbergDH Real.sin Real.cos ⟨a, alpha, d, theta + 2 * Real.pi,
        JointTypeEnum.ROTARY⟩ q =
      denavitHartenbergDH Real.sin Real.cos ⟨a, alpha, d, theta, JointTypeEnum.ROTARY⟩ q := by
    simp only [denavitHartenbergDH]
    apply glhDenavitHartenberg_congr
    · rw [show theta + 2 * Real.pi + q = theta + q + 2 * Real.pi by ring, Real.sin_add_two_pi]
    · rw [show theta + 2 * Real.pi + q = theta + q + 2 * Real.pi by ring, Real.cos_add_two_pi]
  refine ⟨key, ?_, ?_⟩
  · rw [dhLocal, dhLocal, key]
  · rw [extendChainDH, extendChainDH, key]

/-- C18: for all real a, alpha, d, theta, the matrix built by
`glhDenavitHartenberg` is a rigid transform: its upper-left 3x3 block `Q`
satisfies `Q^T * Q = I` and `det Q = 1`, and its bottom row is
[0, 0, 0, 1]. -/
theorem glhDenavitHartenberg_rigid (a alpha d theta : ℝ) (A : GLMat ℝ) :
    (rotationBlock (toMatrix (glhDenavitHartenberg Real.sin Real.cos a alpha d theta A))).transpose *
        rotationBlock (toMatrix (glhDenavitHartenberg Real.sin Real.cos a alpha d theta A)) = 1 ∧
      (rotationBlock
        (toMatrix (glhDenavitHartenberg Real.sin Real.cos a alpha d theta A))).det = 1 ∧
      toMatrix (glhDenavitHartenberg Real.sin Real.cos a alpha d theta A) 3 = ![0, 0, 0, 1] := by
  rw [toMatrix_glhDenavitHartenberg]
  obtain ⟨⟨ho, hd⟩, -⟩ :=
    isRigid_dhMatrix Real.sin Real.cos Real.sin_sq_add_cos_sq a alpha d theta
  exact ⟨ho, hd, rfl⟩

/-- C19: if the rotation entries of every general frame of the chain
description form a rotation matrix, then for every joint state every
transform appended by `buildKinematicChainPSM1`, `buildKinematicChainPSM2`
and `buildKinematicChainECM1`, and the final accumulator of each, is a rigid
transform (orthonormal rotation block of determinant 1, bottom row
[0, 0, 0, 1]). -/
theorem chain_transforms_rigid (chain : DaVinciKinematicChain ℝ) (h : RotationFrames chain)
    (psm : API_PSM ℝ) (ecm : API_ECM ℝ) (A : GLMat ℝ) (suj frames : Pose ℝ) :
    (∃ out : List (GLMat ℝ), out.length = 4 ∧
        (buildKinematicChainPSM1 Real.sin Real.cos chain psm A suj frames).frames.poses_ =
          frames.poses_ ++ out ∧
        (∀ X ∈ out, IsRigid (toMatrix X)) ∧
        IsRigid (toMatrix (buildKinematicChainPSM1 Real.sin Real.cos chain psm A suj frames).A)) ∧
      (∃ out : List (GLMat ℝ), out.length = 4 ∧
        (buildKinematicChainPSM2 Real.sin Real.cos chain psm A suj frames).frames.poses_ =
          frames.poses_ ++ out ∧
        (∀ X ∈ out, IsRigid (toMatrix X)) ∧
        IsRigid (toMatrix (buildKinematicChainPSM2 Real.sin Real.cos chain psm A suj frames).A)) ∧
      (∃ out : List (GLMat ℝ), out.length = 1 ∧
        (buildKinematicChainECM1 Real.sin Real.cos chain ecm A suj frames).frames.poses_ =
          frames.poses_ ++ out ∧
        (∀ X ∈ out, IsRigid (toMatrix X)) ∧
        IsRigid (toMatrix (buildKinematicChainECM1 Real.sin Real.cos chain ecm A suj frames).A)) := by
  have h1 := isRigid_psm1Links Real.sin Real.cos Real.sin_sq_add_cos_sq chain h psm
  have h2 := isRigid_psm2Links Real.sin Real.cos Real.sin_sq_add_cos_sq chain h psm
  have h3 := isRigid_ecmLinks Real.sin Real.cos Real.sin_sq_add_cos_sq chain h ecm
  rw [buildKinematicChainPSM1_eq, buildKinematicChainPSM2_eq, buildKinematicChainECM1_eq]
  refine ⟨⟨_, ?_, rfl, ?_, ?_⟩, ⟨_, ?_, rfl, ?_, ?_⟩, ⟨_, ?_, rfl, ?_, ?_⟩⟩
  · rfl
  · simp only [List.forall_mem_cons, List.not_mem_nil, false_implies, implies_true, and_true,
      toMatrix_ofMatrix]
    exact ⟨isRigid_rightProduct_take _ h1 12, isRigid_rightProduct_take _ h1 13,
      isRigid_rightProduct_take _ h1 14, isRigid_rightProduct _ h1⟩
  · simp only [toMatrix_ofMatrix]
    exact isRigid_rightProduct _ h1
  · rfl
  · simp only [List.forall_mem_cons, List.not_mem_nil, false_implies, implies_true, and_true,
      toMatrix_ofMatrix]
    exact ⟨isRigid_rightProduct_take _ h2 12, isRigid_rightProduct_take _ h2 13,
      isRigid_rightProduct_take _ h2 14, isRigid_rightProduct _ h2⟩
  · simp only [toMatrix_ofMatrix]
    exact isRigid_rightProduct _ h2
  · rfl
  · simp only [List.forall_mem_cons, List.not_mem_nil, false_implies, implies_true, and_true,
      toMatrix_ofMatrix]
    exact isRigid_rightProduct _ h3
  · simp only [toMatrix_ofMatrix]
    exact isRigid_rightProduct _ h3

/-- C19, witness: the general frames of `fixedChain` are rotations, and the
final accumulator of each builder on it is a rigid transform. -/
theorem chain_transforms_rigid_witness :
    RotationFrames (fixedChain : DaVinciKinematicChain ℝ) ∧
      IsRigid (toMatrix
        (buildKinematicChainPSM1 Real.sin Real.cos fixedChain psmZero uninit ⟨[]⟩ ⟨[]⟩).A) ∧
      IsRigid (toMatrix
        (buildKinematicChainPSM2 Real.sin Real.cos fixedChain psmZero uninit ⟨[]⟩ ⟨[]⟩).A) ∧
      IsRigid (toMatrix
        (buildKinematicChainECM1 Real.sin Real.cos fixedChain ecmStateSJ4 uninit ⟨[]⟩ ⟨[]⟩).A) := by
  obtain ⟨⟨_, _, _, _, r1⟩, ⟨_, _, _, _, r2⟩, ⟨_, _, _, _, r3⟩⟩ :=
    chain_transforms_rigid fixedChain rotationFrames_fixedChain psmZero ecmStateSJ4 uninit
      ⟨[]⟩ ⟨[]⟩
  exact ⟨rotationFrames_fixedChain, r1, r2, r3⟩

/-- C20: for every chain description whose PSM1-side tables equal its
PSM2-side tables and every joint state, `buildKinematicChainPSM1` and
`buildKinematicChainPSM2` leave the same accumulator and the same four
appended transforms in the same order. -/
theorem buildKinematicChainPSM1_eq_PSM2 (sin cos : R → R) (chain : DaVinciKinematicChain R)
    (hW : chain.mWorldOriginSUJ1Origin = chain.mWorldOriginSUJ2Origin)
    (hS : chain.mSUJ1OriginSUJ1Tip = chain.mSUJ2OriginSUJ2Tip)
    (hT : chain.mSUJ1TipPSM1Origin = chain.mSUJ2TipPSM2Origin)
    (hP : chain.mPSM1OriginPSM1Tip = chain.mPSM2OriginPSM2Tip)
    (psm : API_PSM R) (A : GLMat R) (suj frames : Pose R) :
    buildKinematicChainPSM1 sin cos chain psm A suj frames =
      buildKinematicChainPSM2 sin cos chain psm A suj frames := by
  have hl : psm1Links sin cos chain psm = psm2Links sin cos chain psm := by
    simp only [psm1Links, psm2Links, hW, hS, hT, hP]
  rw [buildKinematicChainPSM1_eq, buildKinematicChainPSM2_eq, hl]

/-- C20, witness: the PSM1-side and PSM2-side tables of `fixedChain` are
equal, and both builders give the same result on it. -/
theorem buildKinematicChainPSM1_eq_PSM2_witness :
    buildKinematicChainPSM1 Real.sin Real.cos fixedChain psmPitch uninit ⟨[]⟩ ⟨[]⟩ =
      buildKinematicChainPSM2 Real.sin Real.cos fixedChain psmPitch uninit ⟨[]⟩ ⟨[]⟩ :=
  buildKinematicChainPSM1_eq_PSM2 Real.sin Real.cos fixedChain rfl rfl rfl rfl psmPitch uninit
    ⟨[]⟩ ⟨[]⟩

end Algebra

/-! ## The pose grabbers -/

section GrabberTheorems

variable {R : Type} [Field R]

/-- C12: when the configuration holds the selector `s` under the key
"joint", the selector is accepted exactly when `s` is "PSM1", "PSM2" or
"ECM", and it maps to the variant of that name; for any other string both
constructors, once the name check has passed, fail with "Error, bad joint"
having opened no joint or pose file: the only event before the failure is
the model load of the base constructor. -/
theorem selector_contract (env : CtorEnv R) (chain_ : DaVinciKinematicChain R)
    (shaft_pose_ shaft_transform_ : GLMat R) (reader : ConfigReader) (output_dir s : String)
    (hj : reader.get_element "joint" = Except.ok s) :
    (selectJoint reader = Except.ok DaVinciJoint.PSM1 ↔ s = "PSM1") ∧
      (selectJoint reader = Except.ok DaVinciJoint.PSM2 ↔ s = "PSM2") ∧
      (selectJoint reader = Except.ok DaVinciJoint.ECM ↔ s = "ECM") ∧
      ((∃ v, selectJoint reader = Except.ok v) ↔ (s = "PSM1" ∨ s = "PSM2" ∨ s = "ECM")) ∧
      ((s ≠ "PSM1" ∧ s ≠ "PSM2" ∧ s ≠ "ECM") →
        selectJoint reader = Except.error "Error, bad joint" ∧
        (∀ name, reader.get_element "name" = Except.ok name →
          env.checkSelfName "dh-davinci-grabber" name = Except.ok () →
          DHDaVinciPoseGrabber_ctor env chain_ shaft_transform_ reader output_dir =
            (BaseDaVinciPoseGrabber_ctor reader, Except.error "Error, bad joint")) ∧
        (∀ name, reader.get_element "name" = Except.ok name →
          env.checkSelfName "se3-davinci-grabber" name = Except.ok () →
          SE3DaVinciPoseGrabber_ctor env chain_ shaft_pose_ shaft_transform_ reader output_dir =
            (BaseDaVinciPoseGrabber_ctor reader, Except.error "Error, bad joint")) ∧
        ∀ e ∈ BaseDaVinciPoseGrabber_ctor reader, e.opensFile = false) := by
  have hsel := selectJoint_of_joint reader s hj
  have h12 : ("PSM1" : String) ≠ "PSM2" := by decide
  have h1e : ("PSM1" : String) ≠ "ECM" := by decide
  have h2e : ("PSM2" : String) ≠ "ECM" := by decide
  refine ⟨?_, ?_, ?_, ?_, ?_⟩
  · rw [hsel]
    constructor
    · intro h
      by_contra hne
      rw [if_neg hne] at h
      split_ifs at h <;> cases h
    · intro h
      rw [if_pos h]
  · rw [hsel]
    constructor
    · intro h
      by_contra hne
      split_ifs at h <;> cases h
    · intro h
      subst h
      rw [if_neg (Ne.symm h12), if_pos rfl]
  · rw [hsel]
    constructor
    · intro h
      by_contra hne
      split_ifs at h <;> cases h
    · intro h
      subst h
      rw [if_neg (Ne.symm h1e), if_neg (Ne.symm h2e), if_pos rfl]
  · rw [hsel]
    constructor
    · rintro ⟨v, h⟩
      by_contra hne
      push_neg at hne
      rw [if_neg hne.1, if_neg hne.2.1, if_neg hne.2.2] at h
      cases h
    · rintro (h | h | h)
      · exact ⟨_, by rw [if_pos h]⟩
      · subst h
        exact ⟨_, by rw [if_neg (Ne.symm h12), if_pos rfl]⟩
      · subst h
        exact ⟨_, by rw [if_neg (Ne.symm h1e), if_neg (Ne.symm h2e), if_pos rfl]⟩
  · rintro ⟨n1, n2, n3⟩
    have hbad : selectJoint reader = Except.error "Error, bad joint" := by
      rw [hsel, if_neg n1, if_neg n2, if_neg n3]
    refine ⟨hbad, ?_, ?_, baseCtor_opens_no_file reader⟩
    · intro name hname hcheck
      simp only [DHDaVinciPoseGrabber_ctor, hname, hcheck, hbad]
    · intro name hname hcheck
      simp only [SE3DaVinciPoseGrabber_ctor, hname, hcheck, hbad]

/-- C12, witness: the configuration `badJointConfig` holds the selector
"PSM3", and both constructors fail on it with "Error, bad joint" and no
event at all. -/
theorem selector_contract_witness :
    badJointConfig.get_element "joint" = Except.ok "PSM3" ∧
      DHDaVinciPoseGrabber_ctor (permissiveEnv : CtorEnv ℝ) fixedChain uninit badJointConfig
        "out" = ([], Except.error "Error, bad joint") ∧
      SE3DaVinciPoseGrabber_ctor (permissiveEnv : CtorEnv ℝ) fixedChain shiftedPose uninit
        badJointConfig "out" = ([], Except.error "Error, bad joint") := by
  have hj : badJointConfig.get_element "joint" = Except.ok "PSM3" := by
    simp [ConfigReader.get_element, badJointConfig, List.lookup]
  have hn : badJointConfig.get_element "name" = Except.ok "dh-davinci-grabber" := by
    simp [ConfigReader.get_element, badJointConfig, List.lookup]
  obtain ⟨-, -, -, -, hbad⟩ :=
    selector_contract (permissiveEnv : CtorEnv ℝ) fixedChain shiftedPose uninit badJointConfig
      "out" "PSM3" hj
  obtain ⟨-, hdh, hse3, -⟩ := hbad ⟨by decide, by decide, by decide⟩
  have hb : BaseDaVinciPoseGrabber_ctor badJointConfig = [] := by
    simp [BaseDaVinciPoseGrabber_ctor, ConfigReader.get_element, badJointConfig, List.lookup]
  rw [hb] at hdh hse3
  exact ⟨hj, hdh "dh-davinci-grabber" hn rfl, hse3 "dh-davinci-grabber" hn rfl⟩

/-- C13: for every `DHDaVinciPoseGrabber` state whose four vectors have the
joint counts of its variant, and for every joint index, the value that
`GetPose` hands to the chain builder is the raw reading plus its offset:
`sj_joint_angles[i] = base_joints_[i] + base_offsets_[i]` and
`jnt_pos[i] = arm_joints_[i] + arm_offsets_[i]`; with all offsets zero the
raw readings reach the builder unchanged, and zero is what the constructor
leaves in the offsets when no offsets are configured. -/
theorem GetPose_adds_offsets (sin cos : R → R) (g : DHDaVinciPoseGrabber R)
    (ecm0 : API_ECM R) (psm0 : API_PSM R)
    (hb : g.base_joints_.length = 6) (hbo : g.base_offsets_.length = 6)
    (ha : g.arm_joints_.length = numArmJoints g.target_joint_)
    (hao : g.arm_offsets_.length = numArmJoints g.target_joint_) :
    (g.target_joint_ = DaVinciJoint.ECM →
      ∃ ecm : API_ECM R,
        DHDaVinciPoseGrabber.GetPose sin cos g ecm0 psm0 = Except.ok
            (buildKinematicChainECM1 sin cos g.chain_ ecm g.shaft_transform_ g.suj_frames
              g.frames) ∧
          (∀ i : Fin 6, ecm.sj_joint_angles i =
            g.base_joints_.getD i.val 0 + g.base_offsets_.getD i.val 0) ∧
          (∀ j : Fin 4, ecm.jnt_pos j =
            g.arm_joints_.getD j.val 0 + g.arm_offsets_.getD j.val 0) ∧
          ((∀ o ∈ g.base_offsets_, o = 0) →
            ∀ i : Fin 6, ecm.sj_joint_angles i = g.base_joints_.getD i.val 0) ∧
          ((∀ o ∈ g.arm_offsets_, o = 0) →
            ∀ j : Fin 4, ecm.jnt_pos j = g.arm_joints_.getD j.val 0)) ∧
      (g.target_joint_ ≠ DaVinciJoint.ECM →
        ∃ psm : API_PSM R,
          DHDaVinciPoseGrabber.GetPose sin cos g ecm0 psm0 = Except.ok
              (if g.target_joint_ = DaVinciJoint.PSM1 then
                buildKinematicChainPSM1 sin cos g.chain_ psm g.shaft_transform_ g.suj_frames
                  g.frames
              else
                buildKinematicChainPSM2 sin cos g.chain_ psm g.shaft_transform_ g.suj_frames
                  g.frames) ∧
            (∀ i : Fin 6, psm.sj_joint_angles i =
              g.base_joints_.getD i.val 0 + g.base_offsets_.getD i.val 0) ∧
            (∀ j : Fin 7, psm.jnt_pos j =
              g.arm_joints_.getD j.val 0 + g.arm_offsets_.getD j.val 0) ∧
            ((∀ o ∈ g.base_offsets_, o = 0) →
              ∀ i : Fin 6, psm.sj_joint_angles i = g.base_joints_.getD i.val 0) ∧
            ((∀ o ∈ g.arm_offsets_, o = 0) →
              ∀ j : Fin 7, psm.jnt_pos j = g.arm_joints_.getD j.val 0)) ∧
      (∀ (env : CtorEnv R) (chain_ : DaVinciKinematicChain R) (shaft_transform_ : GLMat R)
          (reader : ConfigReader) (output_dir : String) (ev : List Event)
          (g' : DHDaVinciPoseGrabber R),
        DHDaVinciPoseGrabber_ctor env chain_ shaft_transform_ reader output_dir =
            (ev, Except.ok g') →
          ((∀ v, reader.get_element "base-offset" ≠ Except.ok v) ∨
            (∀ v, reader.get_element "arm-offset" ≠ Except.ok v)) →
          (∀ o ∈ g'.base_offsets_, o = 0) ∧ (∀ o ∈ g'.arm_offsets_, o = 0)) := by
  have zero_getD : ∀ (l : List R), (∀ o ∈ l, o = 0) → ∀ k : Nat, l.getD k 0 = 0 := by
    intro l hl k
    by_cases hk : k < l.length
    · rw [List.getD_eq_getElem _ 0 hk]
      exact hl _ (List.getElem_mem hk)
    · rw [List.getD_eq_default _ 0 (by omega)]
  refine ⟨?_, ?_, ?_⟩
  · intro ht
    rw [ht] at ha hao
    refine ⟨⟨fun i => g.base_joints_.getD i.val 0 + g.base_offsets_.getD i.val 0,
      fun j => g.arm_joints_.getD j.val 0 + g.arm_offsets_.getD j.val 0⟩, ?_, fun _ => rfl,
      fun _ => rfl, ?_, ?_⟩
    · simp only [DHDaVinciPoseGrabber.GetPose, ht, if_true, loadECMData,
        storeJoints_ok _ _ _ hb hbo, storeJoints_ok _ _ _ ha hao, bind, Except.bind, pure,
        Except.pure]
      rfl
    · intro hz i
      simp only [zero_getD _ hz, add_zero]
    · intro hz j
      simp only [zero_getD _ hz, add_zero]
  · intro ht
    have ha7 : numArmJoints g.target_joint_ = 7 := by
      cases hc : g.target_joint_
      · rfl
      · rfl
      · exact absurd hc ht
    rw [ha7] at ha hao
    have h12 : g.target_joint_ = DaVinciJoint.PSM1 ∨ g.target_joint_ = DaVinciJoint.PSM2 := by
      cases hc : g.target_joint_
      · exact Or.inl rfl
      · exact Or.inr rfl
      · exact absurd hc ht
    refine ⟨⟨fun i => g.base_joints_.getD i.val 0 + g.base_offsets_.getD i.val 0,
      fun j => g.arm_joints_.getD j.val 0 + g.arm_offsets_.getD j.val 0⟩, ?_, fun _ => rfl,
      fun _ => rfl, ?_, ?_⟩
    · simp only [DHDaVinciPoseGrabber.GetPose, if_neg ht, if_pos h12, loadPSMData,
        storeJoints_ok _ _ _ hb hbo, storeJoints_ok _ _ _ ha hao, bind, Except.bind, pure,
        Except.pure]
      rcases h12 with h1 | h2
      · simp only [h1, if_true]
      · simp only [h2, if_true, reduceCtorEq, if_false]
    · intro hz i
      simp only [zero_getD _ hz, add_zero]
    · intro hz j
      simp only [zero_getD _ hz, add_zero]
  · intro env chain_ shaft_transform_ reader output_dir ev g' hctor hmissing
    obtain ⟨-, -, hz⟩ := ctor_vectors env chain_ shaft_transform_ reader output_dir ev g' hctor
    obtain ⟨hzb, hza⟩ := hz hmissing
    rw [hzb, hza]
    exact ⟨fun o ho => List.eq_of_mem_replicate ho, fun o ho => List.eq_of_mem_replicate ho⟩

/-- C13, witness: the vectors of `sizedGrabber` have the joint counts of
PSM1, and `GetPose` hands the builder a joint state whose setup-joint angle 2
is 3 + 30. -/
theorem GetPose_adds_offsets_witness :
    (sizedGrabber : DHDaVinciPoseGrabber ℝ).base_joints_.length = 6 ∧
      ∃ psm : API_PSM ℝ,
        DHDaVinciPoseGrabber.GetPose Real.sin Real.cos sizedGrabber ecmStateSJ4 psmStale =
            Except.ok (buildKinematicChainPSM1 Real.sin Real.cos fixedChain psm uninit ⟨[]⟩
              ⟨[]⟩) ∧
          psm.sj_joint_angles 2 = 3 + 30 := by
  obtain ⟨-, hpsm, -⟩ :=
    GetPose_adds_offsets Real.sin Real.cos (sizedGrabber : DHDaVinciPoseGrabber ℝ) ecmStateSJ4
      psmStale rfl rfl rfl rfl
  obtain ⟨psm, hget, hsj, -⟩ := hpsm (by simp [sizedGrabber, psm1Grabber])
  refine ⟨rfl, psm, ?_, ?_⟩
  · rw [hget]
    rfl
  · rw [hsj 2]
    rfl

/-- C14, the code at the failing input: on an SE3-tracked PSM1 grabber whose
base transform `shaft_pose_` has translation 5 along x, `GetModelPose` runs
the full chain builder `buildKinematicChainPSM1`, which resets the
accumulator to the identity and walks the setup-joint chain: the shaft
transform afterwards is the identity, not `shaft_pose_`. -/
theorem SE3_GetModelPose_runs_full_chain :
    ∃ (res : BuildResult ℝ) (psm : API_PSM ℝ),
      SE3DaVinciPoseGrabber.GetModelPose Real.sin Real.cos (se3Grabber : SE3DaVinciPoseGrabber ℝ)
          psmStale = Except.ok res ∧
        res = buildKinematicChainPSM1 Real.sin Real.cos fixedChain psm
          (se3Grabber : SE3DaVinciPoseGrabber ℝ).shaft_pose_ ⟨[]⟩ ⟨[]⟩ ∧
        toMatrix res.A = 1 ∧
        toMatrix (se3Grabber : SE3DaVinciPoseGrabber ℝ).shaft_pose_ 0 3 = 5 ∧
        res.A ≠ (se3Grabber : SE3DaVinciPoseGrabber ℝ).shaft_pose_ := by
  have hloop : ∃ jp : Fin 7 → ℝ, (List.range 3).foldlM
      (fun d i => storeWrist d ([0, 0, 0] : List ℝ) i) (psmStale : API_PSM ℝ).jnt_pos =
        Except.ok jp := by
    exact ⟨_, rfl⟩
  obtain ⟨jp, hjp⟩ := hloop
  have hA : toMatrix (buildKinematicChainPSM1 Real.sin Real.cos fixedChain
      (⟨(psmStale : API_PSM ℝ).sj_joint_angles, jp⟩ : API_PSM ℝ) shiftedPose ⟨[]⟩ ⟨[]⟩).A = 1 := by
    rw [buildKinematicChainPSM1_eq]
    simp only [toMatrix_ofMatrix]
    exact rightProduct_psm1Links_fixedChain Real.sin Real.cos Real.sin_zero Real.cos_zero _
  have h5 : toMatrix (shiftedPose : GLMat ℝ) 0 3 = 5 := by
    simp [toMatrix_apply, offset_03, shiftedPose, setCell]
  refine ⟨_, ⟨(psmStale : API_PSM ℝ).sj_joint_angles, jp⟩, ?_, rfl, hA, h5, ?_⟩
  · simp only [SE3DaVinciPoseGrabber.GetModelPose, se3Grabber, hjp, bind, Except.bind, pure,
      Except.pure]
    simp
  · intro he
    change (buildKinematicChainPSM1 Real.sin Real.cos fixedChain
      (⟨(psmStale : API_PSM ℝ).sj_joint_angles, jp⟩ : API_PSM ℝ) shiftedPose ⟨[]⟩ ⟨[]⟩).A =
        shiftedPose at he
    have h03 : toMatrix (buildKinematicChainPSM1 Real.sin Real.cos fixedChain
        (⟨(psmStale : API_PSM ℝ).sj_joint_angles, jp⟩ : API_PSM ℝ) shiftedPose ⟨[]⟩ ⟨[]⟩).A 0 3 =
          toMatrix (shiftedPose : GLMat ℝ) 0 3 := by
      rw [he]
    rw [hA, h5] at h03
    simp at h03

end GrabberTheorems

/-! ## The pose conversion -/

section ConvertTheorems

variable {R : Type} [Field R]

/-- C24: for every `in_pose` and every prior `out_pose`,
`convertFromDaVinciPose` sets `out_pose` to `in_pose * diag(1, -1, -1, 1)`,
that is `in_pose` with columns 1 and 2 negated and columns 0 and 3 as they
were; the flip matrix is its own inverse, and the conversion applied to its
own output gives `in_pose` back. -/
theorem convertFromDaVinciPose_involution (in_pose out_pose out_pose' : Matrix (Fin 4) (Fin 4) R) :
    convertFromDaVinciPose in_pose out_pose = in_pose * Matrix.diagonal ![1, -1, -1, 1] ∧
      (∀ r : Fin 4,
        convertFromDaVinciPose in_pose out_pose r 0 = in_pose r 0 ∧
          convertFromDaVinciPose in_pose out_pose r 1 = -in_pose r 1 ∧
          convertFromDaVinciPose in_pose out_pose r 2 = -in_pose r 2 ∧
          convertFromDaVinciPose in_pose out_pose r 3 = in_pose r 3) ∧
      (Matrix.diagonal ![1, -1, -1, 1] : Matrix (Fin 4) (Fin 4) R) *
        Matrix.diagonal ![1, -1, -1, 1] = 1 ∧
      convertFromDaVinciPose (convertFromDaVinciPose in_pose out_pose) out_pose' = in_pose := by
  refine ⟨convertFromDaVinciPose_eq in_pose out_pose, ?_, diagonal_flip_mul_self, ?_⟩
  · intro r
    rw [convertFromDaVinciPose_eq]
    simp [Matrix.mul_apply, Fin.sum_univ_four, Matrix.diagonal]
  · rw [convertFromDaVinciPose_eq, convertFromDaVinciPose_eq, Matrix.mul_assoc,
      diagonal_flip_mul_self, Matrix.mul_one]

end ConvertTheorems

/-! ## The length scale -/

section ScaleTheorems

variable {R : Type} [Field R]

/-- C21: with the length scale as a parameter `s` (the builders at
`s = SCALE` are the builders of the source), for every chain description,
joint state and `s`, each transform appended by the PSM and ECM builders, and
the final accumulator, has the rotation block obtained with `s = 1` and a
translation column equal to `s` times the one obtained with `s = 1`; the
Denavit-Hartenberg evaluator itself scales lengths: its local transform is
the section 4.2 matrix of (s a, alpha, s d', theta'), where d' holds the
joint variable of a prismatic joint. -/
theorem length_scale_parameter (s : R) (sin cos : R → R) (chain : DaVinciKinematicChain R)
    (psm : API_PSM R) (ecm : API_ECM R) (A : GLMat R) (suj frames : Pose R) :
    (buildKinematicChainPSM1S SCALE sin cos chain psm A suj frames =
        buildKinematicChainPSM1 sin cos chain psm A suj frames ∧
      buildKinematicChainPSM2S SCALE sin cos chain psm A suj frames =
        buildKinematicChainPSM2 sin cos chain psm A suj frames ∧
      buildKinematicChainECM1S SCALE sin cos chain ecm A suj frames =
        buildKinematicChainECM1 sin cos chain ecm A suj frames) ∧
    (∃ out out1 : List (GLMat R),
      (buildKinematicChainPSM1S s sin cos chain psm A suj frames).frames.poses_ =
          frames.poses_ ++ out ∧
        (buildKinematicChainPSM1S 1 sin cos chain psm A suj frames).frames.poses_ =
          frames.poses_ ++ out1 ∧
        out.length = 4 ∧
        List.Forall₂ (fun X X1 => ScalesWith s (toMatrix X) (toMatrix X1)) out out1 ∧
        ScalesWith s (toMatrix (buildKinematicChainPSM1S s sin cos chain psm A suj frames).A)
          (toMatrix (buildKinematicChainPSM1S 1 sin cos chain psm A suj frames).A)) ∧
    (∃ out out1 : List (GLMat R),
      (buildKinematicChainPSM2S s sin cos chain psm A suj frames).frames.poses_ =
          frames.poses_ ++ out ∧
        (buildKinematicChainPSM2S 1 sin cos chain psm A suj frames).frames.poses_ =
          frames.poses_ ++ out1 ∧
        out.length = 4 ∧
        List.Forall₂ (fun X X1 => ScalesWith s (toMatrix X) (toMatrix X1)) out out1 ∧
        ScalesWith s (toMatrix (buildKinematicChainPSM2S s sin cos chain psm A suj frames).A)
          (toMatrix (buildKinematicChainPSM2S 1 sin cos chain psm A suj frames).A)) ∧
    (∃ out out1 : List (GLMat R),
      (buildKinematicChainECM1S s sin cos chain ecm A suj frames).frames.poses_ =
          frames.poses_ ++ out ∧
        (buildKinematicChainECM1S 1 sin cos chain ecm A suj frames).frames.poses_ =
          frames.poses_ ++ out1 ∧
        out.length = 1 ∧
        List.Forall₂ (fun X X1 => ScalesWith s (toMatrix X) (toMatrix X1)) out out1 ∧
        ScalesWith s (toMatrix (buildKinematicChainECM1S s sin cos chain ecm A suj frames).A)
          (toMatrix (buildKinematicChainECM1S 1 sin cos chain ecm A suj frames).A)) ∧
    (∀ (frame : DenavitHartenbergFrame R) (q : R),
      toMatrix (denavitHartenbergDHS s sin cos frame q) =
        dhMatrix sin cos (s * frame.mA) frame.mAlpha
          (s * (if frame.mJointType = JointTypeEnum.PRISMATIC then frame.mD + q else frame.mD))
          (if frame.mJointType = JointTypeEnum.ROTARY then frame.mTheta + q
            else frame.mTheta)) := by
  refine ⟨⟨buildKinematicChainPSM1S_SCALE sin cos chain psm A suj frames,
    buildKinematicChainPSM2S_SCALE sin cos chain psm A suj frames,
    buildKinematicChainECM1S_SCALE sin cos chain ecm A suj frames⟩, ?_, ?_, ?_, ?_⟩
  · have h0 := scaledInv_glhSetIdentity s A A
    have h1 := scaledInv_extendChainS s (chain.mWorldOriginSUJ1Origin 0) h0
    have h2 := scaledInv_extendChainDHS s sin cos (chain.mSUJ1OriginSUJ1Tip 0) (psm.sj_joint_angles 0) h1
    have h3 := scaledInv_extendChainDHS s sin cos (chain.mSUJ1OriginSUJ1Tip 1) (psm.sj_joint_angles 1) h2
    have h4 := scaledInv_extendChainDHS s sin cos (chain.mSUJ1OriginSUJ1Tip 2) (psm.sj_joint_angles 2) h3
    have h5 := scaledInv_extendChainDHS s sin cos (chain.mSUJ1OriginSUJ1Tip 3) (psm.sj_joint_angles 3) h4
    have h6 := scaledInv_extendChainDHS s sin cos (chain.mSUJ1OriginSUJ1Tip 4) (psm.sj_joint_angles 4) h5
    have h7 := scaledInv_extendChainDHS s sin cos (chain.mSUJ1OriginSUJ1Tip 5) (psm.sj_joint_angles 5) h6
    have h8 := scaledInv_extendChainS s (chain.mSUJ1TipPSM1Origin 0) h7
    have h9 := scaledInv_extendChainDHS s sin cos (chain.mPSM1OriginPSM1Tip 0) (psm.jnt_pos 0) h8
    have h10 := scaledInv_extendChainDHS s sin cos (chain.mPSM1OriginPSM1Tip 1) (psm.jnt_pos 1) h9
    have h11 := scaledInv_extendChainDHS s sin cos (chain.mPSM1OriginPSM1Tip 2) (psm.jnt_pos 2) h10
    have h12 := scaledInv_extendChainDHS s sin cos (chain.mPSM1OriginPSM1Tip 3) (psm.jnt_pos 3) h11
    have h13 := scaledInv_extendChainDHS s sin cos (chain.mPSM1OriginPSM1Tip 4) (psm.jnt_pos 4) h12
    have h14 := scaledInv_extendChainDHS s sin cos (chain.mPSM1OriginPSM1Tip 5) (psm.jnt_pos 5) h13
    have h15 := scaledInv_extendChainDHS s sin cos (chain.mPSM1OriginPSM1Tip 6) (psm.jnt_pos 6) h14
    simp only [buildKinematicChainPSM1S, Pose.push_back, List.append_assoc, List.cons_append,
      List.nil_append]
    exact ⟨_, _, rfl, rfl, rfl,
      List.Forall₂.cons (scalesWith_of_scaledInv s h12)
        (List.Forall₂.cons (scalesWith_of_scaledInv s h13)
          (List.Forall₂.cons (scalesWith_of_scaledInv s h14)
            (List.Forall₂.cons (scalesWith_of_scaledInv s h15) List.Forall₂.nil))),
      scalesWith_of_scaledInv s h15⟩
  · have h0 := scaledInv_glhSetIdentity s A A
    have h1 := scaledInv_extendChainS s (chain.mWorldOriginSUJ2Origin 0) h0
    have h2 := scaledInv_extendChainDHS s sin cos (chain.mSUJ2OriginSUJ2Tip 0) (psm.sj_joint_angles 0) h1
    have h3 := scaledInv_extendChainDHS s sin cos (chain.mSUJ2OriginSUJ2Tip 1) (psm.sj_joint_angles 1) h2
    have h4 := scaledInv_extendChainDHS s sin cos (chain.mSUJ2OriginSUJ2Tip 2) (psm.sj_joint_angles 2) h3
    have h5 := scaledInv_extendChainDHS s sin cos (chain.mSUJ2OriginSUJ2Tip 3) (psm.sj_joint_angles 3) h4
    have h6 := scaledInv_extendChainDHS s sin cos (chain.mSUJ2OriginSUJ2Tip 4) (psm.sj_joint_angles 4) h5
    have h7 := scaledInv_extendChainDHS s sin cos (chain.mSUJ2OriginSUJ2Tip 5) (psm.sj_joint_angles 5) h6
    have h8 := scaledInv_extendChainS s (chain.mSUJ2TipPSM2Origin 0) h7
    have h9 := scaledInv_extendChainDHS s sin cos (chain.mPSM2OriginPSM2Tip 0) (psm.jnt_pos 0) h8
    have h10 := scaledInv_extendChainDHS s sin cos (chain.mPSM2OriginPSM2Tip 1) (psm.jnt_pos 1) h9
    have h11 := scaledInv_extendChainDHS s sin cos (chain.mPSM2OriginPSM2Tip 2) (psm.jnt_pos 2) h10
    have h12 := scaledInv_extendChainDHS s sin cos (chain.mPSM2OriginPSM2Tip 3) (psm.jnt_pos 3) h11
    have h13 := scaledInv_extendChainDHS s sin cos (chain.mPSM2OriginPSM2Tip 4) (psm.jnt_pos 4) h12
    have h14 := scaledInv_extendChainDHS s sin cos (chain.mPSM2OriginPSM2Tip 5) (psm.jnt_pos 5) h13
    have h15 := scaledInv_extendChainDHS s sin cos (chain.mPSM2OriginPSM2Tip 6) (psm.jnt_pos 6) h14
    simp only [buildKinematicChainPSM2S, Pose.push_back, List.append_assoc, List.cons_append,
      List.nil_append]
    exact ⟨_, _, rfl, rfl, rfl,
      List.Forall₂.cons (scalesWith_of_scaledInv s h12)
        (List.Forall₂.cons (scalesWith_of_scaledInv s h13)
          (List.Forall₂.cons (scalesWith_of_scaledInv s h14)
            (List.Forall₂.cons (scalesWith_of_scaledInv s h15) List.Forall₂.nil))),
      scalesWith_of_scaledInv s h15⟩
  · have h0 := scaledInv_glhSetIdentity s A A
    have h1 := scaledInv_extendChainS s (chain.mWorldOriginSUJ3Origin 0) h0
    have h2 := scaledInv_extendChainDHS s sin cos (chain.mSUJ3OriginSUJ3Tip 0) (ecm.sj_joint_angles 0) h1
    have h3 := scaledInv_extendChainDHS s sin cos (chain.mSUJ3OriginSUJ3Tip 1) (ecm.sj_joint_angles 1) h2
    have h4 := scaledInv_extendChainDHS s sin cos (chain.mSUJ3OriginSUJ3Tip 2) (ecm.sj_joint_angles 2) h3
    have h5 := scaledInv_extendChainDHS s sin cos (chain.mSUJ3OriginSUJ3Tip 3) (ecm.sj_joint_angles 3) h4
    have h6 := scaledInv_extendChainDHS s sin cos (chain.mSUJ3OriginSUJ3Tip 4) 0 h5
    have h7 := scaledInv_extendChainDHS s sin cos (chain.mSUJ3OriginSUJ3Tip 5) 0 h6
    have h8 := scaledInv_extendChainS s (chain.mSUJ3TipECM1Origin 0) h7
    have h9 := scaledInv_extendChainDHS s sin cos (chain.mECM1OriginECM1Tip 0) (ecm.jnt_pos 0) h8
    have h10 := scaledInv_extendChainDHS s sin cos (chain.mECM1OriginECM1Tip 1) (ecm.jnt_pos 1) h9
    have h11 := scaledInv_extendChainDHS s sin cos (chain.mECM1OriginECM1Tip 2) (ecm.jnt_pos 2) h10
    have h12 := scaledInv_extendChainDHS s sin cos (chain.mECM1OriginECM1Tip 3) (ecm.jnt_pos 3) h11
    have h13 := scaledInv_extendChainDHS s sin cos (chain.mECM1OriginECM1Tip 4) 0 h12
    have h14 := scaledInv_extendChainDHS s sin cos (chain.mECM1OriginECM1Tip 5) 0 h13
    have h15 := scaledInv_extendChainDHS s sin cos (chain.mECM1OriginECM1Tip 6) 0 h14
    simp only [buildKinematicChainECM1S, Pose.push_back]
    exact ⟨_, _, rfl, rfl, rfl,
      List.Forall₂.cons (scalesWith_of_scaledInv s h15) List.Forall₂.nil,
      scalesWith_of_scaledInv s h15⟩
  · intro frame q
    rw [toMatrix_denavitHartenbergDHS]
    rfl

end ScaleTheorems

/-! ## The configuration reader -/

section ConfigTheorems

/-- C23: on a file that opens, the constructor of `ConfigReader` fails with
"Error, bad parse!" if and only if some line that is non-empty and does not
start with '#' does not split, after one trailing carriage return is
removed, into exactly two tokens on '='; a trailing empty field yields no
token.  So a line without '=', a line with an empty value, the line "a=b=c"
and a line made of one carriage return are rejected, and "a=b=" is accepted
as key a with value b. -/
theorem ConfigReader_bad_parse (text : List Char) (cfg : ConfigReader) :
    (ConfigReader_ctor (some text) = Except.error "Error, bad parse!" ↔
        ∃ line ∈ getlineAll '\n' text [], line ≠ [] ∧ line.head? ≠ some '#' ∧
          (split (remove_carriage_return line) '=').length ≠ 2) ∧
      split ['a', '=', 'b', '='] '=' = [['a'], ['b']] ∧
      (∀ line : List Char, line ≠ [] → line.head? ≠ some '#' → '=' ∉ line →
        ConfigReader_line cfg line = Except.error "Error, bad parse!") ∧
      (∀ key : List Char, '=' ∉ key → key.head? ≠ some '#' →
        ConfigReader_line cfg (key ++ ['=']) = Except.error "Error, bad parse!") ∧
      ConfigReader_line cfg ['k', 'e', 'y', '='] = Except.error "Error, bad parse!" ∧
      ConfigReader_line cfg ['a', '=', 'b', '=', 'c'] = Except.error "Error, bad parse!" ∧
      ConfigReader_line cfg ['\r'] = Except.error "Error, bad parse!" ∧
      ConfigReader_line cfg ['a', '=', 'b', '='] =
        Except.ok ⟨mapAssign cfg.config_ "a" "b"⟩ ∧
      ConfigReader_ctor (some ['k', 'e', 'y', '=']) = Except.error "Error, bad parse!" ∧
      ConfigReader_ctor (some ['a', '=', 'b', '=', 'c']) = Except.error "Error, bad parse!" ∧
      ConfigReader_ctor (some ['\r']) = Except.error "Error, bad parse!" ∧
      ConfigReader_ctor (some ['a', '=', 'b', '=']) = Except.ok ⟨[("a", "b")]⟩ := by
  refine ⟨?_, ?_, ?_, ?_, ?_, ?_, ?_, ?_, ?_, ?_, ?_, ?_⟩
  · exact foldlM_bad_parse_iff _ _
  · rfl
  · intro line hne hhead h
    exact ConfigReader_line_bad cfg line (badLine_of_no_delim line hne hhead h)
  · intro key hk hhead
    exact ConfigReader_line_bad cfg _ (badLine_of_empty_value key hk hhead)
  · exact ConfigReader_line_bad cfg _ (badLine_of_empty_value ['k', 'e', 'y'] (by decide)
      (by decide))
  · rfl
  · rfl
  · rfl
  · rfl
  · rfl
  · rfl
  · rfl

/-- C22, as amended: for every configuration text in which each line is
empty, starts with '#', or has the form key=value with a non-empty key and a
non-empty value, both without '=' and the value not ending in a carriage
return, optionally followed by one carriage return, the constructor
succeeds; `get_element` on a key returns the value of the last line with
that key that does not start with '#' (the carriage return after the value
is not part of it), and throws "Couldn't find key!" if and only if no such
line has the key; empty lines and lines starting with '#' contribute no
entry. -/
theorem ConfigReader_ctor_lookup (text : List Char)
    (h : ∀ line ∈ getlineAll '\n' text [], AllowedLine line) :
    ∃ cfg, ConfigReader_ctor (some text) = Except.ok cfg ∧
      (∀ k v, LastEntry (getlineAll '\n' text []) k v →
        cfg.get_element (String.mk k) = Except.ok (String.mk v)) ∧
      (∀ k, HasKey (getlineAll '\n' text []) k →
        ∃ v, LastEntry (getlineAll '\n' text []) k v) ∧
      (∀ k, cfg.get_element (String.mk k) = Except.error "Couldn't find key!" ↔
        ¬ HasKey (getlineAll '\n' text []) k) ∧
      (∀ (c : ConfigReader) (line : List Char), line = [] ∨ line.head? = some '#' →
        ConfigReader_line c line = Except.ok c) := by
  obtain ⟨cfg, hfold, hA, hB⟩ := parse_lines_spec (getlineAll '\n' text []) ⟨[]⟩ h
  refine ⟨cfg, hfold, ?_, fun k hk => lastEntry_of_hasKey _ k hk, ?_,
    fun c line hl => ConfigReader_line_skip c line hl⟩
  · intro k v hkv
    simp only [ConfigReader.get_element, hA k v hkv]
  · intro k
    constructor
    · intro herr hk
      obtain ⟨v, hv⟩ := lastEntry_of_hasKey _ k hk
      simp only [ConfigReader.get_element, hA k v hv, reduceCtorEq] at herr
    · intro hk
      have hnone : cfg.config_.lookup (String.mk k) = none := by
        rw [hB k hk]
        rfl
      simp only [ConfigReader.get_element, hnone]

/-- C22, witness: every line of `sampleConfig` is empty, a comment, or of
the form key=value, and the selector read back is the one of the last line
with the key "joint". -/
theorem ConfigReader_ctor_lookup_witness :
    getlineAll '\n' sampleConfig [] =
        [['#', ' ', 'v', 'i', 'z'], [], ['n', 'a', 'm', 'e', '=', 'v', 'i', 'z', '\r'],
          ['j', 'o', 'i', 'n', 't', '=', 'P', 'S', 'M', '1'],
          ['j', 'o', 'i', 'n', 't', '=', 'E', 'C', 'M']] ∧
      ∃ cfg, ConfigReader_ctor (some sampleConfig) = Except.ok cfg ∧
        cfg.get_element "joint" = Except.ok "ECM" ∧
        cfg.get_element "name" = Except.ok "viz" := by
  have hlines : getlineAll '\n' sampleConfig [] =
      [['#', ' ', 'v', 'i', 'z'], [], ['n', 'a', 'm', 'e', '=', 'v', 'i', 'z', '\r'],
        ['j', 'o', 'i', 'n', 't', '=', 'P', 'S', 'M', '1'],
        ['j', 'o', 'i', 'n', 't', '=', 'E', 'C', 'M']] := by rfl
  have hname : IsEntry ['n', 'a', 'm', 'e', '=', 'v', 'i', 'z', '\r'] ['n', 'a', 'm', 'e']
      ['v', 'i', 'z'] :=
    ⟨by decide, ⟨by decide, by decide, by decide, by decide, Or.inr rfl⟩, by decide⟩
  have hpsm : IsEntry ['j', 'o', 'i', 'n', 't', '=', 'P', 'S', 'M', '1']
      ['j', 'o', 'i', 'n', 't'] ['P', 'S', 'M', '1'] :=
    ⟨by decide, ⟨by decide, by decide, by decide, by decide, Or.inl rfl⟩, by decide⟩
  have hecm : IsEntry ['j', 'o', 'i', 'n', 't', '=', 'E', 'C', 'M'] ['j', 'o', 'i', 'n', 't']
      ['E', 'C', 'M'] :=
    ⟨by decide, ⟨by decide, by decide, by decide, by decide, Or.inl rfl⟩, by decide⟩
  have hall : ∀ line ∈ getlineAll '\n' sampleConfig [], AllowedLine line := by
    rw [hlines]
    intro line hl
    simp only [List.mem_cons, List.mem_singleton, List.not_mem_nil, or_false] at hl
    rcases hl with rfl | rfl | rfl | rfl | rfl
    · exact Or.inr (Or.inl rfl)
    · exact Or.inl rfl
    · exact Or.inr (Or.inr ⟨_, _, hname.2⟩)
    · exact Or.inr (Or.inr ⟨_, _, hpsm.2⟩)
    · exact Or.inr (Or.inr ⟨_, _, hecm.2⟩)
  obtain ⟨cfg, hctor, hget, -, -, -⟩ := ConfigReader_ctor_lookup sampleConfig hall
  refine ⟨hlines, cfg, hctor, ?_, ?_⟩
  · have := hget ['j', 'o', 'i', 'n', 't'] ['E', 'C', 'M'] (by
      rw [hlines]
      exact ⟨[_, _, _, _], _, [], rfl, hecm, by simp⟩)
    exact this
  · have := hget ['n', 'a', 'm', 'e'] ['v', 'i', 'z'] (by
      rw [hlines]
      refine ⟨[_, _], _, [_, _], rfl, hname, ?_⟩
      intro l hl v hv
      simp only [List.mem_cons, List.mem_singleton, List.not_mem_nil, or_false] at hl
      obtain ⟨-, ⟨-, -, -, -, hline⟩, -⟩ := hv
      rcases hl with rfl | rfl <;> rcases hline with e | e <;> simp at e)
    exact this

/-- C22, counterexample: the one-line text "k=" followed by a carriage return
has the form key=value with key "k" and the value made of that carriage
return, non-empty and without '=', yet the constructor fails on it with
"Error, bad parse!". -/
theorem ConfigReader_ctor_rejects_cr_value :
    (∀ line ∈ getlineAll '\n' ['k', '=', '\r'] [], ClaimedLine line) ∧
      ConfigReader_ctor (some ['k', '=', '\r']) = Except.error "Error, bad parse!" := by
  constructor
  · intro line hl
    have hlines : getlineAll '\n' ['k', '=', '\r'] [] = [['k', '=', '\r']] := by rfl
    rw [hlines, List.mem_singleton] at hl
    subst hl
    exact Or.inr (Or.inr ⟨['k'], ['\r'], by decide, by decide, by decide, by decide,
      Or.inl rfl⟩)
  · rfl

end ConfigTheorems

end Viz
